import Mathlib

/-!
The bonding-pool handler of `modules/bancorlite/handler.go` (bancorlite).

A shallow embedding of the three message handlers `handleMsgBancorInit`,
`handleMsgBancorCancel` and `handleMsgBancorTrade`, with the context they run in
as explicit state.

* `sdk.Int` is `Int` (the spec's arbitrary-precision integers; the library's
  255-bit overflow abort is not part of the embedding), `int64` fields are `Int`
  (they are only compared, added to an `sdk.Int` or converted with `sdk.NewInt`).
* `sdk.Dec` is the 18-place fixed-point decimal of the cosmos-sdk, held as its
  scaled integer.
* The context `Ctx` holds the block time, the parameters, the pool store of the
  `BancorInfoKeeper`, the state `W` of the external keepers (assets, markets,
  ledger), the custody calls issued so far, and the emitted events.
* A handler returns its `Result` together with the context it leaves behind; an
  error result does not undo writes already made (undoing them is the business of
  the surrounding transaction, not of the handler).
* The curve model, the pool registry and the ledger are declared outside the
  handler; their definitions here say so and follow the spec.
* `getCreateMarketMsg` of `modules/market/client/cli/tx_market.go` is embedded as
  a function of the flags viper holds and of the token query.
-/

namespace Bancorlite

/-! ## cosmos-sdk values -/

/-- The type sdk.AccAddress: a byte string. -/
abbrev AccAddress := List Nat

/-- The function bytes.Equal on addresses. -/
def bytesEqual (a b : AccAddress) : Bool := decide (a = b)

/-- The type sdk.Dec: an 18-place fixed-point decimal, held as value × 10^18. -/
structure Dec where
  raw : Int
deriving DecidableEq, Repr

/-- The scale 10^18 of sdk.Dec. -/
def precisionReuse : Int := 1000000000000000000

/-- Half of the scale, 5 × 10^17. -/
def fivePrecision : Int := 500000000000000000

/-- The decimal sdk.ZeroDec(). -/
def ZeroDec : Dec := ⟨0⟩

/-- The integer sdk.ZeroInt(). -/
def ZeroInt : Int := 0

/-- Decimal addition, exact. -/
def Dec.Add (d d2 : Dec) : Dec := ⟨d.raw + d2.raw⟩

/-- Decimal subtraction, exact. -/
def Dec.Sub (d d2 : Dec) : Dec := ⟨d.raw - d2.raw⟩

/-- Decimal times integer, exact. -/
def Dec.MulInt (d : Dec) (i : Int) : Dec := ⟨d.raw * i⟩

/-- Decimal divided by integer: the scaled value is divided with truncation
towards zero (big.Int.Quo). The library aborts on a zero divisor; here the quotient
is then 0. -/
def Dec.QuoInt (d : Dec) (i : Int) : Dec := ⟨Int.tdiv d.raw i⟩

/-- Removal of the 18 decimal places of a non-negative scaled value with
banker's rounding (the non-negative branch of chopPrecisionAndRound). -/
def chopPrecisionAndRoundNonneg (d : Int) : Int :=
  let quo := Int.tdiv d precisionReuse
  let rem := Int.tmod d precisionReuse
  if rem = 0 then quo
  else if rem < fivePrecision then quo
  else if rem > fivePrecision then quo + 1
  else if quo % 2 = 0 then quo
  else quo + 1

/-- The function chopPrecisionAndRound: a negative value is negated, rounded and
negated back. -/
def chopPrecisionAndRound (d : Int) : Int :=
  if d < 0 then -(chopPrecisionAndRoundNonneg (-d)) else chopPrecisionAndRoundNonneg d

/-- The method Dec.RoundInt. -/
def Dec.RoundInt (d : Dec) : Int := chopPrecisionAndRound d.raw

/-- The type sdk.Coin. -/
structure Coin where
  Denom : String
  Amount : Int
deriving DecidableEq, Repr

/-- The type sdk.Coins. -/
abbrev Coins := List Coin

/-- The constructor sdk.NewCoin. The library aborts on a negative amount or a
malformed denomination; the embedding covers the calls on which it returns. -/
def NewCoin (denom : String) (amount : Int) : Coin := ⟨denom, amount⟩

/-- The constructor sdk.NewCoins: zero coins are dropped. The handler only ever
passes one coin, for which the library's sorting and duplicate check do nothing. -/
def NewCoins (coins : List Coin) : Coins := coins.filter (fun c => c.Amount != 0)

/-- The method Coins.AmountOf: the amount held of one denomination. -/
def Coins.AmountOf (coins : Coins) (denom : String) : Int :=
  ((coins.filter (fun c => c.Denom = denom)).map Coin.Amount).sum

/-- An sdk.Error returned by an external keeper. -/
structure SdkError where
  codespace : String
  code : Nat
  desc : String
deriving DecidableEq, Repr

/-! ## Pool records and messages -/

/-- The record keepers.BancorInfo, with the fields the handler reads and writes. -/
structure BancorInfo where
  Owner : AccAddress
  Stock : String
  Money : String
  InitPrice : Dec
  MaxSupply : Int
  MaxPrice : Dec
  Price : Dec
  StockInPool : Int
  MoneyInPool : Int
  EnableCancelTime : Int
deriving DecidableEq, Repr

/-- The message types.MsgBancorInit. -/
structure MsgBancorInit where
  Owner : AccAddress
  Stock : String
  Money : String
  InitPrice : Dec
  MaxSupply : Int
  MaxPrice : Dec
  EnableCancelTime : Int
deriving DecidableEq, Repr

/-- The message types.MsgBancorCancel. -/
structure MsgBancorCancel where
  Owner : AccAddress
  Stock : String
  Money : String
deriving DecidableEq, Repr

/-- The message types.MsgBancorTrade. -/
structure MsgBancorTrade where
  Sender : AccAddress
  Stock : String
  Money : String
  Amount : Int
  IsBuy : Bool
  MoneyLimit : Int
deriving DecidableEq, Repr

/-- The messages the handler is dispatched on; other stands for any message of
another module, with its type name. -/
inductive Msg where
  | BancorTrade (m : MsgBancorTrade)
  | BancorInit (m : MsgBancorInit)
  | BancorCancel (m : MsgBancorCancel)
  | other (type : String)
deriving DecidableEq, Repr

/-- The parameters read through Bik.GetParam. -/
structure Params where
  CreateBancorFee : Int
  CancelBancorFee : Int
  TradeFeeRate : Int
deriving DecidableEq, Repr

/-- Modelled from the spec: the constant keepers.SymbolSeparator is declared
outside the handler; the spec has the key as stock, a fixed separator, money. -/
def SymbolSeparator : String := "/"

/-! ## Results and events -/

/-- The errors a handler result can carry: the constructors of the module's
types package called by the handler, sdk.ErrUnknownRequest, and an error handed
back by an external keeper. -/
inductive HandlerError where
  | ErrBancorAlreadyExists
  | ErrNoSuchToken
  | ErrNonOwnerIsProhibited
  | ErrNonMarketExist
  | ErrNoBancorExists
  | ErrNotBancorOwner
  | ErrEnableCancelTimeNotArrive
  | ErrOwnerIsProhibited
  | ErrStockInPoolOutofBound
  | ErrMoneyCrossLimit (moneyErr : String)
  | ErrGetMarketPrice (err : String)
  | ErrUnknownRequest (errMsg : String)
  | keeper (err : SdkError)
deriving DecidableEq, Repr

/-- Event types used by the handler. -/
inductive EventType where
  | EventTypeBancorlite
  | EventTypeMessage
deriving DecidableEq, Repr

/-- Attribute keys used by the handler. -/
inductive AttributeKey where
  | AttributeKeyTradeFor
  | AttributeKeyModule
  | AttributeNewStockInPool
  | AttributeNewMoneyInPool
  | AttributeNewPrice
  | AttributeTradeSide
  | AttributeCoinsFromPool
  | AttributeCoinsToPool
deriving DecidableEq, Repr

/-- Attribute values: the value whose String() rendering the handler stores. -/
inductive AttributeValue where
  | text (s : String)
  | ModuleName
  | int (i : Int)
  | dec (d : Dec)
  | coins (c : Coins)
deriving DecidableEq, Repr

/-- The type sdk.Attribute. -/
structure Attribute where
  key : AttributeKey
  value : AttributeValue
deriving DecidableEq, Repr

/-- The type sdk.Event. -/
structure Event where
  type : EventType
  attributes : List Attribute
deriving DecidableEq, Repr

/-- The type sdk.Result: the error, if any, and the events. -/
structure Result where
  err : Option HandlerError
  Events : List Event
deriving DecidableEq, Repr

/-- The result of an error: err.Result(), which carries no events. -/
def HandlerError.Result (e : HandlerError) : Result := ⟨some e, []⟩

/-- The result of an error returned by an external keeper. -/
def SdkError.Result (e : SdkError) : Result := ⟨some (HandlerError.keeper e), []⟩

/-- The empty, successful result sdk.Result with no field set. -/
def Result.empty : Result := ⟨none, []⟩

/-- A result is a success when it carries no error. -/
def Result.IsOK (r : Result) : Bool := r.err.isNone

/-! ## Context and keepers -/

/-- A custody call issued to the ledger keeper Bxk. -/
inductive CustodyCall where
  | FreezeCoins (acc : AccAddress) (amt : Coins)
  | UnFreezeCoins (acc : AccAddress) (amt : Coins)
  | SendCoins (src dst : AccAddress) (amt : Coins)
  | DeductFee (acc : AccAddress) (amt : Coins)
deriving DecidableEq, Repr

/-- The context a handler runs in. W is the state of the external keepers. -/
structure Ctx (W : Type) where
  /-- The Unix seconds of the block header's time. -/
  blockTime : Int
  /-- The parameter store of the module. -/
  param : Params
  /-- The pool store of the BancorInfoKeeper, by key. -/
  pools : String → Option BancorInfo
  /-- The state of the external keepers: assets, markets, ledger. -/
  world : W
  /-- The custody calls issued so far, oldest first. -/
  calls : List CustodyCall
  /-- The events held by the context's event manager, oldest first. -/
  events : List Event

/-- The asset keeper Axk the handler expects. -/
structure ExpectedAssetStatusKeeper (W : Type) where
  IsTokenExists : W → String → Bool
  IsTokenIssuer : W → String → AccAddress → Bool

/-- The market keeper Mk the handler expects. -/
structure ExpectedMarketKeeper (W : Type) where
  IsMarketExist : W → String → Bool
  GetMarketLastExePrice : W → String → Except String Dec

/-- The ledger keeper Bxk the handler expects; a call returns its error, if any,
and the state it leaves. -/
structure ExpectedBankxKeeper (W : Type) where
  FreezeCoins : W → AccAddress → Coins → Option SdkError × W
  UnFreezeCoins : W → AccAddress → Coins → Option SdkError × W
  SendCoins : W → AccAddress → AccAddress → Coins → Option SdkError × W
  DeductFee : W → AccAddress → Coins → Option SdkError × W

/-- The external keepers of the module's Keeper (its own store Bik is in Ctx). -/
structure Keeper (W : Type) where
  Bxk : ExpectedBankxKeeper W
  Axk : ExpectedAssetStatusKeeper W
  Mk : ExpectedMarketKeeper W

variable {W : Type}

/-- Modelled from the spec: the method Bik.Load of the pool registry,
load(key) -> Pool | not-found. -/
def Bik.Load (ctx : Ctx W) (symbol : String) : Option BancorInfo := ctx.pools symbol

/-- Modelled from the spec: the method Bik.Save of the pool registry, an upsert
under key = stock ++ separator ++ money of the record. -/
def Bik.Save (ctx : Ctx W) (bi : BancorInfo) : Ctx W :=
  { ctx with pools := fun s =>
      if s = bi.Stock ++ SymbolSeparator ++ bi.Money then some bi else ctx.pools s }

/-- Modelled from the spec: the method Bik.Remove of the pool registry, which
deletes the entry under the record's key. -/
def Bik.Remove (ctx : Ctx W) (bi : BancorInfo) : Ctx W :=
  { ctx with pools := fun s =>
      if s = bi.Stock ++ SymbolSeparator ++ bi.Money then none else ctx.pools s }

/-- The method Bik.GetParam. -/
def Bik.GetParam (ctx : Ctx W) : Params := ctx.param

/-- The call k.Bxk.FreezeCoins(ctx, acc, amt), recorded in the context. -/
def Keeper.FreezeCoins (k : Keeper W) (ctx : Ctx W) (acc : AccAddress) (amt : Coins) :
    Option SdkError × Ctx W :=
  ((k.Bxk.FreezeCoins ctx.world acc amt).1,
   { ctx with world := (k.Bxk.FreezeCoins ctx.world acc amt).2,
              calls := ctx.calls ++ [CustodyCall.FreezeCoins acc amt] })

/-- The call k.Bxk.UnFreezeCoins(ctx, acc, amt), recorded in the context. -/
def Keeper.UnFreezeCoins (k : Keeper W) (ctx : Ctx W) (acc : AccAddress) (amt : Coins) :
    Option SdkError × Ctx W :=
  ((k.Bxk.UnFreezeCoins ctx.world acc amt).1,
   { ctx with world := (k.Bxk.UnFreezeCoins ctx.world acc amt).2,
              calls := ctx.calls ++ [CustodyCall.UnFreezeCoins acc amt] })

/-- The call k.Bxk.SendCoins(ctx, src, dst, amt), recorded in the context. -/
def Keeper.SendCoins (k : Keeper W) (ctx : Ctx W) (src dst : AccAddress) (amt : Coins) :
    Option SdkError × Ctx W :=
  ((k.Bxk.SendCoins ctx.world src dst amt).1,
   { ctx with world := (k.Bxk.SendCoins ctx.world src dst amt).2,
              calls := ctx.calls ++ [CustodyCall.SendCoins src dst amt] })

/-- The call k.Bxk.DeductFee(ctx, acc, amt), recorded in the context. -/
def Keeper.DeductFee (k : Keeper W) (ctx : Ctx W) (acc : AccAddress) (amt : Coins) :
    Option SdkError × Ctx W :=
  ((k.Bxk.DeductFee ctx.world acc amt).1,
   { ctx with world := (k.Bxk.DeductFee ctx.world acc amt).2,
              calls := ctx.calls ++ [CustodyCall.DeductFee acc amt] })

/-- The call ctx.EventManager().EmitEvents(evs). -/
def Ctx.EmitEvents (ctx : Ctx W) (evs : List Event) : Ctx W :=
  { ctx with events := ctx.events ++ evs }

/-! ## The curve model -/

/-- Modelled from the spec: the method BancorInfo.UpdateStockInPool (the Curve
Model) is declared outside the handler. Following the spec, a move of the reserve
to stockInPool is rejected when it leaves [0, maxSupply]; otherwise the reserve,
the price and the money reserve are updated together: the price is the linear
interpolation between (maxSupply, initPrice) and (0, maxPrice), and the money
reserve is the trapezoid area under it for the stock supplied so far, in sdk.Dec
arithmetic rounded to an integer. -/
def BancorInfo.UpdateStockInPool (bi : BancorInfo) (stockInPool : Int) : Option BancorInfo :=
  if stockInPool < 0 ∨ stockInPool > bi.MaxSupply then none
  else
    let suppliedStock := bi.MaxSupply - stockInPool
    let price :=
      (((bi.MaxPrice.Sub bi.InitPrice).MulInt suppliedStock).QuoInt bi.MaxSupply).Add bi.InitPrice
    let money := (((price.Add bi.InitPrice).MulInt suppliedStock).QuoInt 2).RoundInt
    some { bi with StockInPool := stockInPool, Price := price, MoneyInPool := money }

/-! ## The handlers -/

/-- The handler handleMsgBancorInit. -/
def handleMsgBancorInit (k : Keeper W) (ctx : Ctx W) (msg : MsgBancorInit) : Result × Ctx W :=
  if (Bik.Load ctx (msg.Stock ++ SymbolSeparator ++ msg.Money)).isSome then
    (HandlerError.ErrBancorAlreadyExists.Result, ctx)
  else if !k.Axk.IsTokenExists ctx.world msg.Stock || !k.Axk.IsTokenExists ctx.world msg.Money then
    (HandlerError.ErrNoSuchToken.Result, ctx)
  else if !k.Axk.IsTokenIssuer ctx.world msg.Stock msg.Owner then
    (HandlerError.ErrNonOwnerIsProhibited.Result, ctx)
  else if msg.Money != "cet" &&
      !k.Mk.IsMarketExist ctx.world (msg.Stock ++ SymbolSeparator ++ "cet") then
    (HandlerError.ErrNonMarketExist.Result, ctx)
  else
    let coins : Coins := [⟨msg.Stock, msg.MaxSupply⟩]
    match k.FreezeCoins ctx msg.Owner coins with
    | (some err, ctx1) => (err.Result, ctx1)
    | (none, ctx1) =>
      match k.DeductFee ctx1 msg.Owner
          (NewCoins [NewCoin "cet" (Bik.GetParam ctx1).CreateBancorFee]) with
      | (some err, ctx2) => (err.Result, ctx2)
      | (none, ctx2) =>
        let bi : BancorInfo :=
          { Owner := msg.Owner
            Stock := msg.Stock
            Money := msg.Money
            InitPrice := msg.InitPrice
            MaxSupply := msg.MaxSupply
            MaxPrice := msg.MaxPrice
            Price := ZeroDec
            StockInPool := msg.MaxSupply
            MoneyInPool := ZeroInt
            EnableCancelTime := msg.EnableCancelTime }
        (Result.empty, Bik.Save ctx2 bi)

/-- The handler handleMsgBancorCancel. -/
def handleMsgBancorCancel (k : Keeper W) (ctx : Ctx W) (msg : MsgBancorCancel) :
    Result × Ctx W :=
  match Bik.Load ctx (msg.Stock ++ SymbolSeparator ++ msg.Money) with
  | none => (HandlerError.ErrNoBancorExists.Result, ctx)
  | some bi =>
    if !bytesEqual bi.Owner msg.Owner then
      (HandlerError.ErrNotBancorOwner.Result, ctx)
    else if ctx.blockTime < bi.EnableCancelTime then
      (HandlerError.ErrEnableCancelTimeNotArrive.Result, ctx)
    else if !k.Mk.IsMarketExist ctx.world (msg.Stock ++ SymbolSeparator ++ "cet") then
      (HandlerError.ErrNonMarketExist.Result, ctx)
    else
      match k.DeductFee ctx msg.Owner
          (NewCoins [NewCoin "cet" (Bik.GetParam ctx).CancelBancorFee]) with
      | (some err, ctx1) => (err.Result, ctx1)
      | (none, ctx1) =>
        let ctx2 := Bik.Remove ctx1 bi
        match k.UnFreezeCoins ctx2 bi.Owner (NewCoins [NewCoin bi.Stock bi.StockInPool]) with
        | (some err, ctx3) => (err.Result, ctx3)
        | (none, ctx3) =>
          match k.UnFreezeCoins ctx3 bi.Owner (NewCoins [NewCoin bi.Money bi.MoneyInPool]) with
          | (some err, ctx4) => (err.Result, ctx4)
          | (none, ctx4) => (Result.empty, ctx4)

/-- The reserve the trade asks the curve model for: stockInPool + amount, and
stockInPool − amount on a buy. -/
def tradeStockInPool (bi : BancorInfo) (msg : MsgBancorTrade) : Int :=
  if msg.IsBuy then bi.StockInPool - msg.Amount else bi.StockInPool + msg.Amount

/-- The variable diff of the trade: the money reserve before minus after, and
after minus before on a buy. -/
def tradeDiff (bi biNew : BancorInfo) (msg : MsgBancorTrade) : Int :=
  if msg.IsBuy then biNew.MoneyInPool - bi.MoneyInPool else bi.MoneyInPool - biNew.MoneyInPool

/-- The variable coinsFromPool of the trade. -/
def tradeCoinsFromPool (bi biNew : BancorInfo) (msg : MsgBancorTrade) : Coins :=
  if msg.IsBuy then [⟨msg.Stock, msg.Amount⟩] else [⟨msg.Money, tradeDiff bi biNew msg⟩]

/-- The variable coinsToPool of the trade. -/
def tradeCoinsToPool (bi biNew : BancorInfo) (msg : MsgBancorTrade) : Coins :=
  if msg.IsBuy then [⟨msg.Money, tradeDiff bi biNew msg⟩] else [⟨msg.Stock, msg.Amount⟩]

/-- The variable moneyCrossLimit of the trade. -/
def tradeMoneyCrossLimit (bi biNew : BancorInfo) (msg : MsgBancorTrade) : Bool :=
  if msg.IsBuy then
    decide (msg.MoneyLimit > 0) && decide (tradeDiff bi biNew msg > msg.MoneyLimit)
  else
    decide (msg.MoneyLimit > 0) && decide (tradeDiff bi biNew msg < msg.MoneyLimit)

/-- The variable moneyErr of the trade. -/
def tradeMoneyErr (msg : MsgBancorTrade) : String :=
  if msg.IsBuy then "more than" else "less than"

/-- The variable commission of the trade. -/
def tradeCommission (price : Dec) (msg : MsgBancorTrade) (param : Params) : Int :=
  (((price.MulInt msg.Amount).MulInt param.TradeFeeRate).QuoInt 10000).RoundInt

/-- The variable side of the trade. -/
def tradeSide (msg : MsgBancorTrade) : String :=
  if msg.IsBuy then "Buy" else "Sell"

/-- The events a successful trade emits. -/
def tradeEvents (bi biNew : BancorInfo) (msg : MsgBancorTrade) : List Event :=
  [ ⟨EventType.EventTypeBancorlite,
      [⟨AttributeKey.AttributeKeyTradeFor,
        AttributeValue.text (bi.Stock ++ SymbolSeparator ++ bi.Money)⟩]⟩,
    ⟨EventType.EventTypeMessage,
      [⟨AttributeKey.AttributeKeyModule, AttributeValue.ModuleName⟩,
       ⟨AttributeKey.AttributeNewStockInPool, AttributeValue.int biNew.StockInPool⟩,
       ⟨AttributeKey.AttributeNewMoneyInPool, AttributeValue.int biNew.MoneyInPool⟩,
       ⟨AttributeKey.AttributeNewPrice, AttributeValue.dec biNew.Price⟩,
       ⟨AttributeKey.AttributeNewPrice, AttributeValue.dec biNew.Price⟩,
       ⟨AttributeKey.AttributeTradeSide, AttributeValue.text (tradeSide msg)⟩,
       ⟨AttributeKey.AttributeCoinsFromPool,
        AttributeValue.coins (tradeCoinsFromPool bi biNew msg)⟩,
       ⟨AttributeKey.AttributeCoinsToPool,
        AttributeValue.coins (tradeCoinsToPool bi biNew msg)⟩]⟩ ]

/-- The handler handleMsgBancorTrade. -/
def handleMsgBancorTrade (k : Keeper W) (ctx : Ctx W) (msg : MsgBancorTrade) : Result × Ctx W :=
  match Bik.Load ctx (msg.Stock ++ SymbolSeparator ++ msg.Money) with
  | none => (HandlerError.ErrNoBancorExists.Result, ctx)
  | some bi =>
    if bytesEqual bi.Owner msg.Sender then
      (HandlerError.ErrOwnerIsProhibited.Result, ctx)
    else
      match bi.UpdateStockInPool (tradeStockInPool bi msg) with
      | none => (HandlerError.ErrStockInPoolOutofBound.Result, ctx)
      | some biNew =>
        let coinsFromPool := tradeCoinsFromPool bi biNew msg
        let coinsToPool := tradeCoinsToPool bi biNew msg
        if tradeMoneyCrossLimit bi biNew msg then
          ((HandlerError.ErrMoneyCrossLimit (tradeMoneyErr msg)).Result, ctx)
        else
          match k.Mk.GetMarketLastExePrice ctx.world (msg.Stock ++ SymbolSeparator ++ "cet") with
          | Except.error err => ((HandlerError.ErrGetMarketPrice err).Result, ctx)
          | Except.ok price =>
            match k.DeductFee ctx msg.Sender
                (NewCoins [NewCoin "cet" (tradeCommission price msg (Bik.GetParam ctx))]) with
            | (some err, ctx1) => (err.Result, ctx1)
            | (none, ctx1) =>
              match k.SendCoins ctx1 msg.Sender bi.Owner coinsToPool with
              | (some err, ctx2) => (err.Result, ctx2)
              | (none, ctx2) =>
                match k.FreezeCoins ctx2 bi.Owner coinsToPool with
                | (some err, ctx3) => (err.Result, ctx3)
                | (none, ctx3) =>
                  match k.UnFreezeCoins ctx3 bi.Owner coinsFromPool with
                  | (some err, ctx4) => (err.Result, ctx4)
                  | (none, ctx4) =>
                    match k.SendCoins ctx4 bi.Owner msg.Sender coinsFromPool with
                    | (some err, ctx5) => (err.Result, ctx5)
                    | (none, ctx5) =>
                      let ctx6 := (Bik.Save ctx5 biNew).EmitEvents (tradeEvents bi biNew msg)
                      (⟨none, ctx6.events⟩, ctx6)

/-- The handler returned by NewHandler: dispatch on the message type. The source
first calls ctx.WithEventManager and drops the context it returns, which changes
nothing. -/
def NewHandler (k : Keeper W) (ctx : Ctx W) (msg : Msg) : Result × Ctx W :=
  match msg with
  | Msg.BancorTrade m => handleMsgBancorTrade k ctx m
  | Msg.BancorInit m => handleMsgBancorInit k ctx m
  | Msg.BancorCancel m => handleMsgBancorCancel k ctx m
  | Msg.other type =>
    ((HandlerError.ErrUnknownRequest
      ("Unrecognized bancorlite Msg type: %s" ++ type)).Result, ctx)

/-! ## Sequences of trades -/

/-- The successive trades of a list, each applied to the context the previous one
left; none as soon as one of them does not succeed. -/
def runTrades (k : Keeper W) (ctx : Ctx W) : List MsgBancorTrade → Option (Ctx W)
  | [] => some ctx
  | m :: ms =>
    if (handleMsgBancorTrade k ctx m).1.IsOK then
      runTrades k (handleMsgBancorTrade k ctx m).2 ms
    else none

/-- The amounts of the buys of a list of trades minus the amounts of its sells. -/
def netStockBought : List MsgBancorTrade → Int
  | [] => 0
  | m :: ms => (if m.IsBuy then m.Amount else -m.Amount) + netStockBought ms

/-- The same context at another block time. -/
def Ctx.atTime (ctx : Ctx W) (t : Int) : Ctx W := { ctx with blockTime := t }

/-! ## Guard errors -/

/-- The errors raised by the guards of the three handlers: every error of the
module's own constructors, as opposed to an error handed back by a custody call of
the ledger keeper (and to sdk.ErrUnknownRequest, which no guard raises). -/
def HandlerError.isGuardError : HandlerError → Bool
  | .ErrBancorAlreadyExists => true
  | .ErrNoSuchToken => true
  | .ErrNonOwnerIsProhibited => true
  | .ErrNonMarketExist => true
  | .ErrNoBancorExists => true
  | .ErrNotBancorOwner => true
  | .ErrEnableCancelTimeNotArrive => true
  | .ErrOwnerIsProhibited => true
  | .ErrStockInPoolOutofBound => true
  | .ErrMoneyCrossLimit _ => true
  | .ErrGetMarketPrice _ => true
  | .ErrUnknownRequest _ => false
  | .keeper _ => false

/-! ## The values of the curve -/

/-- Modelled from the spec: the price the curve model gives a pool at the reserve
stockInPool, the linear interpolation of BancorInfo.UpdateStockInPool. -/
def BancorInfo.curvePrice (bi : BancorInfo) (stockInPool : Int) : Dec :=
  (((bi.MaxPrice.Sub bi.InitPrice).MulInt (bi.MaxSupply - stockInPool)).QuoInt
    bi.MaxSupply).Add bi.InitPrice

/-- Modelled from the spec: the money reserve the curve model gives a pool at the
reserve stockInPool, the trapezoid area of BancorInfo.UpdateStockInPool. -/
def BancorInfo.curveMoney (bi : BancorInfo) (stockInPool : Int) : Int :=
  ((((bi.curvePrice stockInPool).Add bi.InitPrice).MulInt
    (bi.MaxSupply - stockInPool)).QuoInt 2).RoundInt

/-- A pool record is on its curve when its endpoints satisfy
0 ≤ initPrice ≤ maxPrice, its reserve lies in [0, maxSupply], and its money reserve
is the curve's value at its reserve. -/
def BancorInfo.OnCurve (bi : BancorInfo) : Prop :=
  0 ≤ bi.InitPrice.raw ∧ bi.InitPrice.raw ≤ bi.MaxPrice.raw ∧
  0 ≤ bi.StockInPool ∧ bi.StockInPool ≤ bi.MaxSupply ∧
  bi.MoneyInPool = bi.curveMoney bi.StockInPool

instance (bi : BancorInfo) : Decidable bi.OnCurve := by
  unfold BancorInfo.OnCurve
  infer_instance

/-! ## A ledger -/

/-- Modelled from the spec: the coin-custody ledger (the keeper behind Bxk) is
outside the handler. An account holds, for each denomination, a spendable balance
and a frozen balance. -/
structure Ledger where
  balance : AccAddress → String → Int
  frozen : AccAddress → String → Int

/-- The holdings cover the coins when, for each coin, they hold at least the
amount the coins ask of its denomination. -/
def Ledger.covers (hold : String → Int) (amt : Coins) : Bool :=
  amt.all (fun c => decide (amt.AmountOf c.Denom ≤ hold c.Denom))

/-- The error InsufficientBalance of the ledger. -/
def errInsufficientBalance : SdkError := ⟨"sdk", 10, "insufficient coins"⟩

/-- The error NotFrozen of the ledger. -/
def errNotFrozen : SdkError := ⟨"bankx", 1, "not frozen"⟩

/-- Modelled from the spec: freeze(account, coins) -> ok | InsufficientBalance moves
the coins from the account's spendable balance to its frozen balance. -/
def Ledger.freeze (l : Ledger) (acc : AccAddress) (amt : Coins) : Option SdkError × Ledger :=
  if Ledger.covers (l.balance acc) amt then
    (none,
     { balance := fun a d => if a = acc then l.balance a d - amt.AmountOf d else l.balance a d
       frozen := fun a d => if a = acc then l.frozen a d + amt.AmountOf d else l.frozen a d })
  else (some errInsufficientBalance, l)

/-- Modelled from the spec: unfreeze(account, coins) -> ok | NotFrozen moves the
coins from the account's frozen balance back to its spendable balance. -/
def Ledger.unfreeze (l : Ledger) (acc : AccAddress) (amt : Coins) : Option SdkError × Ledger :=
  if Ledger.covers (l.frozen acc) amt then
    (none,
     { balance := fun a d => if a = acc then l.balance a d + amt.AmountOf d else l.balance a d
       frozen := fun a d => if a = acc then l.frozen a d - amt.AmountOf d else l.frozen a d })
  else (some errNotFrozen, l)

/-- Modelled from the spec: send(from, to, coins) -> ok | InsufficientBalance moves
the coins from one spendable balance to another. -/
def Ledger.send (l : Ledger) (src dst : AccAddress) (amt : Coins) : Option SdkError × Ledger :=
  if Ledger.covers (l.balance src) amt then
    (none,
     { balance := fun a d =>
         l.balance a d - (if a = src then amt.AmountOf d else 0)
           + (if a = dst then amt.AmountOf d else 0)
       frozen := l.frozen })
  else (some errInsufficientBalance, l)

/-- Modelled from the spec: deductFee(account, coins) -> ok | InsufficientBalance
takes the coins out of the account's spendable balance. -/
def Ledger.deductFee (l : Ledger) (acc : AccAddress) (amt : Coins) : Option SdkError × Ledger :=
  if Ledger.covers (l.balance acc) amt then
    (none,
     { balance := fun a d => if a = acc then l.balance a d - amt.AmountOf d else l.balance a d
       frozen := l.frozen })
  else (some errInsufficientBalance, l)

/-- The module's keepers over the ledger, with any asset and market keepers. -/
def ledgerKeeper (axk : ExpectedAssetStatusKeeper Ledger) (mk : ExpectedMarketKeeper Ledger) :
    Keeper Ledger :=
  { Bxk :=
      { FreezeCoins := Ledger.freeze
        UnFreezeCoins := Ledger.unfreeze
        SendCoins := Ledger.send
        DeductFee := Ledger.deductFee }
    Axk := axk
    Mk := mk }

/-! ## A concrete setting -/

/-- External keepers over a trivial state: every token exists and is issued by
every account, every custody call succeeds, the last executed price is 1, and a
market exists exactly when the flag says so. -/
def demoKeeper (market : Bool) : Keeper Unit :=
  { Bxk :=
      { FreezeCoins := fun w _ _ => (none, w)
        UnFreezeCoins := fun w _ _ => (none, w)
        SendCoins := fun w _ _ _ => (none, w)
        DeductFee := fun w _ _ => (none, w) }
    Axk :=
      { IsTokenExists := fun _ _ => true
        IsTokenIssuer := fun _ _ _ => true }
    Mk :=
      { IsMarketExist := fun _ _ => market
        GetMarketLastExePrice := fun _ _ => Except.ok ⟨1000000000000000000⟩ } }

/-- The keepers of demoKeeper with a market, except that every fee deduction is
refused for lack of funds. -/
def demoKeeperNoFunds : Keeper Unit :=
  { demoKeeper true with
    Bxk :=
      { (demoKeeper true).Bxk with
        DeductFee := fun w _ _ => (some ⟨"sdk", 10, "insufficient coins"⟩, w) } }

/-- The account that owns the pool of the concrete setting. -/
def alice : AccAddress := [1]

/-- Another account. -/
def bob : AccAddress := [2]

/-- The parameters of the concrete setting. -/
def demoParams : Params := ⟨100, 100, 10⟩

/-- A context with no pool, at block time t. -/
def emptyCtx (t : Int) : Ctx Unit :=
  { blockTime := t, param := demoParams, pools := fun _ => none, world := (),
    calls := [], events := [] }

/-- The request to create the pool abc/cet with initPrice 1, maxPrice 2 and
maxSupply 1000, cancellable from time 100. -/
def demoInit : MsgBancorInit :=
  { Owner := alice, Stock := "abc", Money := "cet", InitPrice := ⟨1000000000000000000⟩,
    MaxSupply := 1000, MaxPrice := ⟨2000000000000000000⟩, EnableCancelTime := 100 }

/-- The pool record that request creates. -/
def demoPool : BancorInfo :=
  { Owner := alice, Stock := "abc", Money := "cet", InitPrice := ⟨1000000000000000000⟩,
    MaxSupply := 1000, MaxPrice := ⟨2000000000000000000⟩, Price := ZeroDec,
    StockInPool := 1000, MoneyInPool := 0, EnableCancelTime := 100 }

/-- A context at block time t whose only pool is demoPool. -/
def demoCtx (t : Int) : Ctx Unit :=
  { blockTime := t, param := demoParams,
    pools := fun s => if s = "abc/cet" then some demoPool else none, world := (),
    calls := [], events := [] }

/-- The record demoPool after 100 of stock have been bought. -/
def demoPoolAfterBuy : BancorInfo :=
  { demoPool with Price := ⟨1100000000000000000⟩, StockInPool := 900, MoneyInPool := 105 }

/-- A buy of 100 abc by bob with the given money limit. -/
def demoBuy (moneyLimit : Int) : MsgBancorTrade :=
  { Sender := bob, Stock := "abc", Money := "cet", Amount := 100, IsBuy := true,
    MoneyLimit := moneyLimit }

/-- A trade of 100 abc by the pool owner. -/
def ownerTrade : MsgBancorTrade :=
  { Sender := alice, Stock := "abc", Money := "cet", Amount := 100, IsBuy := true,
    MoneyLimit := 0 }

/-- The owner's request to cancel the pool abc/cet. -/
def demoCancel : MsgBancorCancel := { Owner := alice, Stock := "abc", Money := "cet" }

/-- The keepers of demoKeeper with a market, except that every unfreeze is refused. -/
def demoKeeperNoUnfreeze : Keeper Unit :=
  { demoKeeper true with
    Bxk :=
      { (demoKeeper true).Bxk with
        UnFreezeCoins := fun w _ _ => (some ⟨"bankx", 1, "not frozen"⟩, w) } }

/-- The keepers of demoKeeper without a market, except that no token exists. -/
def demoKeeperNoToken : Keeper Unit :=
  { demoKeeper false with
    Axk := { (demoKeeper false).Axk with IsTokenExists := fun _ _ => false } }

/-- Bob's request to cancel the pool abc/cet, which alice owns. -/
def bobCancel : MsgBancorCancel := { Owner := bob, Stock := "abc", Money := "cet" }

/-- The context demoCtx at block time 50 with the given trade fee rate. -/
def demoCtxRate (rate : Int) : Ctx Unit :=
  { demoCtx 50 with param := ⟨100, 100, rate⟩ }

/-- A sale of 40 abc by bob, without money limit. -/
def demoSell : MsgBancorTrade :=
  { Sender := bob, Stock := "abc", Money := "cet", Amount := 40, IsBuy := false,
    MoneyLimit := 0 }

/-- Asset keeper of the ledger setting: every token exists, issued by everyone. -/
def demoAxk : ExpectedAssetStatusKeeper Ledger :=
  { IsTokenExists := fun _ _ => true, IsTokenIssuer := fun _ _ _ => true }

/-- Market keeper of the ledger setting: every market exists, last price 1. -/
def demoMk : ExpectedMarketKeeper Ledger :=
  { IsMarketExist := fun _ _ => true
    GetMarketLastExePrice := fun _ _ => Except.ok ⟨1000000000000000000⟩ }

/-- A ledger on which alice has 1000 abc frozen and bob holds 500 cet. -/
def demoLedger : Ledger :=
  { balance := fun a d => if a = bob ∧ d = "cet" then 500 else 0
    frozen := fun a d => if a = alice ∧ d = "abc" then 1000 else 0 }

/-- The context at block time 50 whose only pool is demoPool, over demoLedger. -/
def demoLedgerCtx : Ctx Ledger :=
  { blockTime := 50, param := demoParams,
    pools := fun s => if s = "abc/cet" then some demoPool else none, world := demoLedger,
    calls := [], events := [] }

/-! ## The create-trading-pair command of the market client -/

/-- The message types.MsgCreateTradingPair, with the fields the command sets;
PricePrecision is a byte. -/
structure MsgCreateTradingPair where
  Stock : String
  Money : String
  PricePrecision : Nat
deriving DecidableEq, Repr

/-- The flags of the command as viper holds them: none for a flag that is not set
(viper.Get returns nil); for price-precision, the integer viper.GetInt reads. -/
structure CreateMarketFlags where
  stock : Option String
  money : Option String
  pricePrecision : Option Int
deriving DecidableEq, Repr

/-- The conversion byte(v) of a Go int: its low eight bits, v mod 256. -/
def byteOfInt (v : Int) : Nat := (v % 256).toNat

/-- The error of parseCreateMarketFlags for a flag that is not set. -/
def errFlagNoop (flag : String) : String :=
  "--" ++ flag ++ " flag is a noop, please see help : $ cetcli tx market createmarket"

/-- The function parseCreateMarketFlags: the three flags are required, in the order
stock, money, price-precision; the price precision is narrowed to a byte. -/
def parseCreateMarketFlags (flags : CreateMarketFlags) : Except String MsgCreateTradingPair :=
  match flags.stock with
  | none => Except.error (errFlagNoop "stock")
  | some stock =>
    match flags.money with
    | none => Except.error (errFlagNoop "money")
    | some money =>
      match flags.pricePrecision with
      | none => Except.error (errFlagNoop "price-precision")
      | some precision =>
        Except.ok { Stock := stock, Money := money, PricePrecision := byteOfInt precision }

/-- The function hasTokens: the first error of the token query over the tokens, in
order. CliQuery is the query of the asset module, by token symbol. -/
def hasTokens (CliQuery : String → Option String) : List String → Option String
  | [] => none
  | token :: tokens =>
    match CliQuery token with
    | some err => some err
    | none => hasTokens CliQuery tokens

/-- The error of getCreateMarketMsg for a price precision out of range. -/
def errPricePrecisionOutOfRange (MinTokenPricePrecision MaxTokenPricePrecision : Nat) : String :=
  "price precision out of range [" ++ toString MinTokenPricePrecision ++ ", "
    ++ toString MaxTokenPricePrecision ++ "]"

/-- The function getCreateMarketMsg. The constants types.MinTokenPricePrecision and
types.MaxTokenPricePrecision are declared outside the file and taken as parameters. -/
def getCreateMarketMsg (CliQuery : String → Option String)
    (MinTokenPricePrecision MaxTokenPricePrecision : Nat) (flags : CreateMarketFlags) :
    Except String MsgCreateTradingPair :=
  match parseCreateMarketFlags flags with
  | Except.error _ =>
    Except.error "tx flag is error, please see help : $ cetcli tx market createmarket -h"
  | Except.ok msg =>
    match hasTokens CliQuery [msg.Stock, msg.Money] with
    | some err => Except.error err
    | none =>
      if msg.PricePrecision < MinTokenPricePrecision ||
          msg.PricePrecision > MaxTokenPricePrecision then
        Except.error
          (errPricePrecisionOutOfRange MinTokenPricePrecision MaxTokenPricePrecision)
      else Except.ok msg

/-- A token query under which every token exists. -/
def allTokensExist : String → Option String := fun _ => none

/-- The request to create the pool abc/usdt, whose money is not cet. -/
def demoInitUsdt : MsgBancorInit := { demoInit with Money := "usdt" }

/-- The pool record that request creates. -/
def demoPoolUsdt : BancorInfo := { demoPool with Money := "usdt" }

/-- A context at block time t whose only pool is demoPoolUsdt. -/
def demoCtxUsdt (t : Int) : Ctx Unit :=
  { blockTime := t, param := demoParams,
    pools := fun s => if s = "abc/usdt" then some demoPoolUsdt else none, world := (),
    calls := [], events := [] }

/-- The owner's request to cancel the pool abc/usdt. -/
def demoCancelUsdt : MsgBancorCancel := { Owner := alice, Stock := "abc", Money := "usdt" }

/-- The request demoInit with the negative maxSupply -5. -/
def demoInitNegative : MsgBancorInit := { demoInit with MaxSupply := -5 }

/-- The request demoInit with initPrice 1 and the negative maxPrice -10. -/
def demoInitBadPrice : MsgBancorInit :=
  { demoInit with MaxPrice := ⟨-10000000000000000000⟩ }

/-- A buy of 500 abc by bob, without money limit. -/
def demoBuy500 : MsgBancorTrade :=
  { Sender := bob, Stock := "abc", Money := "cet", Amount := 500, IsBuy := true,
    MoneyLimit := 0 }

/-- The record the Init of demoInitNegative stores. -/
def demoPoolNegative : BancorInfo := { demoPool with MaxSupply := -5, StockInPool := -5 }

/-- The record the Init of demoInitBadPrice stores. -/
def demoPoolBadPrice : BancorInfo :=
  { demoPool with MaxPrice := ⟨-10000000000000000000⟩ }

/-- The record of demoPoolBadPrice after the buy demoBuy500. -/
def demoPoolBadPriceAfterBuy : BancorInfo :=
  { demoPoolBadPrice with
    Price := ⟨-4500000000000000000⟩, StockInPool := 500, MoneyInPool := -875 }

/-! ## Theorems -/

/-! ### What a recorded custody call leaves of the context -/

@[simp] theorem FreezeCoins_fst (k : Keeper W) (ctx : Ctx W) (a : AccAddress) (c : Coins) :
    (k.FreezeCoins ctx a c).1 = (k.Bxk.FreezeCoins ctx.world a c).1 := rfl

@[simp] theorem FreezeCoins_world (k : Keeper W) (ctx : Ctx W) (a : AccAddress) (c : Coins) :
    (k.FreezeCoins ctx a c).2.world = (k.Bxk.FreezeCoins ctx.world a c).2 := rfl

@[simp] theorem FreezeCoins_pools (k : Keeper W) (ctx : Ctx W) (a : AccAddress) (c : Coins) :
    (k.FreezeCoins ctx a c).2.pools = ctx.pools := rfl

@[simp] theorem FreezeCoins_calls (k : Keeper W) (ctx : Ctx W) (a : AccAddress) (c : Coins) :
    (k.FreezeCoins ctx a c).2.calls = ctx.calls ++ [CustodyCall.FreezeCoins a c] := rfl

@[simp] theorem FreezeCoins_param (k : Keeper W) (ctx : Ctx W) (a : AccAddress) (c : Coins) :
    (k.FreezeCoins ctx a c).2.param = ctx.param := rfl

@[simp] theorem FreezeCoins_blockTime (k : Keeper W) (ctx : Ctx W) (a : AccAddress) (c : Coins) :
    (k.FreezeCoins ctx a c).2.blockTime = ctx.blockTime := rfl

@[simp] theorem FreezeCoins_events (k : Keeper W) (ctx : Ctx W) (a : AccAddress) (c : Coins) :
    (k.FreezeCoins ctx a c).2.events = ctx.events := rfl

@[simp] theorem UnFreezeCoins_fst (k : Keeper W) (ctx : Ctx W) (a : AccAddress) (c : Coins) :
    (k.UnFreezeCoins ctx a c).1 = (k.Bxk.UnFreezeCoins ctx.world a c).1 := rfl

@[simp] theorem UnFreezeCoins_world (k : Keeper W) (ctx : Ctx W) (a : AccAddress) (c : Coins) :
    (k.UnFreezeCoins ctx a c).2.world = (k.Bxk.UnFreezeCoins ctx.world a c).2 := rfl

@[simp] theorem UnFreezeCoins_pools (k : Keeper W) (ctx : Ctx W) (a : AccAddress) (c : Coins) :
    (k.UnFreezeCoins ctx a c).2.pools = ctx.pools := rfl

@[simp] theorem UnFreezeCoins_calls (k : Keeper W) (ctx : Ctx W) (a : AccAddress) (c : Coins) :
    (k.UnFreezeCoins ctx a c).2.calls = ctx.calls ++ [CustodyCall.UnFreezeCoins a c] := rfl

@[simp] theorem UnFreezeCoins_param (k : Keeper W) (ctx : Ctx W) (a : AccAddress) (c : Coins) :
    (k.UnFreezeCoins ctx a c).2.param = ctx.param := rfl

@[simp] theorem UnFreezeCoins_blockTime (k : Keeper W) (ctx : Ctx W) (a : AccAddress)
    (c : Coins) : (k.UnFreezeCoins ctx a c).2.blockTime = ctx.blockTime := rfl

@[simp] theorem UnFreezeCoins_events (k : Keeper W) (ctx : Ctx W) (a : AccAddress) (c : Coins) :
    (k.UnFreezeCoins ctx a c).2.events = ctx.events := rfl

@[simp] theorem SendCoins_fst (k : Keeper W) (ctx : Ctx W) (a b : AccAddress) (c : Coins) :
    (k.SendCoins ctx a b c).1 = (k.Bxk.SendCoins ctx.world a b c).1 := rfl

@[simp] theorem SendCoins_world (k : Keeper W) (ctx : Ctx W) (a b : AccAddress) (c : Coins) :
    (k.SendCoins ctx a b c).2.world = (k.Bxk.SendCoins ctx.world a b c).2 := rfl

@[simp] theorem SendCoins_pools (k : Keeper W) (ctx : Ctx W) (a b : AccAddress) (c : Coins) :
    (k.SendCoins ctx a b c).2.pools = ctx.pools := rfl

@[simp] theorem SendCoins_calls (k : Keeper W) (ctx : Ctx W) (a b : AccAddress) (c : Coins) :
    (k.SendCoins ctx a b c).2.calls = ctx.calls ++ [CustodyCall.SendCoins a b c] := rfl

@[simp] theorem SendCoins_param (k : Keeper W) (ctx : Ctx W) (a b : AccAddress) (c : Coins) :
    (k.SendCoins ctx a b c).2.param = ctx.param := rfl

@[simp] theorem SendCoins_blockTime (k : Keeper W) (ctx : Ctx W) (a b : AccAddress)
    (c : Coins) : (k.SendCoins ctx a b c).2.blockTime = ctx.blockTime := rfl

@[simp] theorem SendCoins_events (k : Keeper W) (ctx : Ctx W) (a b : AccAddress) (c : Coins) :
    (k.SendCoins ctx a b c).2.events = ctx.events := rfl

@[simp] theorem DeductFee_fst (k : Keeper W) (ctx : Ctx W) (a : AccAddress) (c : Coins) :
    (k.DeductFee ctx a c).1 = (k.Bxk.DeductFee ctx.world a c).1 := rfl

@[simp] theorem DeductFee_world (k : Keeper W) (ctx : Ctx W) (a : AccAddress) (c : Coins) :
    (k.DeductFee ctx a c).2.world = (k.Bxk.DeductFee ctx.world a c).2 := rfl

@[simp] theorem DeductFee_pools (k : Keeper W) (ctx : Ctx W) (a : AccAddress) (c : Coins) :
    (k.DeductFee ctx a c).2.pools = ctx.pools := rfl

@[simp] theorem DeductFee_calls (k : Keeper W) (ctx : Ctx W) (a : AccAddress) (c : Coins) :
    (k.DeductFee ctx a c).2.calls = ctx.calls ++ [CustodyCall.DeductFee a c] := rfl

@[simp] theorem DeductFee_param (k : Keeper W) (ctx : Ctx W) (a : AccAddress) (c : Coins) :
    (k.DeductFee ctx a c).2.param = ctx.param := rfl

@[simp] theorem DeductFee_blockTime (k : Keeper W) (ctx : Ctx W) (a : AccAddress) (c : Coins) :
    (k.DeductFee ctx a c).2.blockTime = ctx.blockTime := rfl

@[simp] theorem DeductFee_events (k : Keeper W) (ctx : Ctx W) (a : AccAddress) (c : Coins) :
    (k.DeductFee ctx a c).2.events = ctx.events := rfl

@[simp] theorem Save_world (ctx : Ctx W) (bi : BancorInfo) :
    (Bik.Save ctx bi).world = ctx.world := rfl

@[simp] theorem Save_calls (ctx : Ctx W) (bi : BancorInfo) :
    (Bik.Save ctx bi).calls = ctx.calls := rfl

@[simp] theorem Save_param (ctx : Ctx W) (bi : BancorInfo) :
    (Bik.Save ctx bi).param = ctx.param := rfl

@[simp] theorem Save_blockTime (ctx : Ctx W) (bi : BancorInfo) :
    (Bik.Save ctx bi).blockTime = ctx.blockTime := rfl

@[simp] theorem Save_events (ctx : Ctx W) (bi : BancorInfo) :
    (Bik.Save ctx bi).events = ctx.events := rfl

@[simp] theorem Remove_world (ctx : Ctx W) (bi : BancorInfo) :
    (Bik.Remove ctx bi).world = ctx.world := rfl

@[simp] theorem Remove_calls (ctx : Ctx W) (bi : BancorInfo) :
    (Bik.Remove ctx bi).calls = ctx.calls := rfl

@[simp] theorem Remove_param (ctx : Ctx W) (bi : BancorInfo) :
    (Bik.Remove ctx bi).param = ctx.param := rfl

@[simp] theorem Remove_blockTime (ctx : Ctx W) (bi : BancorInfo) :
    (Bik.Remove ctx bi).blockTime = ctx.blockTime := rfl

@[simp] theorem Remove_events (ctx : Ctx W) (bi : BancorInfo) :
    (Bik.Remove ctx bi).events = ctx.events := rfl

/-- A pair whose first component is none is the pair of none and its second
component. -/
theorem pair_of_fst_none {α β : Type} (p : Option α × β) (h : p.1 = none) : p = (none, p.2) := by
  cases p
  simp_all

/-- A pair whose first component is some error is the pair of that error and its
second component. -/
theorem pair_of_fst_some {α β : Type} (p : Option α × β) (a : α) (h : p.1 = some a) :
    p = (some a, p.2) := by
  cases p
  simp_all

/-! ### The claims -/


/-- Unfolding of the trade handler up to the slippage check, for a non-owner
whose move the curve accepts. -/
theorem trade_unfold_slippage (k : Keeper W) (ctx : Ctx W) (msg : MsgBancorTrade)
    (bi biNew : BancorInfo)
    (hload : Bik.Load ctx (msg.Stock ++ SymbolSeparator ++ msg.Money) = some bi)
    (hown : bytesEqual bi.Owner msg.Sender = false)
    (hupd : bi.UpdateStockInPool (tradeStockInPool bi msg) = some biNew)
    (hcross : tradeMoneyCrossLimit bi biNew msg = true) :
    handleMsgBancorTrade k ctx msg =
      ((HandlerError.ErrMoneyCrossLimit (tradeMoneyErr msg)).Result, ctx) := by
  unfold handleMsgBancorTrade
  simp only [hload, hown, hupd, hcross]
  simp

/-- Past the slippage check the trade handler never answers with the slippage error. -/
theorem trade_no_slippage_err (k : Keeper W) (ctx : Ctx W) (msg : MsgBancorTrade)
    (bi biNew : BancorInfo)
    (hload : Bik.Load ctx (msg.Stock ++ SymbolSeparator ++ msg.Money) = some bi)
    (hown : bytesEqual bi.Owner msg.Sender = false)
    (hupd : bi.UpdateStockInPool (tradeStockInPool bi msg) = some biNew)
    (hcross : tradeMoneyCrossLimit bi biNew msg = false) (s : String) :
    (handleMsgBancorTrade k ctx msg).1.err ≠ some (HandlerError.ErrMoneyCrossLimit s) := by
  unfold handleMsgBancorTrade
  simp only [hload, hown, hupd, hcross]
  simp only [Bool.false_eq_true, if_false]
  repeat' split
  all_goals simp [HandlerError.Result, SdkError.Result]

/-- The slippage flag, spelled out. -/
theorem tradeMoneyCrossLimit_iff (bi biNew : BancorInfo) (msg : MsgBancorTrade) :
    tradeMoneyCrossLimit bi biNew msg = true ↔
      (msg.MoneyLimit > 0 ∧
        ((msg.IsBuy = true ∧ biNew.MoneyInPool - bi.MoneyInPool > msg.MoneyLimit) ∨
         (msg.IsBuy = false ∧ bi.MoneyInPool - biNew.MoneyInPool < msg.MoneyLimit))) := by
  unfold tradeMoneyCrossLimit tradeDiff
  cases h : msg.IsBuy <;> simp

/-- C1: for an existing pool and a trade by a non-owner that passes the curve
update, the trade answers with the slippage error (ErrMoneyCrossLimit) exactly when
moneyLimit > 0 and the money amount crossing the pool boundary is above the limit
on a buy, or below it on a sell; with moneyLimit = 0 it never does; and when it
does, the context is left as it was: same pool store, no custody call issued. -/
theorem C1_slippage_check (k : Keeper W) (ctx : Ctx W) (msg : MsgBancorTrade)
    (bi biNew : BancorInfo)
    (hload : Bik.Load ctx (msg.Stock ++ SymbolSeparator ++ msg.Money) = some bi)
    (hown : bytesEqual bi.Owner msg.Sender = false)
    (hupd : bi.UpdateStockInPool (tradeStockInPool bi msg) = some biNew) :
    ((∃ s, (handleMsgBancorTrade k ctx msg).1.err = some (HandlerError.ErrMoneyCrossLimit s)) ↔
      (msg.MoneyLimit > 0 ∧
        ((msg.IsBuy = true ∧ biNew.MoneyInPool - bi.MoneyInPool > msg.MoneyLimit) ∨
         (msg.IsBuy = false ∧ bi.MoneyInPool - biNew.MoneyInPool < msg.MoneyLimit)))) ∧
    (msg.MoneyLimit = 0 →
      ¬ ∃ s, (handleMsgBancorTrade k ctx msg).1.err = some (HandlerError.ErrMoneyCrossLimit s)) ∧
    ((∃ s, (handleMsgBancorTrade k ctx msg).1.err = some (HandlerError.ErrMoneyCrossLimit s)) →
      (handleMsgBancorTrade k ctx msg).2 = ctx ∧
      Bik.Load (handleMsgBancorTrade k ctx msg).2 (msg.Stock ++ SymbolSeparator ++ msg.Money)
        = some bi ∧
      (handleMsgBancorTrade k ctx msg).2.calls = ctx.calls) := by
  have key : (∃ s, (handleMsgBancorTrade k ctx msg).1.err
      = some (HandlerError.ErrMoneyCrossLimit s)) ↔ tradeMoneyCrossLimit bi biNew msg = true := by
    constructor
    · rintro ⟨s, hs⟩
      by_contra hc
      have hc2 : tradeMoneyCrossLimit bi biNew msg = false := by simpa using hc
      exact trade_no_slippage_err k ctx msg bi biNew hload hown hupd hc2 s hs
    · intro hc
      refine ⟨tradeMoneyErr msg, ?_⟩
      rw [trade_unfold_slippage k ctx msg bi biNew hload hown hupd hc]
      rfl
  refine ⟨?_, ?_, ?_⟩
  · rw [key, tradeMoneyCrossLimit_iff]
  · intro h0
    rw [key, tradeMoneyCrossLimit_iff]
    omega
  · intro hex
    have hc := key.mp hex
    rw [trade_unfold_slippage k ctx msg bi biNew hload hown hupd hc]
    exact ⟨rfl, hload, rfl⟩

/-- C1, at the pool initPrice = 1, maxPrice = 2, maxSupply = 1000: a buy of 100
costs 105, and with moneyLimit = 104 it is refused with the slippage error. -/
theorem C1_slippage_check_witness :
    Bik.Load (demoCtx 50) ("abc" ++ SymbolSeparator ++ "cet") = some demoPool ∧
    demoPoolAfterBuy.MoneyInPool - demoPool.MoneyInPool = 105 ∧
    (∃ s, (handleMsgBancorTrade (demoKeeper true) (demoCtx 50) (demoBuy 104)).1.err
      = some (HandlerError.ErrMoneyCrossLimit s)) ∧
    (handleMsgBancorTrade (demoKeeper true) (demoCtx 50) (demoBuy 104)).2 = demoCtx 50 :=
  have h := C1_slippage_check (demoKeeper true) (demoCtx 50) (demoBuy 104) demoPool
    demoPoolAfterBuy (by decide) (by decide) (by decide)
  have hex := h.1.mpr (by decide)
  ⟨by decide, by decide, hex, (h.2.2 hex).1⟩

/-- C2: on an existing pool, a trade whose sender is the pool's owner fails with
ErrOwnerIsProhibited whatever its amount, direction and money limit, and leaves the
context as it was: the pool record, the ledger and the custody calls are unchanged. -/
theorem C2_owner_trade_prohibited (k : Keeper W) (ctx : Ctx W) (msg : MsgBancorTrade)
    (bi : BancorInfo)
    (hload : Bik.Load ctx (msg.Stock ++ SymbolSeparator ++ msg.Money) = some bi)
    (hown : msg.Sender = bi.Owner) :
    (handleMsgBancorTrade k ctx msg).1 = HandlerError.ErrOwnerIsProhibited.Result ∧
    (handleMsgBancorTrade k ctx msg).2 = ctx ∧
    Bik.Load (handleMsgBancorTrade k ctx msg).2 (msg.Stock ++ SymbolSeparator ++ msg.Money)
      = some bi ∧
    (handleMsgBancorTrade k ctx msg).2.world = ctx.world ∧
    (handleMsgBancorTrade k ctx msg).2.calls = ctx.calls := by
  have h : handleMsgBancorTrade k ctx msg = (HandlerError.ErrOwnerIsProhibited.Result, ctx) := by
    unfold handleMsgBancorTrade
    simp [hload, hown, bytesEqual]
  rw [h]
  exact ⟨rfl, rfl, hload, rfl, rfl⟩

/-- C2, at the pool abc/cet: the owner's buy of 100 is refused. -/
theorem C2_owner_trade_prohibited_witness :
    (handleMsgBancorTrade (demoKeeper true) (demoCtx 50) ownerTrade).1
      = HandlerError.ErrOwnerIsProhibited.Result ∧
    (handleMsgBancorTrade (demoKeeper true) (demoCtx 50) ownerTrade).2 = demoCtx 50 :=
  have h := C2_owner_trade_prohibited (demoKeeper true) (demoCtx 50) ownerTrade demoPool
    (by decide) (by decide)
  ⟨h.1, h.2.1⟩

/-- What a successful Init has done: the freeze and the fee deduction went through,
and the context left is the one after them with the new record saved. -/
theorem init_ok_inv (k : Keeper W) (ctx : Ctx W) (msg : MsgBancorInit)
    (hok : (handleMsgBancorInit k ctx msg).1.IsOK = true) :
    Bik.Load ctx (msg.Stock ++ SymbolSeparator ++ msg.Money) = none ∧
    (k.FreezeCoins ctx msg.Owner [⟨msg.Stock, msg.MaxSupply⟩]).1 = none ∧
    (k.DeductFee (k.FreezeCoins ctx msg.Owner [⟨msg.Stock, msg.MaxSupply⟩]).2 msg.Owner
      (NewCoins [NewCoin "cet" ctx.param.CreateBancorFee])).1 = none ∧
    (handleMsgBancorInit k ctx msg).2 =
      Bik.Save
        (k.DeductFee (k.FreezeCoins ctx msg.Owner [⟨msg.Stock, msg.MaxSupply⟩]).2 msg.Owner
          (NewCoins [NewCoin "cet" ctx.param.CreateBancorFee])).2
        { Owner := msg.Owner, Stock := msg.Stock, Money := msg.Money,
          InitPrice := msg.InitPrice, MaxSupply := msg.MaxSupply, MaxPrice := msg.MaxPrice,
          Price := ZeroDec, StockInPool := msg.MaxSupply, MoneyInPool := ZeroInt,
          EnableCancelTime := msg.EnableCancelTime } := by
  have hok2 := hok
  unfold handleMsgBancorInit at hok2
  split at hok2
  · simp [HandlerError.Result, Result.IsOK] at hok2
  split at hok2
  · simp [HandlerError.Result, Result.IsOK] at hok2
  split at hok2
  · simp [HandlerError.Result, Result.IsOK] at hok2
  split at hok2
  · simp [HandlerError.Result, Result.IsOK] at hok2
  rename_i h1 h2 h3 h4
  have hnone : Bik.Load ctx (msg.Stock ++ SymbolSeparator ++ msg.Money) = none := by
    simpa using h1
  simp only [] at hok2
  split at hok2
  · simp [SdkError.Result, Result.IsOK] at hok2
  rename_i ctx1 hfz
  split at hok2
  · simp [SdkError.Result, Result.IsOK] at hok2
  rename_i ctx2 hfee
  have hp : ctx1.param = ctx.param := by
    have := congrArg (fun p => p.2.param) hfz
    simpa [Keeper.FreezeCoins] using this.symm
  simp only [Bik.GetParam, hp] at hfee
  unfold handleMsgBancorInit
  simp only [h1, h2, h3, h4, if_false, hfz, Bik.GetParam, hp, hfee]
  refine ⟨hnone, trivial, trivial, ?_⟩
  simp

/-- The record saved under a key is the one loaded from it. -/
theorem load_save_self (ctx : Ctx W) (bi : BancorInfo) :
    Bik.Load (Bik.Save ctx bi) (bi.Stock ++ SymbolSeparator ++ bi.Money) = some bi := by
  simp [Bik.Load, Bik.Save]

/-- A successful Init leaves its record under the requested key. -/
theorem init_ok_load (k : Keeper W) (ctx : Ctx W) (msg : MsgBancorInit)
    (hok : (handleMsgBancorInit k ctx msg).1.IsOK = true) :
    Bik.Load (handleMsgBancorInit k ctx msg).2 (msg.Stock ++ SymbolSeparator ++ msg.Money) =
      some { Owner := msg.Owner, Stock := msg.Stock, Money := msg.Money,
             InitPrice := msg.InitPrice, MaxSupply := msg.MaxSupply, MaxPrice := msg.MaxPrice,
             Price := ZeroDec, StockInPool := msg.MaxSupply, MoneyInPool := ZeroInt,
             EnableCancelTime := msg.EnableCancelTime } := by
  rw [(init_ok_inv k ctx msg hok).2.2.2]
  exact load_save_self _ _

/-- An Init for a key that holds a pool is refused and changes nothing. -/
theorem init_exists (k : Keeper W) (ctx : Ctx W) (msg : MsgBancorInit) (bi : BancorInfo)
    (hload : Bik.Load ctx (msg.Stock ++ SymbolSeparator ++ msg.Money) = some bi) :
    handleMsgBancorInit k ctx msg = (HandlerError.ErrBancorAlreadyExists.Result, ctx) := by
  unfold handleMsgBancorInit
  simp [hload]

/-- C3: when a pool is stored under stock ++ separator ++ money, an Init for that
pair fails with ErrBancorAlreadyExists whatever its other fields and leaves the
context (pool store, ledger, custody calls) as it was; so after a successful Init,
a second Init for the same pair is refused and the record the first one wrote is
still the one stored. -/
theorem C3_init_twice (k : Keeper W) (ctx : Ctx W) (msg : MsgBancorInit) :
    (∀ bi, Bik.Load ctx (msg.Stock ++ SymbolSeparator ++ msg.Money) = some bi →
      (handleMsgBancorInit k ctx msg).1 = HandlerError.ErrBancorAlreadyExists.Result ∧
      (handleMsgBancorInit k ctx msg).2 = ctx ∧
      Bik.Load (handleMsgBancorInit k ctx msg).2 (msg.Stock ++ SymbolSeparator ++ msg.Money)
        = some bi) ∧
    (∀ msg2 : MsgBancorInit, msg2.Stock = msg.Stock → msg2.Money = msg.Money →
      (handleMsgBancorInit k ctx msg).1.IsOK = true →
      (handleMsgBancorInit k (handleMsgBancorInit k ctx msg).2 msg2).1
        = HandlerError.ErrBancorAlreadyExists.Result ∧
      (handleMsgBancorInit k (handleMsgBancorInit k ctx msg).2 msg2).2
        = (handleMsgBancorInit k ctx msg).2 ∧
      Bik.Load (handleMsgBancorInit k (handleMsgBancorInit k ctx msg).2 msg2).2
          (msg.Stock ++ SymbolSeparator ++ msg.Money) =
        some { Owner := msg.Owner, Stock := msg.Stock, Money := msg.Money,
               InitPrice := msg.InitPrice, MaxSupply := msg.MaxSupply,
               MaxPrice := msg.MaxPrice, Price := ZeroDec, StockInPool := msg.MaxSupply,
               MoneyInPool := ZeroInt, EnableCancelTime := msg.EnableCancelTime }) := by
  constructor
  · intro bi hload
    rw [init_exists k ctx msg bi hload]
    exact ⟨rfl, rfl, hload⟩
  · intro msg2 hs hm hok
    have hl := init_ok_load k ctx msg hok
    have hl2 := hl
    rw [← hs, ← hm] at hl2
    rw [init_exists k _ msg2 _ hl2]
    exact ⟨rfl, rfl, hl⟩

/-- C3, on the concrete setting: an Init on the context that holds abc/cet is
refused, and so is a second Init after a first one on the empty context. -/
theorem C3_init_twice_witness :
    (handleMsgBancorInit (demoKeeper true) (demoCtx 50) demoInit).1
      = HandlerError.ErrBancorAlreadyExists.Result ∧
    (handleMsgBancorInit (demoKeeper true)
      (handleMsgBancorInit (demoKeeper true) (emptyCtx 50) demoInit).2
      { demoInit with MaxSupply := 7, Owner := bob }).1
      = HandlerError.ErrBancorAlreadyExists.Result ∧
    Bik.Load (handleMsgBancorInit (demoKeeper true)
      (handleMsgBancorInit (demoKeeper true) (emptyCtx 50) demoInit).2
      { demoInit with MaxSupply := 7, Owner := bob }).2 "abc/cet" = some demoPool :=
  ⟨((C3_init_twice (demoKeeper true) (demoCtx 50) demoInit).1 demoPool (by decide)).1,
   ((C3_init_twice (demoKeeper true) (emptyCtx 50) demoInit).2
      { demoInit with MaxSupply := 7, Owner := bob } rfl rfl (by decide)).1,
   ((C3_init_twice (demoKeeper true) (emptyCtx 50) demoInit).2
      { demoInit with MaxSupply := 7, Owner := bob } rfl rfl (by decide)).2.2⟩

/-- C4: on an existing pool, a Cancel by the pool's owner at a block time before
enableCancelTime fails with ErrEnableCancelTimeNotArrive and leaves the context as
it was: the pool stays in the store unchanged, no fee is deducted and nothing is
unfrozen (no custody call is issued, the ledger is untouched). -/
theorem C4_cancel_before_cooldown (k : Keeper W) (ctx : Ctx W) (msg : MsgBancorCancel)
    (bi : BancorInfo)
    (hload : Bik.Load ctx (msg.Stock ++ SymbolSeparator ++ msg.Money) = some bi)
    (hown : msg.Owner = bi.Owner)
    (htime : ctx.blockTime < bi.EnableCancelTime) :
    (handleMsgBancorCancel k ctx msg).1 = HandlerError.ErrEnableCancelTimeNotArrive.Result ∧
    (handleMsgBancorCancel k ctx msg).2 = ctx ∧
    Bik.Load (handleMsgBancorCancel k ctx msg).2 (msg.Stock ++ SymbolSeparator ++ msg.Money)
      = some bi ∧
    (handleMsgBancorCancel k ctx msg).2.world = ctx.world ∧
    (handleMsgBancorCancel k ctx msg).2.calls = ctx.calls := by
  have h : handleMsgBancorCancel k ctx msg
      = (HandlerError.ErrEnableCancelTimeNotArrive.Result, ctx) := by
    unfold handleMsgBancorCancel
    simp [hload, hown, bytesEqual, htime]
  rw [h]
  exact ⟨rfl, rfl, hload, rfl, rfl⟩

/-- C4, at the pool abc/cet with enableCancelTime = 100: the owner's Cancel at
block time 99 is refused. -/
theorem C4_cancel_before_cooldown_witness :
    (handleMsgBancorCancel (demoKeeper true) (demoCtx 99) demoCancel).1
      = HandlerError.ErrEnableCancelTimeNotArrive.Result ∧
    (handleMsgBancorCancel (demoKeeper true) (demoCtx 99) demoCancel).2 = demoCtx 99 :=
  have h := C4_cancel_before_cooldown (demoKeeper true) (demoCtx 99) demoCancel demoPool
    (by decide) (by decide) (by decide)
  ⟨h.1, h.2.1⟩

/-- The record removed under a key is no longer loaded from it. -/
theorem load_remove_self (ctx : Ctx W) (bi : BancorInfo) :
    Bik.Load (Bik.Remove ctx bi) (bi.Stock ++ SymbolSeparator ++ bi.Money) = none := by
  simp [Bik.Load, Bik.Remove]

/-- Unfolding of the Cancel handler past its guards: the fee deduction, the
removal of the record and the two unfreeze calls, in that order. -/
theorem cancel_unfold_guards (k : Keeper W) (ctx : Ctx W) (msg : MsgBancorCancel)
    (bi : BancorInfo)
    (hload : Bik.Load ctx (msg.Stock ++ SymbolSeparator ++ msg.Money) = some bi)
    (hown : msg.Owner = bi.Owner)
    (htime : bi.EnableCancelTime ≤ ctx.blockTime)
    (hmarket : k.Mk.IsMarketExist ctx.world (msg.Stock ++ SymbolSeparator ++ "cet") = true) :
    handleMsgBancorCancel k ctx msg =
      match k.DeductFee ctx msg.Owner
          (NewCoins [NewCoin "cet" ctx.param.CancelBancorFee]) with
      | (some err, ctx1) => (err.Result, ctx1)
      | (none, ctx1) =>
        match k.UnFreezeCoins (Bik.Remove ctx1 bi) bi.Owner
            (NewCoins [NewCoin bi.Stock bi.StockInPool]) with
        | (some err, ctx3) => (err.Result, ctx3)
        | (none, ctx3) =>
          match k.UnFreezeCoins ctx3 bi.Owner (NewCoins [NewCoin bi.Money bi.MoneyInPool]) with
          | (some err, ctx4) => (err.Result, ctx4)
          | (none, ctx4) => (Result.empty, ctx4) := by
  unfold handleMsgBancorCancel
  have ht : ¬ ctx.blockTime < bi.EnableCancelTime := by omega
  simp only [hload, hown, bytesEqual, ht, hmarket, Bik.GetParam]
  simp

/-- What a successful Cancel has done: its guards held, the record it loaded is
removed from the store, and exactly the fee deduction and the two unfreeze calls were
issued. -/
theorem cancel_ok_inv (k : Keeper W) (ctx : Ctx W) (msg : MsgBancorCancel)
    (hok : (handleMsgBancorCancel k ctx msg).1.IsOK = true) :
    ∃ bi, Bik.Load ctx (msg.Stock ++ SymbolSeparator ++ msg.Money) = some bi ∧
      msg.Owner = bi.Owner ∧ bi.EnableCancelTime ≤ ctx.blockTime ∧
      k.Mk.IsMarketExist ctx.world (msg.Stock ++ SymbolSeparator ++ "cet") = true ∧
      (handleMsgBancorCancel k ctx msg).2.pools = (Bik.Remove ctx bi).pools ∧
      (handleMsgBancorCancel k ctx msg).2.calls = ctx.calls ++
        [CustodyCall.DeductFee msg.Owner (NewCoins [NewCoin "cet" ctx.param.CancelBancorFee]),
         CustodyCall.UnFreezeCoins bi.Owner (NewCoins [NewCoin bi.Stock bi.StockInPool]),
         CustodyCall.UnFreezeCoins bi.Owner (NewCoins [NewCoin bi.Money bi.MoneyInPool])] := by
  have hok2 := hok
  unfold handleMsgBancorCancel at hok2
  split at hok2
  · simp [HandlerError.Result, Result.IsOK] at hok2
  rename_i bi hload
  split at hok2
  · simp [HandlerError.Result, Result.IsOK] at hok2
  split at hok2
  · simp [HandlerError.Result, Result.IsOK] at hok2
  split at hok2
  · simp [HandlerError.Result, Result.IsOK] at hok2
  rename_i h1 h2 h3
  have hown : msg.Owner = bi.Owner := by
    simp [bytesEqual] at h1
    exact h1.symm
  have htime : bi.EnableCancelTime ≤ ctx.blockTime := by omega
  have hmarket : k.Mk.IsMarketExist ctx.world (msg.Stock ++ SymbolSeparator ++ "cet") = true := by
    simpa using h3
  refine ⟨bi, hload, hown, htime, hmarket, ?_⟩
  clear hok2
  rw [cancel_unfold_guards k ctx msg bi hload hown htime hmarket] at hok ⊢
  split at hok
  · simp [SdkError.Result, Result.IsOK] at hok
  rename_i ctx1 hfee
  split at hok
  · simp [SdkError.Result, Result.IsOK] at hok
  rename_i ctx3 hun1
  split at hok
  · simp [SdkError.Result, Result.IsOK] at hok
  rename_i ctx4 hun2
  simp only [hfee, hun1, hun2]
  have e1 := congrArg Prod.snd hfee
  have e3 := congrArg Prod.snd hun1
  have e4 := congrArg Prod.snd hun2
  simp only at e1 e3 e4
  subst e4
  subst e3
  subst e1
  simp [Bik.Remove]

/-- On a pool stored under its own key, a Cancel by the pool's owner at a block time
t ≥ enableCancelTime that finds the market stock/cet and whose fee deduction and two
unfreeze calls return without error succeeds and removes the pool from the store. -/
theorem cancel_succeeds (k : Keeper W) (ctx : Ctx W) (msg : MsgBancorCancel)
    (bi : BancorInfo)
    (hload : Bik.Load ctx (msg.Stock ++ SymbolSeparator ++ msg.Money) = some bi)
    (hstock : bi.Stock = msg.Stock) (hmoney : bi.Money = msg.Money)
    (hown : msg.Owner = bi.Owner)
    (htime : bi.EnableCancelTime ≤ ctx.blockTime)
    (hmarket : k.Mk.IsMarketExist ctx.world (msg.Stock ++ SymbolSeparator ++ "cet") = true)
    (hfee : (k.Bxk.DeductFee ctx.world msg.Owner
      (NewCoins [NewCoin "cet" ctx.param.CancelBancorFee])).1 = none)
    (hun1 : (k.Bxk.UnFreezeCoins
      (k.Bxk.DeductFee ctx.world msg.Owner
        (NewCoins [NewCoin "cet" ctx.param.CancelBancorFee])).2
      bi.Owner (NewCoins [NewCoin bi.Stock bi.StockInPool])).1 = none)
    (hun2 : (k.Bxk.UnFreezeCoins
      (k.Bxk.UnFreezeCoins
        (k.Bxk.DeductFee ctx.world msg.Owner
          (NewCoins [NewCoin "cet" ctx.param.CancelBancorFee])).2
        bi.Owner (NewCoins [NewCoin bi.Stock bi.StockInPool])).2
      bi.Owner (NewCoins [NewCoin bi.Money bi.MoneyInPool])).1 = none) :
    (handleMsgBancorCancel k ctx msg).1 = Result.empty ∧
    Bik.Load (handleMsgBancorCancel k ctx msg).2 (msg.Stock ++ SymbolSeparator ++ msg.Money)
      = none := by
  rw [cancel_unfold_guards k ctx msg bi hload hown htime hmarket]
  rw [pair_of_fst_none (k.DeductFee ctx msg.Owner _) (by simpa using hfee)]
  simp only
  rw [pair_of_fst_none (k.UnFreezeCoins (Bik.Remove _ bi) bi.Owner _) (by simpa using hun1)]
  simp only
  rw [pair_of_fst_none (k.UnFreezeCoins _ bi.Owner (NewCoins [NewCoin bi.Money bi.MoneyInPool]))
    (by simpa using hun2)]
  simp only
  refine ⟨trivial, ?_⟩
  simp [Bik.Load, Bik.Remove, hstock, hmoney]

/-- C5 (as amended): on a pool stored under its own key whose money is not cet, a
Cancel by the pool's owner at a block time t ≥ enableCancelTime, when the market
stock/cet that such a pool requires exists and the fee deduction and the two
unfreeze calls succeed, succeeds and removes the pool from the store. Pools whose
money is cet are outside this statement. -/
theorem C5_cancel_after_cooldown (k : Keeper W) (ctx : Ctx W) (msg : MsgBancorCancel)
    (bi : BancorInfo)
    (hload : Bik.Load ctx (msg.Stock ++ SymbolSeparator ++ msg.Money) = some bi)
    (hstock : bi.Stock = msg.Stock) (hmoney : bi.Money = msg.Money)
    (hown : msg.Owner = bi.Owner)
    (htime : bi.EnableCancelTime ≤ ctx.blockTime)
    (hnotcet : msg.Money ≠ "cet")
    (hmarket : k.Mk.IsMarketExist ctx.world (msg.Stock ++ SymbolSeparator ++ "cet") = true)
    (hfee : (k.Bxk.DeductFee ctx.world msg.Owner
      (NewCoins [NewCoin "cet" ctx.param.CancelBancorFee])).1 = none)
    (hun1 : (k.Bxk.UnFreezeCoins
      (k.Bxk.DeductFee ctx.world msg.Owner
        (NewCoins [NewCoin "cet" ctx.param.CancelBancorFee])).2
      bi.Owner (NewCoins [NewCoin bi.Stock bi.StockInPool])).1 = none)
    (hun2 : (k.Bxk.UnFreezeCoins
      (k.Bxk.UnFreezeCoins
        (k.Bxk.DeductFee ctx.world msg.Owner
          (NewCoins [NewCoin "cet" ctx.param.CancelBancorFee])).2
        bi.Owner (NewCoins [NewCoin bi.Stock bi.StockInPool])).2
      bi.Owner (NewCoins [NewCoin bi.Money bi.MoneyInPool])).1 = none) :
    (handleMsgBancorCancel k ctx msg).1 = Result.empty ∧
    Bik.Load (handleMsgBancorCancel k ctx msg).2 (msg.Stock ++ SymbolSeparator ++ msg.Money)
      = none :=
  cancel_succeeds k ctx msg bi hload hstock hmoney hown htime hmarket hfee hun1 hun2

/-- C5, at the pool abc/usdt with enableCancelTime = 100 and a market abc/cet: the
owner's Cancel at block time 100 succeeds and the key is free. -/
theorem C5_cancel_after_cooldown_witness :
    (handleMsgBancorCancel (demoKeeper true) (demoCtxUsdt 100) demoCancelUsdt).1
      = Result.empty ∧
    Bik.Load (handleMsgBancorCancel (demoKeeper true) (demoCtxUsdt 100) demoCancelUsdt).2
      ("abc" ++ SymbolSeparator ++ "usdt") = none :=
  (C5_cancel_after_cooldown (demoKeeper true) (demoCtxUsdt 100) demoCancelUsdt demoPoolUsdt
    (by decide) (by decide) (by decide) (by decide) (by decide) (by decide) (by decide)
    (by decide) (by decide) (by decide))

/-- C5 as stated fails. At the stored pool abc/cet with its market present, the
owner's Cancel at block time 100 = enableCancelTime is refused when the fee deduction
fails, and the pool stays in the store. And the pool abc/usdt, created by a
successful Init while the market abc/cet existed, cannot be cancelled by its owner
at block time 100 once that market is gone: the Cancel answers ErrNonMarketExist
and the pool stays in the store. -/
theorem C5_counterexample :
    Bik.Load (demoCtx 100) ("abc" ++ SymbolSeparator ++ "cet") = some demoPool ∧
    demoCancel.Owner = demoPool.Owner ∧
    demoPool.EnableCancelTime ≤ (demoCtx 100).blockTime ∧
    (handleMsgBancorCancel demoKeeperNoFunds (demoCtx 100) demoCancel).1.err
      = some (HandlerError.keeper ⟨"sdk", 10, "insufficient coins"⟩) ∧
    Bik.Load (handleMsgBancorCancel demoKeeperNoFunds (demoCtx 100) demoCancel).2
      ("abc" ++ SymbolSeparator ++ "cet") = some demoPool ∧
    (handleMsgBancorInit (demoKeeper true) (emptyCtx 100) demoInitUsdt).1 = Result.empty ∧
    Bik.Load (handleMsgBancorInit (demoKeeper true) (emptyCtx 100) demoInitUsdt).2
      ("abc" ++ SymbolSeparator ++ "usdt") = some demoPoolUsdt ∧
    demoCancelUsdt.Owner = demoPoolUsdt.Owner ∧
    demoPoolUsdt.EnableCancelTime ≤
      (handleMsgBancorInit (demoKeeper true) (emptyCtx 100) demoInitUsdt).2.blockTime ∧
    (handleMsgBancorCancel (demoKeeper false)
      (handleMsgBancorInit (demoKeeper true) (emptyCtx 100) demoInitUsdt).2
      demoCancelUsdt).1 = HandlerError.ErrNonMarketExist.Result ∧
    Bik.Load (handleMsgBancorCancel (demoKeeper false)
      (handleMsgBancorInit (demoKeeper true) (emptyCtx 100) demoInitUsdt).2
      demoCancelUsdt).2 ("abc" ++ SymbolSeparator ++ "usdt") = some demoPoolUsdt := by
  refine ⟨by decide, by decide, by decide, by decide, by decide, by decide, by decide,
    by decide, by decide, by decide, by decide⟩

/-- Unfolding of the Init handler when every guard passes and the freeze and the
fee deduction succeed. -/
theorem init_unfold_ok (k : Keeper W) (ctx : Ctx W) (msg : MsgBancorInit)
    (hfree : Bik.Load ctx (msg.Stock ++ SymbolSeparator ++ msg.Money) = none)
    (hstock : k.Axk.IsTokenExists ctx.world msg.Stock = true)
    (hmoney : k.Axk.IsTokenExists ctx.world msg.Money = true)
    (hissuer : k.Axk.IsTokenIssuer ctx.world msg.Stock msg.Owner = true)
    (hmarket : msg.Money = "cet" ∨
      k.Mk.IsMarketExist ctx.world (msg.Stock ++ SymbolSeparator ++ "cet") = true)
    (hfreeze : (k.Bxk.FreezeCoins ctx.world msg.Owner [⟨msg.Stock, msg.MaxSupply⟩]).1 = none)
    (hfee : (k.Bxk.DeductFee
      (k.Bxk.FreezeCoins ctx.world msg.Owner [⟨msg.Stock, msg.MaxSupply⟩]).2 msg.Owner
      (NewCoins [NewCoin "cet" ctx.param.CreateBancorFee])).1 = none) :
    handleMsgBancorInit k ctx msg =
      (Result.empty,
       Bik.Save
        (k.DeductFee (k.FreezeCoins ctx msg.Owner [⟨msg.Stock, msg.MaxSupply⟩]).2 msg.Owner
          (NewCoins [NewCoin "cet" ctx.param.CreateBancorFee])).2
        { Owner := msg.Owner, Stock := msg.Stock, Money := msg.Money,
          InitPrice := msg.InitPrice, MaxSupply := msg.MaxSupply, MaxPrice := msg.MaxPrice,
          Price := ZeroDec, StockInPool := msg.MaxSupply, MoneyInPool := ZeroInt,
          EnableCancelTime := msg.EnableCancelTime }) := by
  unfold handleMsgBancorInit
  have hm : (msg.Money != "cet" &&
      !k.Mk.IsMarketExist ctx.world (msg.Stock ++ SymbolSeparator ++ "cet")) = false := by
    rcases hmarket with h | h
    · simp [h]
    · simp [h]
  simp only [hfree, hstock, hmoney, hissuer, hm, Bik.GetParam]
  simp only [Option.isSome_none, Bool.false_eq_true, if_false, Bool.not_true, Bool.or_self]
  rw [pair_of_fst_none (k.FreezeCoins ctx msg.Owner _) (by simpa using hfreeze)]
  simp only [FreezeCoins_param]
  rw [pair_of_fst_none (k.DeductFee _ msg.Owner _) (by simpa using hfee)]

/-- C9: an Init that passes all guards (the key is free, both tokens exist, the
owner is the issuer of stock, and money is cet or a market stock/cet exists) and
whose freeze and fee deduction succeed, succeeds; the record saved under
stock ++ separator ++ money has owner, stock, money, initPrice, maxSupply, maxPrice
and enableCancelTime equal to the request's fields, stockInPool = maxSupply and
moneyInPool = 0; the custody calls issued are exactly the freeze of maxSupply of
stock on the owner followed by the deduction of the creation fee in cet from the
owner, and the ledger is the one these two calls leave. -/
theorem C9_init_writes_pool (k : Keeper W) (ctx : Ctx W) (msg : MsgBancorInit)
    (hfree : Bik.Load ctx (msg.Stock ++ SymbolSeparator ++ msg.Money) = none)
    (hstock : k.Axk.IsTokenExists ctx.world msg.Stock = true)
    (hmoney : k.Axk.IsTokenExists ctx.world msg.Money = true)
    (hissuer : k.Axk.IsTokenIssuer ctx.world msg.Stock msg.Owner = true)
    (hmarket : msg.Money = "cet" ∨
      k.Mk.IsMarketExist ctx.world (msg.Stock ++ SymbolSeparator ++ "cet") = true)
    (hfreeze : (k.Bxk.FreezeCoins ctx.world msg.Owner [⟨msg.Stock, msg.MaxSupply⟩]).1 = none)
    (hfee : (k.Bxk.DeductFee
      (k.Bxk.FreezeCoins ctx.world msg.Owner [⟨msg.Stock, msg.MaxSupply⟩]).2 msg.Owner
      (NewCoins [NewCoin "cet" ctx.param.CreateBancorFee])).1 = none) :
    (handleMsgBancorInit k ctx msg).1 = Result.empty ∧
    (∃ bi, Bik.Load (handleMsgBancorInit k ctx msg).2
        (msg.Stock ++ SymbolSeparator ++ msg.Money) = some bi ∧
      bi.Owner = msg.Owner ∧ bi.Stock = msg.Stock ∧ bi.Money = msg.Money ∧
      bi.InitPrice = msg.InitPrice ∧ bi.MaxSupply = msg.MaxSupply ∧
      bi.MaxPrice = msg.MaxPrice ∧ bi.EnableCancelTime = msg.EnableCancelTime ∧
      bi.StockInPool = msg.MaxSupply ∧ bi.MoneyInPool = 0) ∧
    (handleMsgBancorInit k ctx msg).2.calls = ctx.calls ++
      [CustodyCall.FreezeCoins msg.Owner [⟨msg.Stock, msg.MaxSupply⟩],
       CustodyCall.DeductFee msg.Owner (NewCoins [NewCoin "cet" ctx.param.CreateBancorFee])] ∧
    (handleMsgBancorInit k ctx msg).2.world =
      (k.Bxk.DeductFee
        (k.Bxk.FreezeCoins ctx.world msg.Owner [⟨msg.Stock, msg.MaxSupply⟩]).2 msg.Owner
        (NewCoins [NewCoin "cet" ctx.param.CreateBancorFee])).2 := by
  rw [init_unfold_ok k ctx msg hfree hstock hmoney hissuer hmarket hfreeze hfee]
  refine ⟨rfl, ⟨_, load_save_self _ _, rfl, rfl, rfl, rfl, rfl, rfl, rfl, rfl, rfl⟩, ?_, ?_⟩
  · simp
  · simp

/-- C9, on the empty context: the Init of abc/cet succeeds, stores the record with
stockInPool = 1000 and moneyInPool = 0, freezes 1000 abc on the owner and deducts
the creation fee of 100 cet. -/
theorem C9_init_writes_pool_witness :
    (handleMsgBancorInit (demoKeeper true) (emptyCtx 50) demoInit).1 = Result.empty ∧
    (handleMsgBancorInit (demoKeeper true) (emptyCtx 50) demoInit).2.calls =
      [CustodyCall.FreezeCoins alice [⟨"abc", 1000⟩],
       CustodyCall.DeductFee alice [⟨"cet", 100⟩]] :=
  have h := C9_init_writes_pool (demoKeeper true) (emptyCtx 50) demoInit
    (by decide) (by decide) (by decide) (by decide) (by decide) (by decide) (by decide)
  ⟨h.1, h.2.2.1⟩

/-- C10, the code at a concrete request: the Init of abc/cet with initPrice = 1
succeeds and stores a record whose price field is sdk.ZeroDec(), not initPrice;
whereas the curve model, asked for the price at the full reserve
stockInPool = maxSupply = 1000 of that same record, gives initPrice. -/
theorem C10_init_price_is_zero :
    (handleMsgBancorInit (demoKeeper true) (emptyCtx 50) demoInit).1 = Result.empty ∧
    (Bik.Load (handleMsgBancorInit (demoKeeper true) (emptyCtx 50) demoInit).2
      ("abc" ++ SymbolSeparator ++ "cet")).map BancorInfo.Price = some ZeroDec ∧
    demoInit.InitPrice ≠ ZeroDec ∧
    (demoPool.UpdateStockInPool 1000).map BancorInfo.Price = some demoInit.InitPrice := by
  refine ⟨by decide, by decide, by decide, by decide⟩

@[simp] theorem atTime_pools (ctx : Ctx W) (t : Int) : (ctx.atTime t).pools = ctx.pools := rfl

@[simp] theorem atTime_calls (ctx : Ctx W) (t : Int) : (ctx.atTime t).calls = ctx.calls := rfl

@[simp] theorem atTime_param (ctx : Ctx W) (t : Int) : (ctx.atTime t).param = ctx.param := rfl

@[simp] theorem atTime_world (ctx : Ctx W) (t : Int) : (ctx.atTime t).world = ctx.world := rfl

@[simp] theorem atTime_blockTime (ctx : Ctx W) (t : Int) : (ctx.atTime t).blockTime = t := rfl

/-- An Init for a free key does not answer ErrBancorAlreadyExists. -/
theorem init_free_not_exists_err (k : Keeper W) (ctx : Ctx W) (msg : MsgBancorInit)
    (hfree : Bik.Load ctx (msg.Stock ++ SymbolSeparator ++ msg.Money) = none) :
    (handleMsgBancorInit k ctx msg).1.err ≠ some HandlerError.ErrBancorAlreadyExists := by
  unfold handleMsgBancorInit
  simp only [hfree, Option.isSome_none, Bool.false_eq_true, if_false]
  repeat' split
  all_goals simp [HandlerError.Result, SdkError.Result, Result.empty]

/-- The amount of its own denomination in the one-coin list NewCoins builds. -/
theorem NewCoins_single_AmountOf (denom : String) (amount : Int) :
    (NewCoins [NewCoin denom amount]).AmountOf denom = amount := by
  by_cases h : amount = 0
  · simp [NewCoins, NewCoin, Coins.AmountOf, h]
  · simp [NewCoins, NewCoin, Coins.AmountOf, h]

/-- C6: when an Init succeeds and the owner's Cancel of the same pair, applied to
the context the Init left (at a block time t), succeeds, then t ≥ enableCancelTime,
the custody calls of the Cancel are the fee deduction, an unfreeze on the owner of
exactly maxSupply of stock, and an unfreeze on the owner of no money at all (the
coins built from amount 0 are empty); the key holds no pool afterwards, and a fresh
Init for the same pair does not fail with ErrBancorAlreadyExists. -/
theorem C6_init_cancel_roundtrip (k : Keeper W) (ctx : Ctx W) (init : MsgBancorInit)
    (cancel : MsgBancorCancel) (t : Int)
    (hs : cancel.Stock = init.Stock) (hm : cancel.Money = init.Money)
    (hinit : (handleMsgBancorInit k ctx init).1.IsOK = true)
    (hcancel : (handleMsgBancorCancel k
      ((handleMsgBancorInit k ctx init).2.atTime t) cancel).1.IsOK = true) :
    cancel.Owner = init.Owner ∧ init.EnableCancelTime ≤ t ∧
    (handleMsgBancorCancel k ((handleMsgBancorInit k ctx init).2.atTime t) cancel).2.calls =
      (handleMsgBancorInit k ctx init).2.calls ++
        [CustodyCall.DeductFee init.Owner (NewCoins [NewCoin "cet" ctx.param.CancelBancorFee]),
         CustodyCall.UnFreezeCoins init.Owner (NewCoins [NewCoin init.Stock init.MaxSupply]),
         CustodyCall.UnFreezeCoins init.Owner (NewCoins [NewCoin init.Money 0])] ∧
    (NewCoins [NewCoin init.Stock init.MaxSupply]).AmountOf init.Stock = init.MaxSupply ∧
    NewCoins [NewCoin init.Money 0] = [] ∧
    Bik.Load (handleMsgBancorCancel k ((handleMsgBancorInit k ctx init).2.atTime t) cancel).2
      (init.Stock ++ SymbolSeparator ++ init.Money) = none ∧
    (∀ again : MsgBancorInit, again.Stock = init.Stock → again.Money = init.Money →
      (handleMsgBancorInit k
        (handleMsgBancorCancel k ((handleMsgBancorInit k ctx init).2.atTime t) cancel).2
        again).1.err ≠ some HandlerError.ErrBancorAlreadyExists) := by
  obtain ⟨bi, hload, hown, htime, -, hpools, hcalls⟩ := cancel_ok_inv k _ cancel hcancel
  have hl := init_ok_load k ctx init hinit
  have hparam : (handleMsgBancorInit k ctx init).2.param = ctx.param := by
    rw [(init_ok_inv k ctx init hinit).2.2.2]
    simp
  rw [hs, hm] at hload
  have hbi : bi = _ := Option.some.inj (hload.symm.trans hl)
  subst hbi
  have hnone : Bik.Load
      (handleMsgBancorCancel k ((handleMsgBancorInit k ctx init).2.atTime t) cancel).2
      (init.Stock ++ SymbolSeparator ++ init.Money) = none := by
    unfold Bik.Load
    rw [hpools]
    simp [Bik.Remove]
  refine ⟨hown, by simpa using htime, ?_, NewCoins_single_AmountOf _ _, ?_, hnone, ?_⟩
  · rw [hcalls]
    simp [hown, hparam, ZeroInt]
  · simp [NewCoins, NewCoin]
  · intro again hs2 hm2
    apply init_free_not_exists_err
    rw [hs2, hm2]
    exact hnone

/-- C6, on the empty context: Init of abc/cet at block time 50, then the owner's
Cancel at block time 100. -/
theorem C6_init_cancel_roundtrip_witness :
    (handleMsgBancorCancel (demoKeeper true)
      ((handleMsgBancorInit (demoKeeper true) (emptyCtx 50) demoInit).2.atTime 100)
      demoCancel).2.calls =
      [CustodyCall.FreezeCoins alice [⟨"abc", 1000⟩],
       CustodyCall.DeductFee alice [⟨"cet", 100⟩],
       CustodyCall.DeductFee alice [⟨"cet", 100⟩],
       CustodyCall.UnFreezeCoins alice [⟨"abc", 1000⟩],
       CustodyCall.UnFreezeCoins alice []] ∧
    Bik.Load (handleMsgBancorCancel (demoKeeper true)
      ((handleMsgBancorInit (demoKeeper true) (emptyCtx 50) demoInit).2.atTime 100)
      demoCancel).2 "abc/cet" = none ∧
    (handleMsgBancorInit (demoKeeper true)
      (handleMsgBancorCancel (demoKeeper true)
        ((handleMsgBancorInit (demoKeeper true) (emptyCtx 50) demoInit).2.atTime 100)
        demoCancel).2 demoInit).1.err ≠ some HandlerError.ErrBancorAlreadyExists :=
  have h := C6_init_cancel_roundtrip (demoKeeper true) (emptyCtx 50) demoInit demoCancel 100
    rfl rfl (by decide) (by decide)
  ⟨h.2.2.1, h.2.2.2.2.2.1, h.2.2.2.2.2.2 demoInit rfl rfl⟩

/-- What an accepted move of the reserve leaves: the new reserve is the requested
one and lies in [0, maxSupply]; owner, pair and curve endpoints are kept. -/
theorem UpdateStockInPool_some (bi biNew : BancorInfo) (stockInPool : Int)
    (h : bi.UpdateStockInPool stockInPool = some biNew) :
    0 ≤ stockInPool ∧ stockInPool ≤ bi.MaxSupply ∧ biNew.StockInPool = stockInPool ∧
    biNew.MaxSupply = bi.MaxSupply ∧ biNew.Stock = bi.Stock ∧ biNew.Money = bi.Money ∧
    biNew.Owner = bi.Owner := by
  unfold BancorInfo.UpdateStockInPool at h
  split at h
  · simp at h
  rename_i hb
  simp only [Option.some.injEq] at h
  subst h
  refine ⟨by omega, by omega, rfl, rfl, rfl, rfl, rfl⟩

/-- Unfolding of the trade handler past its guards and the price lookup: the five
custody calls in order, then the save of the updated record and the events. -/
theorem trade_unfold_guards (k : Keeper W) (ctx : Ctx W) (msg : MsgBancorTrade)
    (bi biNew : BancorInfo) (price : Dec)
    (hload : Bik.Load ctx (msg.Stock ++ SymbolSeparator ++ msg.Money) = some bi)
    (hown : bytesEqual bi.Owner msg.Sender = false)
    (hupd : bi.UpdateStockInPool (tradeStockInPool bi msg) = some biNew)
    (hcross : tradeMoneyCrossLimit bi biNew msg = false)
    (hprice : k.Mk.GetMarketLastExePrice ctx.world (msg.Stock ++ SymbolSeparator ++ "cet")
      = Except.ok price) :
    handleMsgBancorTrade k ctx msg =
      match k.DeductFee ctx msg.Sender
          (NewCoins [NewCoin "cet" (tradeCommission price msg ctx.param)]) with
      | (some err, ctx1) => (err.Result, ctx1)
      | (none, ctx1) =>
        match k.SendCoins ctx1 msg.Sender bi.Owner (tradeCoinsToPool bi biNew msg) with
        | (some err, ctx2) => (err.Result, ctx2)
        | (none, ctx2) =>
          match k.FreezeCoins ctx2 bi.Owner (tradeCoinsToPool bi biNew msg) with
          | (some err, ctx3) => (err.Result, ctx3)
          | (none, ctx3) =>
            match k.UnFreezeCoins ctx3 bi.Owner (tradeCoinsFromPool bi biNew msg) with
            | (some err, ctx4) => (err.Result, ctx4)
            | (none, ctx4) =>
              match k.SendCoins ctx4 bi.Owner msg.Sender (tradeCoinsFromPool bi biNew msg) with
              | (some err, ctx5) => (err.Result, ctx5)
              | (none, ctx5) =>
                (⟨none, ((Bik.Save ctx5 biNew).EmitEvents (tradeEvents bi biNew msg)).events⟩,
                 (Bik.Save ctx5 biNew).EmitEvents (tradeEvents bi biNew msg)) := by
  unfold handleMsgBancorTrade
  simp only [hload, hown, hupd, hcross, hprice, Bik.GetParam]
  simp

/-- What a successful trade has done: its guards held, the record the curve model
returned is saved, and exactly the five custody calls were issued. -/
theorem trade_ok_inv (k : Keeper W) (ctx : Ctx W) (msg : MsgBancorTrade)
    (hok : (handleMsgBancorTrade k ctx msg).1.IsOK = true) :
    ∃ bi biNew price,
      Bik.Load ctx (msg.Stock ++ SymbolSeparator ++ msg.Money) = some bi ∧
      bi.Owner ≠ msg.Sender ∧
      bi.UpdateStockInPool (tradeStockInPool bi msg) = some biNew ∧
      tradeMoneyCrossLimit bi biNew msg = false ∧
      k.Mk.GetMarketLastExePrice ctx.world (msg.Stock ++ SymbolSeparator ++ "cet")
        = Except.ok price ∧
      (handleMsgBancorTrade k ctx msg).2.pools = (Bik.Save ctx biNew).pools ∧
      (handleMsgBancorTrade k ctx msg).2.calls = ctx.calls ++
        [CustodyCall.DeductFee msg.Sender
           (NewCoins [NewCoin "cet" (tradeCommission price msg ctx.param)]),
         CustodyCall.SendCoins msg.Sender bi.Owner (tradeCoinsToPool bi biNew msg),
         CustodyCall.FreezeCoins bi.Owner (tradeCoinsToPool bi biNew msg),
         CustodyCall.UnFreezeCoins bi.Owner (tradeCoinsFromPool bi biNew msg),
         CustodyCall.SendCoins bi.Owner msg.Sender (tradeCoinsFromPool bi biNew msg)] := by
  have hok2 := hok
  unfold handleMsgBancorTrade at hok2
  split at hok2
  · simp [HandlerError.Result, Result.IsOK] at hok2
  rename_i bi hload
  split at hok2
  · simp [HandlerError.Result, Result.IsOK] at hok2
  rename_i h1
  split at hok2
  · simp [HandlerError.Result, Result.IsOK] at hok2
  rename_i biNew hupd
  simp only [] at hok2
  split at hok2
  · simp [HandlerError.Result, Result.IsOK] at hok2
  rename_i h2
  split at hok2
  · simp [HandlerError.Result, Result.IsOK] at hok2
  rename_i price hprice
  have hown : bytesEqual bi.Owner msg.Sender = false := by simpa using h1
  have hne : bi.Owner ≠ msg.Sender := by simpa [bytesEqual] using hown
  have hcross : tradeMoneyCrossLimit bi biNew msg = false := by simpa using h2
  refine ⟨bi, biNew, price, hload, hne, hupd, hcross, hprice, ?_⟩
  clear hok2
  rw [trade_unfold_guards k ctx msg bi biNew price hload hown hupd hcross hprice] at hok ⊢
  split at hok
  · simp [SdkError.Result, Result.IsOK] at hok
  rename_i ctx1 e1
  split at hok
  · simp [SdkError.Result, Result.IsOK] at hok
  rename_i ctx2 e2
  split at hok
  · simp [SdkError.Result, Result.IsOK] at hok
  rename_i ctx3 e3
  split at hok
  · simp [SdkError.Result, Result.IsOK] at hok
  rename_i ctx4 e4
  split at hok
  · simp [SdkError.Result, Result.IsOK] at hok
  rename_i ctx5 e5
  simp only [e1, e2, e3, e4, e5]
  have f1 := congrArg Prod.snd e1
  have f2 := congrArg Prod.snd e2
  have f3 := congrArg Prod.snd e3
  have f4 := congrArg Prod.snd e4
  have f5 := congrArg Prod.snd e5
  simp only at f1 f2 f3 f4 f5
  subst f5
  subst f4
  subst f3
  subst f2
  subst f1
  simp [Bik.Save, Ctx.EmitEvents]

/-- One successful trade on the pool of a pair, stored under its own key: the
record stored afterwards is again the pool of that pair, with the same maxSupply,
a reserve in [0, maxSupply], and the old reserve less the amount bought (plus the
amount sold). -/
theorem trade_ok_step (k : Keeper W) (ctx : Ctx W) (m : MsgBancorTrade) (bi : BancorInfo)
    (hload : Bik.Load ctx (m.Stock ++ SymbolSeparator ++ m.Money) = some bi)
    (hs : bi.Stock = m.Stock) (hm : bi.Money = m.Money)
    (hok : (handleMsgBancorTrade k ctx m).1.IsOK = true) :
    ∃ bi2, Bik.Load (handleMsgBancorTrade k ctx m).2 (m.Stock ++ SymbolSeparator ++ m.Money)
        = some bi2 ∧
      bi2.Stock = m.Stock ∧ bi2.Money = m.Money ∧ bi2.MaxSupply = bi.MaxSupply ∧
      bi2.StockInPool + (if m.IsBuy then m.Amount else -m.Amount) = bi.StockInPool ∧
      0 ≤ bi2.StockInPool ∧ bi2.StockInPool ≤ bi2.MaxSupply := by
  obtain ⟨b, biNew, price, hl, -, hupd, -, -, hpools, -⟩ := trade_ok_inv k ctx m hok
  have hb : b = bi := Option.some.inj (hl.symm.trans hload)
  subst hb
  obtain ⟨h0, h1, h2, h3, h4, h5, -⟩ := UpdateStockInPool_some _ _ _ hupd
  refine ⟨biNew, ?_, h4.trans hs, h5.trans hm, h3, ?_, by omega, by omega⟩
  · unfold Bik.Load
    rw [hpools]
    simp [Bik.Save, h4, h5, hs, hm]
  · rw [h2]
    unfold tradeStockInPool
    split <;> omega

/-- The invariant of a run of successful trades on one pool. -/
theorem runTrades_inv (k : Keeper W) (stock money : String) (trades : List MsgBancorTrade) :
    ∀ (ctx ctx2 : Ctx W) (bi : BancorInfo),
      (∀ m ∈ trades, m.Stock = stock ∧ m.Money = money) →
      Bik.Load ctx (stock ++ SymbolSeparator ++ money) = some bi →
      bi.Stock = stock → bi.Money = money →
      runTrades k ctx trades = some ctx2 →
      ∃ bi2, Bik.Load ctx2 (stock ++ SymbolSeparator ++ money) = some bi2 ∧
        bi2.MaxSupply = bi.MaxSupply ∧
        bi2.StockInPool + netStockBought trades = bi.StockInPool ∧
        ((0 ≤ bi.StockInPool ∧ bi.StockInPool ≤ bi.MaxSupply) ∨ trades ≠ [] →
          0 ≤ bi2.StockInPool ∧ bi2.StockInPool ≤ bi2.MaxSupply) := by
  induction trades with
  | nil =>
    intro ctx ctx2 bi _ hload _ _ hrun
    simp only [runTrades, Option.some.injEq] at hrun
    subst hrun
    refine ⟨bi, hload, rfl, by simp [netStockBought], ?_⟩
    intro h
    rcases h with h | h
    · exact h
    · exact absurd rfl h
  | cons m ms ih =>
    intro ctx ctx2 bi hon hload hs hm hrun
    have hm0 := hon m (List.mem_cons_self m ms)
    simp only [runTrades] at hrun
    split at hrun
    swap
    · simp at hrun
    rename_i hok
    have hload2 : Bik.Load ctx (m.Stock ++ SymbolSeparator ++ m.Money) = some bi := by
      rw [hm0.1, hm0.2]
      exact hload
    obtain ⟨b1, hl1, hs1, hm1, hmax1, hnet1, hlo1, hhi1⟩ :=
      trade_ok_step k ctx m bi hload2 (hs.trans hm0.1.symm) (hm.trans hm0.2.symm) hok
    rw [hm0.1, hm0.2] at hl1
    obtain ⟨b2, hl2, hmax2, hnet2, hb2⟩ :=
      ih _ ctx2 b1 (fun x hx => hon x (List.mem_cons_of_mem m hx)) hl1
        (hs1.trans hm0.1) (hm1.trans hm0.2) hrun
    refine ⟨b2, hl2, hmax2.trans hmax1, ?_, fun _ => hb2 (Or.inl ⟨hlo1, hhi1⟩)⟩
    simp only [netStockBought]
    omega

/-- C7: for a pool created by a successful Init and a run of successful trades on
it, the reserve stockInPool of the stored record plus (the amounts of the buys minus
the amounts of the sells) equals the pool's maxSupply, the maxSupply of the Init;
and every successful trade issues exactly five custody calls, in which a buy sends
exactly amount of stock from the pool owner to the sender, and a sell sends exactly
amount of stock from the sender to the pool owner. -/
theorem C7_stock_conservation (k : Keeper W) (ctx ctx2 : Ctx W) (init : MsgBancorInit)
    (trades : List MsgBancorTrade)
    (hinit : (handleMsgBancorInit k ctx init).1.IsOK = true)
    (hon : ∀ m ∈ trades, m.Stock = init.Stock ∧ m.Money = init.Money)
    (hrun : runTrades k (handleMsgBancorInit k ctx init).2 trades = some ctx2) :
    (∃ bi, Bik.Load ctx2 (init.Stock ++ SymbolSeparator ++ init.Money) = some bi ∧
      bi.MaxSupply = init.MaxSupply ∧
      bi.StockInPool + netStockBought trades = bi.MaxSupply) ∧
    (∀ (c : Ctx W) (m : MsgBancorTrade), (handleMsgBancorTrade k c m).1.IsOK = true →
      ∃ bi fee d, Bik.Load c (m.Stock ++ SymbolSeparator ++ m.Money) = some bi ∧
        (handleMsgBancorTrade k c m).2.calls = c.calls ++
          (if m.IsBuy then
            [CustodyCall.DeductFee m.Sender fee,
             CustodyCall.SendCoins m.Sender bi.Owner [⟨m.Money, d⟩],
             CustodyCall.FreezeCoins bi.Owner [⟨m.Money, d⟩],
             CustodyCall.UnFreezeCoins bi.Owner [⟨m.Stock, m.Amount⟩],
             CustodyCall.SendCoins bi.Owner m.Sender [⟨m.Stock, m.Amount⟩]]
          else
            [CustodyCall.DeductFee m.Sender fee,
             CustodyCall.SendCoins m.Sender bi.Owner [⟨m.Stock, m.Amount⟩],
             CustodyCall.FreezeCoins bi.Owner [⟨m.Stock, m.Amount⟩],
             CustodyCall.UnFreezeCoins bi.Owner [⟨m.Money, d⟩],
             CustodyCall.SendCoins bi.Owner m.Sender [⟨m.Money, d⟩]])) := by
  constructor
  · obtain ⟨bi, hl, hmax, hnet, -⟩ :=
      runTrades_inv k init.Stock init.Money trades _ ctx2 _ hon
        (init_ok_load k ctx init hinit) rfl rfl hrun
    exact ⟨bi, hl, hmax, by rw [hnet, hmax]⟩
  · intro c m hok
    obtain ⟨bi, biNew, price, hl, -, -, -, -, -, hcalls⟩ := trade_ok_inv k c m hok
    refine ⟨bi, NewCoins [NewCoin "cet" (tradeCommission price m c.param)],
      tradeDiff bi biNew m, hl, ?_⟩
    rw [hcalls]
    unfold tradeCoinsToPool tradeCoinsFromPool
    cases m.IsBuy <;> simp

/-- The pool abc/cet after the Init, a buy of 100 and a sell of 40. -/
theorem demo_run :
    runTrades (demoKeeper true) (handleMsgBancorInit (demoKeeper true) (emptyCtx 50) demoInit).2
      [demoBuy 0, { demoBuy 0 with IsBuy := false, Amount := 40 }] =
    some (handleMsgBancorTrade (demoKeeper true)
      (handleMsgBancorTrade (demoKeeper true)
        (handleMsgBancorInit (demoKeeper true) (emptyCtx 50) demoInit).2 (demoBuy 0)).2
      { demoBuy 0 with IsBuy := false, Amount := 40 }).2 := by
  rfl

/-- C7, on the empty context: Init of abc/cet, then bob buys 100 and sells 40; the
reserve is 940 and 940 + (100 − 40) = 1000. -/
theorem C7_stock_conservation_witness :
    ∃ bi, Bik.Load (handleMsgBancorTrade (demoKeeper true)
        (handleMsgBancorTrade (demoKeeper true)
          (handleMsgBancorInit (demoKeeper true) (emptyCtx 50) demoInit).2 (demoBuy 0)).2
        { demoBuy 0 with IsBuy := false, Amount := 40 }).2
        ("abc" ++ SymbolSeparator ++ "cet") = some bi ∧
      bi.MaxSupply = 1000 ∧
      bi.StockInPool +
        netStockBought [demoBuy 0, { demoBuy 0 with IsBuy := false, Amount := 40 }]
        = bi.MaxSupply :=
  (C7_stock_conservation (demoKeeper true) (emptyCtx 50) _ demoInit
    [demoBuy 0, { demoBuy 0 with IsBuy := false, Amount := 40 }] (by decide)
    (by decide) demo_run).1

/-- C8 (as amended): the pool record stored after a successful Init of a non-negative
maxSupply followed by any run of successful trades on it satisfies
0 ≤ stockInPool ≤ maxSupply; after at least one trade this holds whatever the
maxSupply of the Init. -/
theorem C8_reserve_bounds (k : Keeper W) (ctx ctx2 : Ctx W) (init : MsgBancorInit)
    (trades : List MsgBancorTrade)
    (hinit : (handleMsgBancorInit k ctx init).1.IsOK = true)
    (hon : ∀ m ∈ trades, m.Stock = init.Stock ∧ m.Money = init.Money)
    (hrun : runTrades k (handleMsgBancorInit k ctx init).2 trades = some ctx2)
    (hsupply : 0 ≤ init.MaxSupply ∨ trades ≠ []) :
    ∃ bi, Bik.Load ctx2 (init.Stock ++ SymbolSeparator ++ init.Money) = some bi ∧
      0 ≤ bi.StockInPool ∧ bi.StockInPool ≤ bi.MaxSupply := by
  obtain ⟨bi, hl, -, -, hb⟩ :=
    runTrades_inv k init.Stock init.Money trades _ ctx2 _ hon
      (init_ok_load k ctx init hinit) rfl rfl hrun
  refine ⟨bi, hl, hb ?_⟩
  rcases hsupply with h | h
  · exact Or.inl ⟨h, le_refl _⟩
  · exact Or.inr h

/-- C8, on the empty context: after the Init of abc/cet, a buy of 100 and a sell
of 40, the reserve lies in [0, 1000]. -/
theorem C8_reserve_bounds_witness :
    ∃ bi, Bik.Load (handleMsgBancorTrade (demoKeeper true)
        (handleMsgBancorTrade (demoKeeper true)
          (handleMsgBancorInit (demoKeeper true) (emptyCtx 50) demoInit).2 (demoBuy 0)).2
        { demoBuy 0 with IsBuy := false, Amount := 40 }).2
        ("abc" ++ SymbolSeparator ++ "cet") = some bi ∧
      0 ≤ bi.StockInPool ∧ bi.StockInPool ≤ bi.MaxSupply :=
  C8_reserve_bounds (demoKeeper true) (emptyCtx 50) _ demoInit
    [demoBuy 0, { demoBuy 0 with IsBuy := false, Amount := 40 }] (by decide)
    (by decide) demo_run (Or.inl (by decide))

/-- C8 as stated fails. On the empty context the Init of abc/cet with maxSupply = -5
succeeds, and the record it stores, reached with no trade at all, has
stockInPool = -5 < 0. -/
theorem C8_counterexample :
    (handleMsgBancorInit (demoKeeper true) (emptyCtx 50) demoInitNegative).1
      = Result.empty ∧
    runTrades (demoKeeper true)
      (handleMsgBancorInit (demoKeeper true) (emptyCtx 50) demoInitNegative).2 []
      = some (handleMsgBancorInit (demoKeeper true) (emptyCtx 50) demoInitNegative).2 ∧
    Bik.Load (handleMsgBancorInit (demoKeeper true) (emptyCtx 50) demoInitNegative).2
      ("abc" ++ SymbolSeparator ++ "cet") = some demoPoolNegative ∧
    demoPoolNegative.StockInPool = -5 ∧
    ¬ (0 ≤ demoPoolNegative.StockInPool ∧
      demoPoolNegative.StockInPool ≤ demoPoolNegative.MaxSupply) := by
  refine ⟨by decide, rfl, by decide, by decide, by decide⟩

/-! ### Guards, custody failures and the order of the steps -/

/-- A guard error of Init leaves the context as it was. -/
theorem init_guard_error (k : Keeper W) (ctx : Ctx W) (msg : MsgBancorInit)
    (e : HandlerError) (he : (handleMsgBancorInit k ctx msg).1.err = some e)
    (hg : e.isGuardError = true) : (handleMsgBancorInit k ctx msg).2 = ctx := by
  revert he
  unfold handleMsgBancorInit
  repeat' first
    | split
    | (dsimp only; split)
  all_goals first
    | (intro _; rfl)
    | (intro he
       simp [SdkError.Result, Result.empty] at he
       try subst he
       try simp [HandlerError.isGuardError] at hg)

/-- A guard error of Cancel leaves the context as it was. -/
theorem cancel_guard_error (k : Keeper W) (ctx : Ctx W) (msg : MsgBancorCancel)
    (e : HandlerError) (he : (handleMsgBancorCancel k ctx msg).1.err = some e)
    (hg : e.isGuardError = true) : (handleMsgBancorCancel k ctx msg).2 = ctx := by
  revert he
  unfold handleMsgBancorCancel
  repeat' first
    | split
    | (dsimp only; split)
  all_goals first
    | (intro _; rfl)
    | (intro he
       simp [SdkError.Result, Result.empty] at he
       try subst he
       try simp [HandlerError.isGuardError] at hg)

/-- A guard error of Trade leaves the context as it was. -/
theorem trade_guard_error (k : Keeper W) (ctx : Ctx W) (msg : MsgBancorTrade)
    (e : HandlerError) (he : (handleMsgBancorTrade k ctx msg).1.err = some e)
    (hg : e.isGuardError = true) : (handleMsgBancorTrade k ctx msg).2 = ctx := by
  revert he
  unfold handleMsgBancorTrade
  repeat' first
    | split
    | (dsimp only; split)
  all_goals first
    | (intro _; rfl)
    | (intro he
       simp [SdkError.Result, Result.empty] at he
       try subst he
       try simp [HandlerError.isGuardError] at hg)

/-- C11: for each of Init, Trade and Cancel, whenever the result carries a guard
error (any error of the module's own constructors: already exists, not found,
unknown token, not issuer, no market, owner prohibited, not owner, cooldown, curve
bounds, slippage, price unavailable), the context is the one before the operation:
no custody call has been issued, and the pool store and the ledger are unchanged. -/
theorem C11_guard_error_no_effect (k : Keeper W) (ctx : Ctx W) (e : HandlerError)
    (hg : e.isGuardError = true) :
    (∀ msg : MsgBancorInit, (handleMsgBancorInit k ctx msg).1.err = some e →
      (handleMsgBancorInit k ctx msg).2.calls = ctx.calls ∧
      (handleMsgBancorInit k ctx msg).2.pools = ctx.pools ∧
      (handleMsgBancorInit k ctx msg).2 = ctx) ∧
    (∀ msg : MsgBancorTrade, (handleMsgBancorTrade k ctx msg).1.err = some e →
      (handleMsgBancorTrade k ctx msg).2.calls = ctx.calls ∧
      (handleMsgBancorTrade k ctx msg).2.pools = ctx.pools ∧
      (handleMsgBancorTrade k ctx msg).2 = ctx) ∧
    (∀ msg : MsgBancorCancel, (handleMsgBancorCancel k ctx msg).1.err = some e →
      (handleMsgBancorCancel k ctx msg).2.calls = ctx.calls ∧
      (handleMsgBancorCancel k ctx msg).2.pools = ctx.pools ∧
      (handleMsgBancorCancel k ctx msg).2 = ctx) := by
  refine ⟨fun msg he => ?_, fun msg he => ?_, fun msg he => ?_⟩
  · rw [init_guard_error k ctx msg e he hg]
    exact ⟨rfl, rfl, rfl⟩
  · rw [trade_guard_error k ctx msg e he hg]
    exact ⟨rfl, rfl, rfl⟩
  · rw [cancel_guard_error k ctx msg e he hg]
    exact ⟨rfl, rfl, rfl⟩

/-- C11, at the pool abc/cet: the Init of the same pair answers
ErrBancorAlreadyExists and leaves the context as it was. -/
theorem C11_guard_error_no_effect_witness :
    (handleMsgBancorInit (demoKeeper true) (demoCtx 50) demoInit).1.err
      = some HandlerError.ErrBancorAlreadyExists ∧
    (handleMsgBancorInit (demoKeeper true) (demoCtx 50) demoInit).2.calls = [] ∧
    (handleMsgBancorInit (demoKeeper true) (demoCtx 50) demoInit).2 = demoCtx 50 :=
  have h := (C11_guard_error_no_effect (demoKeeper true) (demoCtx 50)
    HandlerError.ErrBancorAlreadyExists (by decide)).1 demoInit (by decide)
  ⟨by decide, h.1, h.2.2⟩

/-- C19: when no pool is stored under stock ++ separator ++ money, a Trade and a
Cancel for that pair both fail with ErrNoBancorExists whatever their other fields,
and leave the context as it was: the pool store and the ledger are unchanged and no
custody call is issued. -/
theorem C19_pool_not_found (k : Keeper W) (ctx : Ctx W) (stock money : String)
    (hnone : Bik.Load ctx (stock ++ SymbolSeparator ++ money) = none) :
    (∀ msg : MsgBancorTrade, msg.Stock = stock → msg.Money = money →
      (handleMsgBancorTrade k ctx msg).1 = HandlerError.ErrNoBancorExists.Result ∧
      (handleMsgBancorTrade k ctx msg).2 = ctx ∧
      (handleMsgBancorTrade k ctx msg).2.pools = ctx.pools ∧
      (handleMsgBancorTrade k ctx msg).2.world = ctx.world ∧
      (handleMsgBancorTrade k ctx msg).2.calls = ctx.calls) ∧
    (∀ msg : MsgBancorCancel, msg.Stock = stock → msg.Money = money →
      (handleMsgBancorCancel k ctx msg).1 = HandlerError.ErrNoBancorExists.Result ∧
      (handleMsgBancorCancel k ctx msg).2 = ctx ∧
      (handleMsgBancorCancel k ctx msg).2.pools = ctx.pools ∧
      (handleMsgBancorCancel k ctx msg).2.world = ctx.world ∧
      (handleMsgBancorCancel k ctx msg).2.calls = ctx.calls) := by
  constructor
  · intro msg hs hm
    have h : handleMsgBancorTrade k ctx msg = (HandlerError.ErrNoBancorExists.Result, ctx) := by
      unfold handleMsgBancorTrade
      simp [hs, hm, hnone]
    rw [h]
    exact ⟨rfl, rfl, rfl, rfl, rfl⟩
  · intro msg hs hm
    have h : handleMsgBancorCancel k ctx msg = (HandlerError.ErrNoBancorExists.Result, ctx) := by
      unfold handleMsgBancorCancel
      simp [hs, hm, hnone]
    rw [h]
    exact ⟨rfl, rfl, rfl, rfl, rfl⟩

/-- C19, on the empty context: bob's buy and alice's Cancel of abc/cet both answer
ErrNoBancorExists. -/
theorem C19_pool_not_found_witness :
    (handleMsgBancorTrade (demoKeeper true) (emptyCtx 50) (demoBuy 0)).1
      = HandlerError.ErrNoBancorExists.Result ∧
    (handleMsgBancorCancel (demoKeeper true) (emptyCtx 50) demoCancel).1
      = HandlerError.ErrNoBancorExists.Result ∧
    (handleMsgBancorCancel (demoKeeper true) (emptyCtx 50) demoCancel).2 = emptyCtx 50 :=
  have h := C19_pool_not_found (demoKeeper true) (emptyCtx 50) "abc" "cet" (by decide)
  ⟨(h.1 (demoBuy 0) rfl rfl).1, (h.2 demoCancel rfl rfl).1, (h.2 demoCancel rfl rfl).2.1⟩

/-- C18: an Init on a state with no pool under the requested key fails with
ErrNoSuchToken if stock or money is not a registered token; otherwise with
ErrNonOwnerIsProhibited if the requesting owner is not the issuer of stock;
otherwise with ErrNonMarketExist if money is not cet and no market stock/cet
exists; and when money is cet the market is not asked for: whether or not a market
stock/cet exists, Init goes on to the custody calls (the freeze of maxSupply of
stock on the owner is issued first) and its result is no guard error. -/
theorem C18_init_guards (k : Keeper W) (ctx : Ctx W) (msg : MsgBancorInit)
    (hfree : Bik.Load ctx (msg.Stock ++ SymbolSeparator ++ msg.Money) = none) :
    ((k.Axk.IsTokenExists ctx.world msg.Stock = false ∨
        k.Axk.IsTokenExists ctx.world msg.Money = false) →
      handleMsgBancorInit k ctx msg = (HandlerError.ErrNoSuchToken.Result, ctx)) ∧
    (k.Axk.IsTokenExists ctx.world msg.Stock = true →
      k.Axk.IsTokenExists ctx.world msg.Money = true →
      k.Axk.IsTokenIssuer ctx.world msg.Stock msg.Owner = false →
      handleMsgBancorInit k ctx msg = (HandlerError.ErrNonOwnerIsProhibited.Result, ctx)) ∧
    (k.Axk.IsTokenExists ctx.world msg.Stock = true →
      k.Axk.IsTokenExists ctx.world msg.Money = true →
      k.Axk.IsTokenIssuer ctx.world msg.Stock msg.Owner = true →
      msg.Money ≠ "cet" →
      k.Mk.IsMarketExist ctx.world (msg.Stock ++ SymbolSeparator ++ "cet") = false →
      handleMsgBancorInit k ctx msg = (HandlerError.ErrNonMarketExist.Result, ctx)) ∧
    (k.Axk.IsTokenExists ctx.world msg.Stock = true →
      k.Axk.IsTokenExists ctx.world msg.Money = true →
      k.Axk.IsTokenIssuer ctx.world msg.Stock msg.Owner = true →
      msg.Money = "cet" →
      (∃ rest, (handleMsgBancorInit k ctx msg).2.calls =
        ctx.calls ++ CustodyCall.FreezeCoins msg.Owner [⟨msg.Stock, msg.MaxSupply⟩] :: rest) ∧
      (∀ e, (handleMsgBancorInit k ctx msg).1.err = some e → e.isGuardError = false)) := by
  refine ⟨?_, ?_, ?_, ?_⟩
  · intro h
    unfold handleMsgBancorInit
    rcases h with h | h <;> simp [hfree, h]
  · intro h1 h2 h3
    unfold handleMsgBancorInit
    simp [hfree, h1, h2, h3]
  · intro h1 h2 h3 h4 h5
    unfold handleMsgBancorInit
    simp [hfree, h1, h2, h3, h4, h5]
  · intro h1 h2 h3 h4
    unfold handleMsgBancorInit
    have hm : (msg.Money != "cet" &&
        !k.Mk.IsMarketExist ctx.world (msg.Stock ++ SymbolSeparator ++ "cet")) = false := by
      simp [h4]
    simp only [hfree, h1, h2, h3, hm, Option.isSome_none, Bool.false_eq_true, if_false,
      Bool.not_true, Bool.or_self]
    constructor
    · rcases hf : (k.Bxk.FreezeCoins ctx.world msg.Owner [⟨msg.Stock, msg.MaxSupply⟩]).1 with _ | e1
      · rw [pair_of_fst_none (k.FreezeCoins ctx msg.Owner _) (by simpa using hf)]
        dsimp only
        rcases hd : (k.Bxk.DeductFee
            (k.Bxk.FreezeCoins ctx.world msg.Owner [⟨msg.Stock, msg.MaxSupply⟩]).2 msg.Owner
            (NewCoins [NewCoin "cet" ctx.param.CreateBancorFee])).1 with _ | e2
        · rw [pair_of_fst_none (k.DeductFee _ msg.Owner _) (by simpa [Bik.GetParam] using hd)]
          exact ⟨_, by simp; rfl⟩
        · rw [pair_of_fst_some (k.DeductFee _ msg.Owner _) e2
            (by simpa [Bik.GetParam] using hd)]
          exact ⟨_, by simp; rfl⟩
      · rw [pair_of_fst_some (k.FreezeCoins ctx msg.Owner _) e1 (by simpa using hf)]
        exact ⟨[], by simp⟩
    · intro e
      repeat' split
      all_goals
        intro he
        simp [SdkError.Result, Result.empty] at he
        try subst he
        try rfl

/-- C18, with no market at all: the Init of abc/cet still reaches the freeze (and
succeeds), and with no token registered it is refused with ErrNoSuchToken. -/
theorem C18_init_guards_witness :
    (handleMsgBancorInit (demoKeeper false) (emptyCtx 50) demoInit).2.calls =
      [CustodyCall.FreezeCoins alice [⟨"abc", 1000⟩],
       CustodyCall.DeductFee alice [⟨"cet", 100⟩]] ∧
    handleMsgBancorInit demoKeeperNoToken (emptyCtx 50) demoInit
      = (HandlerError.ErrNoSuchToken.Result, emptyCtx 50) :=
  ⟨by decide,
   (C18_init_guards demoKeeperNoToken (emptyCtx 50) demoInit (by decide)).1
     (Or.inl (by decide))⟩

/-- An Init that does not succeed leaves the pool store as it was. -/
theorem init_not_ok_pools (k : Keeper W) (ctx : Ctx W) (msg : MsgBancorInit)
    (h : (handleMsgBancorInit k ctx msg).1.IsOK = false) :
    (handleMsgBancorInit k ctx msg).2.pools = ctx.pools := by
  revert h
  unfold handleMsgBancorInit
  repeat' first
    | split
    | (dsimp only; split)
  all_goals first
    | (intro _; rfl)
    | (intro h
       simp only [Prod.ext_iff] at *
       casesm* _ ∧ _
       subst_vars
       first
         | simp
         | simp [Result.IsOK, Result.empty] at h)

/-- A Trade that does not succeed leaves the pool store as it was. -/
theorem trade_not_ok_pools (k : Keeper W) (ctx : Ctx W) (msg : MsgBancorTrade)
    (h : (handleMsgBancorTrade k ctx msg).1.IsOK = false) :
    (handleMsgBancorTrade k ctx msg).2.pools = ctx.pools := by
  revert h
  unfold handleMsgBancorTrade
  repeat' first
    | split
    | (dsimp only; split)
  all_goals first
    | (intro _; rfl)
    | (intro h
       simp only [Prod.ext_iff] at *
       casesm* _ ∧ _
       subst_vars
       first
         | simp
         | simp [Result.IsOK, Result.empty] at h)

/-- C12, the code at a concrete request: at the stored pool abc/cet, the owner's
Cancel at block time 100 with a ledger that refuses the unfreeze returns that
custody error, after the fee deduction and the one unfreeze call, and the pool
record is already gone from the store: the record is removed before the unfreeze
calls, not after them. -/
theorem C12_cancel_removes_before_unfreeze :
    Bik.Load (demoCtx 100) ("abc" ++ SymbolSeparator ++ "cet") = some demoPool ∧
    (handleMsgBancorCancel demoKeeperNoUnfreeze (demoCtx 100) demoCancel).1.err
      = some (HandlerError.keeper ⟨"bankx", 1, "not frozen"⟩) ∧
    (handleMsgBancorCancel demoKeeperNoUnfreeze (demoCtx 100) demoCancel).2.calls =
      [CustodyCall.DeductFee alice [⟨"cet", 100⟩],
       CustodyCall.UnFreezeCoins alice [⟨"abc", 1000⟩]] ∧
    Bik.Load (handleMsgBancorCancel demoKeeperNoUnfreeze (demoCtx 100) demoCancel).2
      ("abc" ++ SymbolSeparator ++ "cet") = none := by
  refine ⟨by decide, by decide, by decide, by decide⟩

/-- The curve model rejects a move exactly when it leaves [0, maxSupply]. -/
theorem UpdateStockInPool_none_iff (bi : BancorInfo) (stockInPool : Int) :
    bi.UpdateStockInPool stockInPool = none ↔ (stockInPool < 0 ∨ bi.MaxSupply < stockInPool) := by
  unfold BancorInfo.UpdateStockInPool
  split
  · rename_i h
    simp only [true_iff]
    rcases h with h | h
    · exact Or.inl h
    · exact Or.inr h
  · rename_i h
    simp only [false_iff, reduceCtorEq]
    intro h2
    apply h
    rcases h2 with h2 | h2
    · exact Or.inl h2
    · exact Or.inr h2

/-- A trade that answers ErrStockInPoolOutofBound had its move rejected by the curve
model. -/
theorem trade_bound_err (k : Keeper W) (ctx : Ctx W) (msg : MsgBancorTrade) (bi : BancorInfo)
    (hload : Bik.Load ctx (msg.Stock ++ SymbolSeparator ++ msg.Money) = some bi)
    (he : (handleMsgBancorTrade k ctx msg).1.err = some HandlerError.ErrStockInPoolOutofBound) :
    bi.UpdateStockInPool (tradeStockInPool bi msg) = none := by
  unfold handleMsgBancorTrade at he
  simp only [hload] at he
  split at he
  · simp [HandlerError.Result] at he
  split at he
  · assumption
  exfalso
  repeat' split at he
  all_goals simp [HandlerError.Result, SdkError.Result] at he

/-- C13: for an existing pool and a trade by a non-owner, the reserve handed to the
curve model is stockInPool + amount for a sell and stockInPool − amount for a buy;
the trade fails with ErrStockInPoolOutofBound exactly when that value lies outside
[0, maxSupply], and then nothing is changed; and the record persisted by a
successful trade has stockInPool equal to that value. -/
theorem C13_trade_new_reserve (k : Keeper W) (ctx : Ctx W) (msg : MsgBancorTrade)
    (bi : BancorInfo)
    (hload : Bik.Load ctx (msg.Stock ++ SymbolSeparator ++ msg.Money) = some bi)
    (hown : bi.Owner ≠ msg.Sender) :
    tradeStockInPool bi msg =
      (if msg.IsBuy then bi.StockInPool - msg.Amount else bi.StockInPool + msg.Amount) ∧
    ((handleMsgBancorTrade k ctx msg).1 = HandlerError.ErrStockInPoolOutofBound.Result ↔
      (tradeStockInPool bi msg < 0 ∨ bi.MaxSupply < tradeStockInPool bi msg)) ∧
    ((tradeStockInPool bi msg < 0 ∨ bi.MaxSupply < tradeStockInPool bi msg) →
      (handleMsgBancorTrade k ctx msg).2 = ctx) ∧
    ((handleMsgBancorTrade k ctx msg).1.IsOK = true →
      ∃ biNew, Bik.Load (handleMsgBancorTrade k ctx msg).2
          (bi.Stock ++ SymbolSeparator ++ bi.Money) = some biNew ∧
        biNew.StockInPool = tradeStockInPool bi msg) := by
  have hfail : (tradeStockInPool bi msg < 0 ∨ bi.MaxSupply < tradeStockInPool bi msg) →
      handleMsgBancorTrade k ctx msg = (HandlerError.ErrStockInPoolOutofBound.Result, ctx) := by
    intro hout
    have hnone := (UpdateStockInPool_none_iff bi _).mpr hout
    unfold handleMsgBancorTrade
    simp [hload, hown, bytesEqual, hnone]
  refine ⟨rfl, ⟨?_, ?_⟩, ?_, ?_⟩
  · intro he
    apply (UpdateStockInPool_none_iff bi _).mp
    apply trade_bound_err k ctx msg bi hload
    rw [he]
    rfl
  · intro hout
    rw [hfail hout]
  · intro hout
    rw [hfail hout]
  · intro hok
    obtain ⟨b, biNew, price, hl, -, hupd, -, -, hpools, -⟩ := trade_ok_inv k ctx msg hok
    have hb : b = bi := Option.some.inj (hl.symm.trans hload)
    subst hb
    obtain ⟨-, -, h2, -, h4, h5, -⟩ := UpdateStockInPool_some _ _ _ hupd
    refine ⟨biNew, ?_, h2⟩
    unfold Bik.Load
    rw [hpools]
    simp [Bik.Save, h4, h5]

/-- C13, at the pool abc/cet holding 1000: bob's buy of 100 hands 900 to the curve
model and the record stored afterwards holds 900. -/
theorem C13_trade_new_reserve_witness :
    tradeStockInPool demoPool (demoBuy 0) = 900 ∧
    ∃ biNew, Bik.Load (handleMsgBancorTrade (demoKeeper true) (demoCtx 50) (demoBuy 0)).2
        (demoPool.Stock ++ SymbolSeparator ++ demoPool.Money) = some biNew ∧
      biNew.StockInPool = tradeStockInPool demoPool (demoBuy 0) :=
  ⟨by decide,
   (C13_trade_new_reserve (demoKeeper true) (demoCtx 50) (demoBuy 0) demoPool
     (by decide) (by decide)).2.2.2 (by decide)⟩

/-- A trade by the pool's owner is refused with ErrOwnerIsProhibited and changes
nothing. -/
theorem owner_trade_refused (k : Keeper W) (ctx : Ctx W) (msg : MsgBancorTrade)
    (bi : BancorInfo)
    (hload : Bik.Load ctx (msg.Stock ++ SymbolSeparator ++ msg.Money) = some bi)
    (hown : msg.Sender = bi.Owner) :
    handleMsgBancorTrade k ctx msg = (HandlerError.ErrOwnerIsProhibited.Result, ctx) := by
  unfold handleMsgBancorTrade
  simp [hload, hown, bytesEqual]

/-- The amount of any denomination in the one-coin list NewCoins builds. -/
theorem NewCoins_single_AmountOf_any (denom d : String) (amount : Int) :
    (NewCoins [NewCoin denom amount]).AmountOf d = if d = denom then amount else 0 := by
  by_cases h : amount = 0
  · simp [NewCoins, NewCoin, Coins.AmountOf, h]
  · by_cases hd : denom = d
    · simp [NewCoins, NewCoin, Coins.AmountOf, h, hd]
    · have hd2 : ¬ d = denom := fun e => hd e.symm
      simp [NewCoins, NewCoin, Coins.AmountOf, h, hd, hd2]

/-- The context a successful Cancel leaves: the fee deduction, the removal of the
record, and the two unfreeze calls, applied in that order. -/
theorem cancel_ok_ctx (k : Keeper W) (ctx : Ctx W) (msg : MsgBancorCancel) (bi : BancorInfo)
    (hload : Bik.Load ctx (msg.Stock ++ SymbolSeparator ++ msg.Money) = some bi)
    (hok : (handleMsgBancorCancel k ctx msg).1.IsOK = true) :
    (handleMsgBancorCancel k ctx msg).2 =
      (k.UnFreezeCoins
        (k.UnFreezeCoins
          (Bik.Remove
            (k.DeductFee ctx msg.Owner (NewCoins [NewCoin "cet" ctx.param.CancelBancorFee])).2
            bi)
          bi.Owner (NewCoins [NewCoin bi.Stock bi.StockInPool])).2
        bi.Owner (NewCoins [NewCoin bi.Money bi.MoneyInPool])).2 := by
  obtain ⟨b, hl, hown, htime, hmarket, -, -⟩ := cancel_ok_inv k ctx msg hok
  have hb : b = bi := Option.some.inj (hl.symm.trans hload)
  subst hb
  rw [cancel_unfold_guards k ctx msg b hload hown htime hmarket] at hok ⊢
  split at hok
  · simp [SdkError.Result, Result.IsOK] at hok
  rename_i ctx1 e1
  split at hok
  · simp [SdkError.Result, Result.IsOK] at hok
  rename_i ctx3 e3
  split at hok
  · simp [SdkError.Result, Result.IsOK] at hok
  rename_i ctx4 e4
  simp only [e1, e3, e4]

/-- C17: a successful Cancel of a pool stored under its own key is the owner's; its
custody calls are exactly the deduction of the cancellation fee in cet from the
owner, the unfreeze on the owner of exactly stockInPool of stock, and the unfreeze
on the owner of exactly moneyInPool of money, and the ledger is the one these three
calls leave; the pool's record is removed from the store and every other record is
unchanged. -/
theorem C17_cancel_effects (k : Keeper W) (ctx : Ctx W) (msg : MsgBancorCancel)
    (bi : BancorInfo)
    (hload : Bik.Load ctx (msg.Stock ++ SymbolSeparator ++ msg.Money) = some bi)
    (hstock : bi.Stock = msg.Stock) (hmoney : bi.Money = msg.Money)
    (hok : (handleMsgBancorCancel k ctx msg).1.IsOK = true) :
    msg.Owner = bi.Owner ∧
    (handleMsgBancorCancel k ctx msg).2.calls = ctx.calls ++
      [CustodyCall.DeductFee bi.Owner (NewCoins [NewCoin "cet" ctx.param.CancelBancorFee]),
       CustodyCall.UnFreezeCoins bi.Owner (NewCoins [NewCoin bi.Stock bi.StockInPool]),
       CustodyCall.UnFreezeCoins bi.Owner (NewCoins [NewCoin bi.Money bi.MoneyInPool])] ∧
    (∀ d, (NewCoins [NewCoin "cet" ctx.param.CancelBancorFee]).AmountOf d =
      if d = "cet" then ctx.param.CancelBancorFee else 0) ∧
    (∀ d, (NewCoins [NewCoin bi.Stock bi.StockInPool]).AmountOf d =
      if d = bi.Stock then bi.StockInPool else 0) ∧
    (∀ d, (NewCoins [NewCoin bi.Money bi.MoneyInPool]).AmountOf d =
      if d = bi.Money then bi.MoneyInPool else 0) ∧
    (handleMsgBancorCancel k ctx msg).2.world =
      (k.Bxk.UnFreezeCoins
        (k.Bxk.UnFreezeCoins
          (k.Bxk.DeductFee ctx.world bi.Owner
            (NewCoins [NewCoin "cet" ctx.param.CancelBancorFee])).2
          bi.Owner (NewCoins [NewCoin bi.Stock bi.StockInPool])).2
        bi.Owner (NewCoins [NewCoin bi.Money bi.MoneyInPool])).2 ∧
    Bik.Load (handleMsgBancorCancel k ctx msg).2 (msg.Stock ++ SymbolSeparator ++ msg.Money)
      = none ∧
    (∀ s, s ≠ msg.Stock ++ SymbolSeparator ++ msg.Money →
      Bik.Load (handleMsgBancorCancel k ctx msg).2 s = Bik.Load ctx s) := by
  obtain ⟨b, hl, hown, -, -, -, -⟩ := cancel_ok_inv k ctx msg hok
  have hb : b = bi := Option.some.inj (hl.symm.trans hload)
  subst hb
  rw [cancel_ok_ctx k ctx msg b hload hok]
  refine ⟨hown, ?_, fun d => NewCoins_single_AmountOf_any _ _ _,
    fun d => NewCoins_single_AmountOf_any _ _ _,
    fun d => NewCoins_single_AmountOf_any _ _ _, ?_, ?_, ?_⟩
  · simp [hown]
  · simp [hown]
  · simp [Bik.Load, Bik.Remove, hstock, hmoney]
  · intro s hs
    simp [Bik.Load, Bik.Remove, hstock, hmoney, hs]

/-- C17, at the pool abc/cet: the owner's Cancel at block time 100 deducts 100 cet,
unfreezes 1000 abc and no cet, and frees the key. -/
theorem C17_cancel_effects_witness :
    (handleMsgBancorCancel (demoKeeper true) (demoCtx 100) demoCancel).2.calls =
      [CustodyCall.DeductFee alice [⟨"cet", 100⟩],
       CustodyCall.UnFreezeCoins alice [⟨"abc", 1000⟩],
       CustodyCall.UnFreezeCoins alice []] ∧
    Bik.Load (handleMsgBancorCancel (demoKeeper true) (demoCtx 100) demoCancel).2
      ("abc" ++ SymbolSeparator ++ "cet") = none :=
  have h := C17_cancel_effects (demoKeeper true) (demoCtx 100) demoCancel demoPool
    (by decide) (by decide) (by decide) (by decide)
  ⟨h.2.1, h.2.2.2.2.2.2.1⟩

/-- C20 (as amended): on an existing pool, a Cancel whose caller is not the pool's
owner is refused, at any block time, with ErrNotBancorOwner, an error of its own and
not the ErrOwnerIsProhibited that an owner's self-trade returns; the context is left
as it was: the pool stays in the store unchanged, nothing is unfrozen and no fee is
deducted. -/
theorem C20_cancel_by_non_owner (k : Keeper W) (ctx : Ctx W) (msg : MsgBancorCancel)
    (bi : BancorInfo)
    (hload : Bik.Load ctx (msg.Stock ++ SymbolSeparator ++ msg.Money) = some bi)
    (hne : msg.Owner ≠ bi.Owner) :
    (∀ t : Int,
      (handleMsgBancorCancel k (ctx.atTime t) msg).1 = HandlerError.ErrNotBancorOwner.Result ∧
      (handleMsgBancorCancel k (ctx.atTime t) msg).2 = ctx.atTime t) ∧
    (handleMsgBancorCancel k ctx msg).1 = HandlerError.ErrNotBancorOwner.Result ∧
    (handleMsgBancorCancel k ctx msg).2 = ctx ∧
    Bik.Load (handleMsgBancorCancel k ctx msg).2 (msg.Stock ++ SymbolSeparator ++ msg.Money)
      = some bi ∧
    (handleMsgBancorCancel k ctx msg).2.calls = ctx.calls ∧
    (handleMsgBancorCancel k ctx msg).2.world = ctx.world ∧
    (∀ (c : Ctx W) (trade : MsgBancorTrade) (b : BancorInfo),
      Bik.Load c (trade.Stock ++ SymbolSeparator ++ trade.Money) = some b →
      trade.Sender = b.Owner →
      (handleMsgBancorTrade k c trade).1.err = some HandlerError.ErrOwnerIsProhibited ∧
      (handleMsgBancorTrade k c trade).1.err ≠ (handleMsgBancorCancel k ctx msg).1.err) := by
  have hgen : ∀ c : Ctx W, Bik.Load c (msg.Stock ++ SymbolSeparator ++ msg.Money) = some bi →
      handleMsgBancorCancel k c msg = (HandlerError.ErrNotBancorOwner.Result, c) := by
    intro c hc
    have hne2 : ¬ bi.Owner = msg.Owner := fun e => hne e.symm
    unfold handleMsgBancorCancel
    simp [hc, bytesEqual, hne2]
  refine ⟨fun t => ?_, ?_⟩
  · rw [hgen (ctx.atTime t) hload]
    exact ⟨rfl, rfl⟩
  · rw [hgen ctx hload]
    refine ⟨rfl, rfl, hload, rfl, rfl, ?_⟩
    intro c trade b hb hs
    rw [owner_trade_refused k c trade b hb hs]
    exact ⟨rfl, by simp [HandlerError.Result]⟩

/-- C20, at the pool abc/cet owned by alice: bob's Cancel is refused at block
time 100 with ErrNotBancorOwner, and nothing changes. -/
theorem C20_cancel_by_non_owner_witness :
    (handleMsgBancorCancel (demoKeeper true) (demoCtx 100) bobCancel).1
      = HandlerError.ErrNotBancorOwner.Result ∧
    (handleMsgBancorCancel (demoKeeper true) (demoCtx 100) bobCancel).2 = demoCtx 100 :=
  have h := C20_cancel_by_non_owner (demoKeeper true) (demoCtx 100) bobCancel demoPool
    (by decide) (by decide)
  ⟨h.2.1, h.2.2.1⟩

/-- C20 as stated fails: at the pool abc/cet owned by alice, bob's Cancel returns
ErrNotBancorOwner while alice's own trade returns ErrOwnerIsProhibited, two
different errors. -/
theorem C20_counterexample :
    Bik.Load (demoCtx 100) ("abc" ++ SymbolSeparator ++ "cet") = some demoPool ∧
    bobCancel.Owner ≠ demoPool.Owner ∧ ownerTrade.Sender = demoPool.Owner ∧
    (handleMsgBancorCancel (demoKeeper true) (demoCtx 100) bobCancel).1.err
      = some HandlerError.ErrNotBancorOwner ∧
    (handleMsgBancorTrade (demoKeeper true) (demoCtx 100) ownerTrade).1.err
      = some HandlerError.ErrOwnerIsProhibited ∧
    (handleMsgBancorCancel (demoKeeper true) (demoCtx 100) bobCancel).1.err ≠
      (handleMsgBancorTrade (demoKeeper true) (demoCtx 100) ownerTrade).1.err := by
  refine ⟨by decide, by decide, by decide, by decide, by decide, by decide⟩

/-! ### Commission and money moved -/

/-- Rounding a non-negative scaled value leaves it within half a unit. -/
theorem chopPrecisionAndRoundNonneg_near (d : Int) (h : 0 ≤ d) :
    2 * (chopPrecisionAndRoundNonneg d * 1000000000000000000 - d) ≤ 1000000000000000000 ∧
    -1000000000000000000 ≤ 2 * (chopPrecisionAndRoundNonneg d * 1000000000000000000 - d) := by
  unfold chopPrecisionAndRoundNonneg precisionReuse fivePrecision
  rw [Int.tdiv_eq_ediv h (by decide), Int.tmod_eq_emod h (by decide)]
  simp only []
  split_ifs <;> omega

/-- Rounding a scaled value to an integer leaves it within half a unit. -/
theorem chopPrecisionAndRound_near (d : Int) :
    2 * |chopPrecisionAndRound d * 1000000000000000000 - d| ≤ 1000000000000000000 := by
  unfold chopPrecisionAndRound
  split
  · rename_i hneg
    have h := chopPrecisionAndRoundNonneg_near (-d) (by omega)
    rcases abs_cases (-chopPrecisionAndRoundNonneg (-d) * 1000000000000000000 - d)
      with ⟨e, _⟩ | ⟨e, _⟩
    · rw [e]; omega
    · rw [e]; omega
  · rename_i hpos
    have h := chopPrecisionAndRoundNonneg_near d (by omega)
    rcases abs_cases (chopPrecisionAndRoundNonneg d * 1000000000000000000 - d)
      with ⟨e, _⟩ | ⟨e, _⟩
    · rw [e]; omega
    · rw [e]; omega

/-- The four custody calls that follow the fee deduction of a trade only append to
the calls issued so far. -/
theorem trade_tail_calls (k : Keeper W) (c1 : Ctx W) (msg : MsgBancorTrade)
    (bi biNew : BancorInfo) :
    ∃ rest,
      (match k.SendCoins c1 msg.Sender bi.Owner (tradeCoinsToPool bi biNew msg) with
        | (some err, ctx2) => (err.Result, ctx2)
        | (none, ctx2) =>
          match k.FreezeCoins ctx2 bi.Owner (tradeCoinsToPool bi biNew msg) with
          | (some err, ctx3) => (err.Result, ctx3)
          | (none, ctx3) =>
            match k.UnFreezeCoins ctx3 bi.Owner (tradeCoinsFromPool bi biNew msg) with
            | (some err, ctx4) => (err.Result, ctx4)
            | (none, ctx4) =>
              match k.SendCoins ctx4 bi.Owner msg.Sender (tradeCoinsFromPool bi biNew msg) with
              | (some err, ctx5) => (err.Result, ctx5)
              | (none, ctx5) =>
                (⟨none, ((Bik.Save ctx5 biNew).EmitEvents (tradeEvents bi biNew msg)).events⟩,
                 (Bik.Save ctx5 biNew).EmitEvents (tradeEvents bi biNew msg))).2.calls
        = c1.calls ++ rest := by
  repeat' split
  all_goals
    simp only [Prod.ext_iff] at *
    casesm* _ ∧ _
    subst_vars
    simp only [SendCoins_calls, FreezeCoins_calls, UnFreezeCoins_calls, Save_calls,
      Ctx.EmitEvents, List.append_assoc]
    exact ⟨_, rfl⟩

/-- C15: for a trade that passes the guards (existing pool, non-owner, accepted move,
no slippage) and for which the market stock/cet has a last executed price p, the
first custody call issued is the deduction from the sender, in cet, of the
commission; nothing is sent or frozen before it, and nothing at all when it is
refused. The commission is p × amount × tradeFeeRate / 10000 in sdk.Dec arithmetic
(the scaled value of p times amount times the rate, divided by 10000 with
truncation) rounded to an integer, so that it differs from that decimal by at most
one half. -/
theorem C15_trade_commission (k : Keeper W) (ctx : Ctx W) (msg : MsgBancorTrade)
    (bi biNew : BancorInfo) (p : Dec)
    (hload : Bik.Load ctx (msg.Stock ++ SymbolSeparator ++ msg.Money) = some bi)
    (hown : bi.Owner ≠ msg.Sender)
    (hupd : bi.UpdateStockInPool (tradeStockInPool bi msg) = some biNew)
    (hcross : tradeMoneyCrossLimit bi biNew msg = false)
    (hprice : k.Mk.GetMarketLastExePrice ctx.world (msg.Stock ++ SymbolSeparator ++ "cet")
      = Except.ok p) :
    (∃ rest, (handleMsgBancorTrade k ctx msg).2.calls = ctx.calls ++
        CustodyCall.DeductFee msg.Sender
          (NewCoins [NewCoin "cet" (tradeCommission p msg ctx.param)]) :: rest ∧
      ((k.Bxk.DeductFee ctx.world msg.Sender
          (NewCoins [NewCoin "cet" (tradeCommission p msg ctx.param)])).1 ≠ none →
        rest = [])) ∧
    (∀ d, (NewCoins [NewCoin "cet" (tradeCommission p msg ctx.param)]).AmountOf d =
      if d = "cet" then tradeCommission p msg ctx.param else 0) ∧
    tradeCommission p msg ctx.param =
      chopPrecisionAndRound (Int.tdiv (p.raw * msg.Amount * ctx.param.TradeFeeRate) 10000) ∧
    2 * |tradeCommission p msg ctx.param * 1000000000000000000 -
          Int.tdiv (p.raw * msg.Amount * ctx.param.TradeFeeRate) 10000|
      ≤ 1000000000000000000 := by
  have hown2 : bytesEqual bi.Owner msg.Sender = false := by simpa [bytesEqual] using hown
  refine ⟨?_, fun d => NewCoins_single_AmountOf_any _ _ _, rfl, chopPrecisionAndRound_near _⟩
  rw [trade_unfold_guards k ctx msg bi biNew p hload hown2 hupd hcross hprice]
  rcases hf : (k.Bxk.DeductFee ctx.world msg.Sender
      (NewCoins [NewCoin "cet" (tradeCommission p msg ctx.param)])).1 with _ | e
  · rw [pair_of_fst_none (k.DeductFee ctx msg.Sender _) (by simpa using hf)]
    dsimp only
    obtain ⟨rest, hrest⟩ := trade_tail_calls k
      (k.DeductFee ctx msg.Sender
        (NewCoins [NewCoin "cet" (tradeCommission p msg ctx.param)])).2 msg bi biNew
    refine ⟨rest, ?_, fun h => absurd rfl h⟩
    rw [hrest]
    simp
  · rw [pair_of_fst_some (k.DeductFee ctx msg.Sender _) e (by simpa using hf)]
    exact ⟨[], by simp, fun _ => rfl⟩

/-- C15, at the pool abc/cet with last price 1 and fee rate 250: the commission of
a buy of 100 is 1 × 100 × 250 / 10000 = 2.5, rounded (half to even) to 2, and its
deduction is the first custody call. -/
theorem C15_trade_commission_witness :
    tradeCommission ⟨1000000000000000000⟩ (demoBuy 0) (demoCtxRate 250).param = 2 ∧
    ∃ rest, (handleMsgBancorTrade (demoKeeper true) (demoCtxRate 250) (demoBuy 0)).2.calls =
      (demoCtxRate 250).calls ++
        CustodyCall.DeductFee bob
          (NewCoins [NewCoin "cet"
            (tradeCommission ⟨1000000000000000000⟩ (demoBuy 0) (demoCtxRate 250).param)]) :: rest :=
  have h := (C15_trade_commission (demoKeeper true) (demoCtxRate 250) (demoBuy 0) demoPool
    demoPoolAfterBuy ⟨1000000000000000000⟩ (by decide) (by decide) (by decide) (by decide)
    rfl).1
  ⟨by decide, h.elim fun rest hr => ⟨rest, hr.1⟩⟩

/-- Rounding of non-negative scaled values is monotone. -/
theorem chopPrecisionAndRound_mono (d1 d2 : Int) (h0 : 0 ≤ d1) (h : d1 ≤ d2) :
    chopPrecisionAndRound d1 ≤ chopPrecisionAndRound d2 := by
  have h2 : 0 ≤ d2 := le_trans h0 h
  unfold chopPrecisionAndRound
  rw [if_neg (by omega), if_neg (by omega)]
  unfold chopPrecisionAndRoundNonneg precisionReuse fivePrecision
  rw [Int.tdiv_eq_ediv h0 (by decide), Int.tmod_eq_emod h0 (by decide),
    Int.tdiv_eq_ediv h2 (by decide), Int.tmod_eq_emod h2 (by decide)]
  simp only []
  split_ifs <;> omega

/-- Truncated division of non-negative values by a non-negative value is monotone. -/
theorem tdiv_mono_nonneg (a b m : Int) (ha : 0 ≤ a) (hab : a ≤ b) (hm : 0 ≤ m) :
    0 ≤ Int.tdiv a m ∧ Int.tdiv a m ≤ Int.tdiv b m := by
  have hb : 0 ≤ b := le_trans ha hab
  rw [Int.tdiv_eq_ediv ha hm, Int.tdiv_eq_ediv hb hm]
  rcases lt_or_eq_of_le hm with h | h
  · exact ⟨Int.ediv_nonneg ha hm, Int.ediv_le_ediv h hab⟩
  · subst h
    simp

/-- With 0 ≤ initPrice ≤ maxPrice, the money reserve of the curve does not grow
when the reserve of stock grows, for reserves up to maxSupply. -/
theorem curveMoney_antitone (bi : BancorInfo) (s1 s2 : Int)
    (hinit : 0 ≤ bi.InitPrice.raw) (hmax : bi.InitPrice.raw ≤ bi.MaxPrice.raw)
    (h0 : 0 ≤ s1) (h12 : s1 ≤ s2) (h2 : s2 ≤ bi.MaxSupply) :
    bi.curveMoney s2 ≤ bi.curveMoney s1 := by
  unfold BancorInfo.curveMoney BancorInfo.curvePrice Dec.RoundInt Dec.QuoInt Dec.MulInt Dec.Add
    Dec.Sub
  simp only []
  have hM : 0 ≤ bi.MaxSupply := by omega
  have hx2 : 0 ≤ bi.MaxSupply - s2 := by omega
  have hx : bi.MaxSupply - s2 ≤ bi.MaxSupply - s1 := by omega
  have ha : 0 ≤ bi.MaxPrice.raw - bi.InitPrice.raw := by omega
  have hq := tdiv_mono_nonneg ((bi.MaxPrice.raw - bi.InitPrice.raw) * (bi.MaxSupply - s2))
    ((bi.MaxPrice.raw - bi.InitPrice.raw) * (bi.MaxSupply - s1)) bi.MaxSupply
    (mul_nonneg ha hx2) (mul_le_mul_of_nonneg_left hx ha) hM
  have hg0 : 0 ≤ Int.tdiv ((bi.MaxPrice.raw - bi.InitPrice.raw) * (bi.MaxSupply - s2))
      bi.MaxSupply + bi.InitPrice.raw + bi.InitPrice.raw := by omega
  have hg : Int.tdiv ((bi.MaxPrice.raw - bi.InitPrice.raw) * (bi.MaxSupply - s2))
      bi.MaxSupply + bi.InitPrice.raw + bi.InitPrice.raw ≤
      Int.tdiv ((bi.MaxPrice.raw - bi.InitPrice.raw) * (bi.MaxSupply - s1))
      bi.MaxSupply + bi.InitPrice.raw + bi.InitPrice.raw := by omega
  have hprod := mul_le_mul hg hx hx2 (le_trans hg0 hg)
  have hh := tdiv_mono_nonneg _ _ 2 (mul_nonneg hg0 hx2) hprod (by decide)
  exact chopPrecisionAndRound_mono _ _ hh.1 hh.2

/-- The money reserve of the record the curve model returns is the curve's value
at the new reserve. -/
theorem UpdateStockInPool_money (bi biNew : BancorInfo) (stockInPool : Int)
    (h : bi.UpdateStockInPool stockInPool = some biNew) :
    biNew.MoneyInPool = bi.curveMoney stockInPool ∧ biNew.InitPrice = bi.InitPrice ∧
    biNew.MaxPrice = bi.MaxPrice := by
  unfold BancorInfo.UpdateStockInPool at h
  split at h
  · simp at h
  simp only [Option.some.injEq] at h
  subst h
  exact ⟨rfl, rfl, rfl⟩

/-- A record on its curve stays on it through an accepted move of the reserve. -/
theorem OnCurve_update (bi biNew : BancorInfo) (stockInPool : Int) (hc : bi.OnCurve)
    (h : bi.UpdateStockInPool stockInPool = some biNew) : biNew.OnCurve := by
  obtain ⟨h0, h1, h2, h3, -, -, -⟩ := UpdateStockInPool_some bi biNew stockInPool h
  obtain ⟨hm, hi, hp⟩ := UpdateStockInPool_money bi biNew stockInPool h
  obtain ⟨c1, c2, -, -, -⟩ := hc
  refine ⟨by rw [hi]; exact c1, by rw [hi, hp]; exact c2, by omega, by omega, ?_⟩
  rw [hm, h2]
  unfold BancorInfo.curveMoney BancorInfo.curvePrice
  rw [hi, hp, h3]

/-- The record a successful Init writes is on its curve, when the request has
0 ≤ initPrice ≤ maxPrice and 0 ≤ maxSupply. -/
theorem OnCurve_init (msg : MsgBancorInit) (hinit : 0 ≤ msg.InitPrice.raw)
    (hmax : msg.InitPrice.raw ≤ msg.MaxPrice.raw) (hsupply : 0 ≤ msg.MaxSupply) :
    BancorInfo.OnCurve
      { Owner := msg.Owner, Stock := msg.Stock, Money := msg.Money,
        InitPrice := msg.InitPrice, MaxSupply := msg.MaxSupply, MaxPrice := msg.MaxPrice,
        Price := ZeroDec, StockInPool := msg.MaxSupply, MoneyInPool := ZeroInt,
        EnableCancelTime := msg.EnableCancelTime } := by
  refine ⟨hinit, hmax, hsupply, le_refl _, ?_⟩
  simp [BancorInfo.curveMoney, Dec.MulInt, Dec.QuoInt, Dec.RoundInt, chopPrecisionAndRound,
    chopPrecisionAndRoundNonneg, ZeroInt]

/-- The record a successful trade stores is the one the curve model returned for
the record it loaded. -/
theorem trade_ok_record (k : Keeper W) (ctx : Ctx W) (m : MsgBancorTrade) (bi : BancorInfo)
    (hload : Bik.Load ctx (m.Stock ++ SymbolSeparator ++ m.Money) = some bi)
    (hs : bi.Stock = m.Stock) (hm : bi.Money = m.Money)
    (hok : (handleMsgBancorTrade k ctx m).1.IsOK = true) :
    ∃ biNew, bi.UpdateStockInPool (tradeStockInPool bi m) = some biNew ∧
      Bik.Load (handleMsgBancorTrade k ctx m).2 (m.Stock ++ SymbolSeparator ++ m.Money)
        = some biNew := by
  obtain ⟨b, biNew, price, hl, -, hupd, -, -, hpools, -⟩ := trade_ok_inv k ctx m hok
  have hb : b = bi := Option.some.inj (hl.symm.trans hload)
  subst hb
  obtain ⟨-, -, -, -, h4, h5, -⟩ := UpdateStockInPool_some _ _ _ hupd
  refine ⟨biNew, hupd, ?_⟩
  unfold Bik.Load
  rw [hpools]
  simp [Bik.Save, h4, h5, hs, hm]

/-- A run of successful trades on a pool keeps its record on the curve. -/
theorem runTrades_OnCurve (k : Keeper W) (stock money : String) (trades : List MsgBancorTrade) :
    ∀ (ctx ctx2 : Ctx W) (bi : BancorInfo),
      (∀ m ∈ trades, m.Stock = stock ∧ m.Money = money) →
      Bik.Load ctx (stock ++ SymbolSeparator ++ money) = some bi →
      bi.Stock = stock → bi.Money = money → bi.OnCurve →
      runTrades k ctx trades = some ctx2 →
      ∃ bi2, Bik.Load ctx2 (stock ++ SymbolSeparator ++ money) = some bi2 ∧ bi2.OnCurve := by
  induction trades with
  | nil =>
    intro ctx ctx2 bi _ hload _ _ hc hrun
    simp only [runTrades, Option.some.injEq] at hrun
    subst hrun
    exact ⟨bi, hload, hc⟩
  | cons m ms ih =>
    intro ctx ctx2 bi hon hload hs hm hc hrun
    have hm0 := hon m (List.mem_cons_self m ms)
    simp only [runTrades] at hrun
    split at hrun
    swap
    · simp at hrun
    rename_i hok
    have hload2 : Bik.Load ctx (m.Stock ++ SymbolSeparator ++ m.Money) = some bi := by
      rw [hm0.1, hm0.2]
      exact hload
    obtain ⟨b1, hupd, hl1⟩ :=
      trade_ok_record k ctx m bi hload2 (hs.trans hm0.1.symm) (hm.trans hm0.2.symm) hok
    obtain ⟨-, -, -, -, h4, h5, -⟩ := UpdateStockInPool_some _ _ _ hupd
    rw [hm0.1, hm0.2] at hl1
    exact ih _ ctx2 b1 (fun x hx => hon x (List.mem_cons_of_mem m hx)) hl1
      (h4.trans hs) (h5.trans hm) (OnCurve_update bi b1 _ hc hupd) hrun

/-- After a successful Init of a request with 0 ≤ initPrice ≤ maxPrice and
0 ≤ maxSupply, and any run of successful trades on the pool, the stored record is
on its curve. -/
theorem reachable_OnCurve (k : Keeper W) (ctx ctx2 : Ctx W) (init : MsgBancorInit)
    (trades : List MsgBancorTrade)
    (hprice : 0 ≤ init.InitPrice.raw) (hmax : init.InitPrice.raw ≤ init.MaxPrice.raw)
    (hsupply : 0 ≤ init.MaxSupply)
    (hinit : (handleMsgBancorInit k ctx init).1.IsOK = true)
    (hon : ∀ m ∈ trades, m.Stock = init.Stock ∧ m.Money = init.Money)
    (hrun : runTrades k (handleMsgBancorInit k ctx init).2 trades = some ctx2) :
    ∃ bi, Bik.Load ctx2 (init.Stock ++ SymbolSeparator ++ init.Money) = some bi ∧ bi.OnCurve :=
  runTrades_OnCurve k init.Stock init.Money trades _ ctx2 _ hon
    (init_ok_load k ctx init hinit) rfl rfl (OnCurve_init init hprice hmax hsupply) hrun

/-- The money amount of a trade with a non-negative amount on a record on its
curve is non-negative. -/
theorem tradeDiff_nonneg (bi biNew : BancorInfo) (msg : MsgBancorTrade) (hc : bi.OnCurve)
    (hamount : 0 ≤ msg.Amount)
    (hupd : bi.UpdateStockInPool (tradeStockInPool bi msg) = some biNew) :
    0 ≤ tradeDiff bi biNew msg := by
  obtain ⟨h0, h1, -, -, -, -, -⟩ := UpdateStockInPool_some _ _ _ hupd
  obtain ⟨hm, -, -⟩ := UpdateStockInPool_money _ _ _ hupd
  obtain ⟨c1, c2, c3, c4, c5⟩ := hc
  unfold tradeDiff
  rw [hm, c5]
  unfold tradeStockInPool at h0 h1 ⊢
  cases hb : msg.IsBuy
  · simp only [hb, Bool.false_eq_true, if_false] at h0 h1 ⊢
    have := curveMoney_antitone bi bi.StockInPool (bi.StockInPool + msg.Amount) c1 c2 c3
      (by omega) h1
    omega
  · simp only [hb, if_true] at h0 h1 ⊢
    have := curveMoney_antitone bi (bi.StockInPool - msg.Amount) bi.StockInPool c1 c2 h0
      (by omega) c4
    omega

/-- C14 (as amended): for a trade with amount > 0 on a stored pool whose record is on its curve
(as every record is after an Init with 0 ≤ initPrice ≤ maxPrice and any run of
trades) and whose move the curve model accepts, the money amount moved is
non-negative and equals |newMoneyInPool − moneyInPool|: it is
newMoneyInPool − moneyInPool on a buy and moneyInPool − newMoneyInPool on a sell;
and in a successful trade the sender pays it to the pool owner, where it is frozen,
and receives amount of stock on a buy, while on a sell the sender pays amount of
stock, which is frozen, and receives that money amount, unfrozen from the owner. -/
theorem C14_money_moved (k : Keeper W) (ctx : Ctx W) (msg : MsgBancorTrade)
    (bi biNew : BancorInfo)
    (hload : Bik.Load ctx (msg.Stock ++ SymbolSeparator ++ msg.Money) = some bi)
    (hcurve : bi.OnCurve) (hamount : 0 < msg.Amount)
    (hupd : bi.UpdateStockInPool (tradeStockInPool bi msg) = some biNew) :
    0 ≤ tradeDiff bi biNew msg ∧
    tradeDiff bi biNew msg = |biNew.MoneyInPool - bi.MoneyInPool| ∧
    (msg.IsBuy = true → tradeDiff bi biNew msg = biNew.MoneyInPool - bi.MoneyInPool) ∧
    (msg.IsBuy = false → tradeDiff bi biNew msg = bi.MoneyInPool - biNew.MoneyInPool) ∧
    ((handleMsgBancorTrade k ctx msg).1.IsOK = true →
      ∃ fee, (handleMsgBancorTrade k ctx msg).2.calls = ctx.calls ++
        (if msg.IsBuy then
          [CustodyCall.DeductFee msg.Sender fee,
           CustodyCall.SendCoins msg.Sender bi.Owner
             [⟨msg.Money, |biNew.MoneyInPool - bi.MoneyInPool|⟩],
           CustodyCall.FreezeCoins bi.Owner [⟨msg.Money, |biNew.MoneyInPool - bi.MoneyInPool|⟩],
           CustodyCall.UnFreezeCoins bi.Owner [⟨msg.Stock, msg.Amount⟩],
           CustodyCall.SendCoins bi.Owner msg.Sender [⟨msg.Stock, msg.Amount⟩]]
        else
          [CustodyCall.DeductFee msg.Sender fee,
           CustodyCall.SendCoins msg.Sender bi.Owner [⟨msg.Stock, msg.Amount⟩],
           CustodyCall.FreezeCoins bi.Owner [⟨msg.Stock, msg.Amount⟩],
           CustodyCall.UnFreezeCoins bi.Owner
             [⟨msg.Money, |biNew.MoneyInPool - bi.MoneyInPool|⟩],
           CustodyCall.SendCoins bi.Owner msg.Sender
             [⟨msg.Money, |biNew.MoneyInPool - bi.MoneyInPool|⟩]])) := by
  have hnn := tradeDiff_nonneg bi biNew msg hcurve (le_of_lt hamount) hupd
  have habs : tradeDiff bi biNew msg = |biNew.MoneyInPool - bi.MoneyInPool| := by
    unfold tradeDiff at hnn ⊢
    cases hb : msg.IsBuy
    · simp only [hb, Bool.false_eq_true, if_false] at hnn ⊢
      rw [abs_sub_comm, abs_of_nonneg hnn]
    · simp only [hb, if_true] at hnn ⊢
      rw [abs_of_nonneg hnn]
  refine ⟨hnn, habs, ?_, ?_, ?_⟩
  · intro hb
    simp [tradeDiff, hb]
  · intro hb
    simp [tradeDiff, hb]
  · intro hok
    obtain ⟨b, bn, price, hl, -, hu, -, -, -, hcalls⟩ := trade_ok_inv k ctx msg hok
    have hb : b = bi := Option.some.inj (hl.symm.trans hload)
    subst hb
    have hbn : bn = biNew := Option.some.inj (hu.symm.trans hupd)
    subst hbn
    refine ⟨NewCoins [NewCoin "cet" (tradeCommission price msg ctx.param)], ?_⟩
    rw [hcalls, ← habs]
    unfold tradeCoinsToPool tradeCoinsFromPool
    cases msg.IsBuy <;> simp

/-- C14, at the pool abc/cet on its curve: bob's buy of 100 moves
105 − 0 = 105 of money, and the calls of the trade carry 105 cet to the pool and
100 abc to bob. -/
theorem C14_money_moved_witness :
    demoPool.OnCurve ∧ tradeDiff demoPool demoPoolAfterBuy (demoBuy 0) = 105 ∧
    ∃ fee, (handleMsgBancorTrade (demoKeeper true) (demoCtx 50) (demoBuy 0)).2.calls =
      (demoCtx 50).calls ++
        (if (demoBuy 0).IsBuy then
          [CustodyCall.DeductFee (demoBuy 0).Sender fee,
           CustodyCall.SendCoins (demoBuy 0).Sender demoPool.Owner
             [⟨(demoBuy 0).Money, |demoPoolAfterBuy.MoneyInPool - demoPool.MoneyInPool|⟩],
           CustodyCall.FreezeCoins demoPool.Owner
             [⟨(demoBuy 0).Money, |demoPoolAfterBuy.MoneyInPool - demoPool.MoneyInPool|⟩],
           CustodyCall.UnFreezeCoins demoPool.Owner [⟨(demoBuy 0).Stock, (demoBuy 0).Amount⟩],
           CustodyCall.SendCoins demoPool.Owner (demoBuy 0).Sender
             [⟨(demoBuy 0).Stock, (demoBuy 0).Amount⟩]]
        else
          [CustodyCall.DeductFee (demoBuy 0).Sender fee,
           CustodyCall.SendCoins (demoBuy 0).Sender demoPool.Owner
             [⟨(demoBuy 0).Stock, (demoBuy 0).Amount⟩],
           CustodyCall.FreezeCoins demoPool.Owner [⟨(demoBuy 0).Stock, (demoBuy 0).Amount⟩],
           CustodyCall.UnFreezeCoins demoPool.Owner
             [⟨(demoBuy 0).Money, |demoPoolAfterBuy.MoneyInPool - demoPool.MoneyInPool|⟩],
           CustodyCall.SendCoins demoPool.Owner (demoBuy 0).Sender
             [⟨(demoBuy 0).Money, |demoPoolAfterBuy.MoneyInPool - demoPool.MoneyInPool|⟩]]) :=
  have h := C14_money_moved (demoKeeper true) (demoCtx 50) (demoBuy 0) demoPool
    demoPoolAfterBuy (by decide) (by decide) (by decide) (by decide)
  ⟨by decide, by decide, h.2.2.2.2 (by decide)⟩

/-- C14 as stated fails. On the empty context the Init of abc/cet with initPrice 1 and
maxPrice -10 succeeds; on the record it stores, bob's buy of 500 passes the curve
update with newMoneyInPool − moneyInPool = -875, so the money amount of the trade is
-875: negative, and not |newMoneyInPool − moneyInPool| = 875. The trade succeeds and
its custody calls carry the coin of -875 cet from bob to the owner. -/
theorem C14_counterexample :
    (handleMsgBancorInit (demoKeeper true) (emptyCtx 50) demoInitBadPrice).1
      = Result.empty ∧
    Bik.Load (handleMsgBancorInit (demoKeeper true) (emptyCtx 50) demoInitBadPrice).2
      (demoBuy500.Stock ++ SymbolSeparator ++ demoBuy500.Money) = some demoPoolBadPrice ∧
    0 < demoBuy500.Amount ∧
    demoPoolBadPrice.UpdateStockInPool (tradeStockInPool demoPoolBadPrice demoBuy500)
      = some demoPoolBadPriceAfterBuy ∧
    tradeDiff demoPoolBadPrice demoPoolBadPriceAfterBuy demoBuy500 = -875 ∧
    |demoPoolBadPriceAfterBuy.MoneyInPool - demoPoolBadPrice.MoneyInPool| = 875 ∧
    ¬ (0 ≤ tradeDiff demoPoolBadPrice demoPoolBadPriceAfterBuy demoBuy500) ∧
    tradeDiff demoPoolBadPrice demoPoolBadPriceAfterBuy demoBuy500 ≠
      |demoPoolBadPriceAfterBuy.MoneyInPool - demoPoolBadPrice.MoneyInPool| ∧
    (handleMsgBancorTrade (demoKeeper true)
      (handleMsgBancorInit (demoKeeper true) (emptyCtx 50) demoInitBadPrice).2
      demoBuy500).1.IsOK = true ∧
    (handleMsgBancorTrade (demoKeeper true)
      (handleMsgBancorInit (demoKeeper true) (emptyCtx 50) demoInitBadPrice).2
      demoBuy500).2.calls =
      (handleMsgBancorInit (demoKeeper true) (emptyCtx 50) demoInitBadPrice).2.calls ++
        [CustodyCall.DeductFee bob [],
         CustodyCall.SendCoins bob alice [⟨"cet", -875⟩],
         CustodyCall.FreezeCoins alice [⟨"cet", -875⟩],
         CustodyCall.UnFreezeCoins alice [⟨"abc", 500⟩],
         CustodyCall.SendCoins alice bob [⟨"abc", 500⟩]] := by
  refine ⟨by decide, by decide, by decide, by decide, by decide, by decide, by decide,
    by decide, by decide, by decide⟩

/-! ### The ledger and the escrow of a pool -/

/-- A recorded freeze that returned without error, read on the ledger. -/
theorem FreezeCoins_eq_world (k : Keeper W) (c c2 : Ctx W) (a : AccAddress) (amt : Coins)
    (r : Option SdkError) (h : k.FreezeCoins c a amt = (r, c2)) :
    k.Bxk.FreezeCoins c.world a amt = (r, c2.world) := by
  have h1 := congrArg Prod.fst h
  have h2 := congrArg (fun p => p.2.world) h
  simp only [FreezeCoins_fst, FreezeCoins_world] at h1 h2
  exact Prod.ext h1 h2

/-- A recorded unfreeze, read on the ledger. -/
theorem UnFreezeCoins_eq_world (k : Keeper W) (c c2 : Ctx W) (a : AccAddress) (amt : Coins)
    (r : Option SdkError) (h : k.UnFreezeCoins c a amt = (r, c2)) :
    k.Bxk.UnFreezeCoins c.world a amt = (r, c2.world) := by
  have h1 := congrArg Prod.fst h
  have h2 := congrArg (fun p => p.2.world) h
  simp only [UnFreezeCoins_fst, UnFreezeCoins_world] at h1 h2
  exact Prod.ext h1 h2

/-- A recorded send, read on the ledger. -/
theorem SendCoins_eq_world (k : Keeper W) (c c2 : Ctx W) (a b : AccAddress) (amt : Coins)
    (r : Option SdkError) (h : k.SendCoins c a b amt = (r, c2)) :
    k.Bxk.SendCoins c.world a b amt = (r, c2.world) := by
  have h1 := congrArg Prod.fst h
  have h2 := congrArg (fun p => p.2.world) h
  simp only [SendCoins_fst, SendCoins_world] at h1 h2
  exact Prod.ext h1 h2

/-- A recorded fee deduction, read on the ledger. -/
theorem DeductFee_eq_world (k : Keeper W) (c c2 : Ctx W) (a : AccAddress) (amt : Coins)
    (r : Option SdkError) (h : k.DeductFee c a amt = (r, c2)) :
    k.Bxk.DeductFee c.world a amt = (r, c2.world) := by
  have h1 := congrArg Prod.fst h
  have h2 := congrArg (fun p => p.2.world) h
  simp only [DeductFee_fst, DeductFee_world] at h1 h2
  exact Prod.ext h1 h2

/-- A send leaves every frozen balance as it was. -/
theorem Ledger.send_frozen (l l2 : Ledger) (src dst : AccAddress) (amt : Coins)
    (r : Option SdkError) (h : Ledger.send l src dst amt = (r, l2)) : l2.frozen = l.frozen := by
  unfold Ledger.send at h
  split at h
  · simp only [Prod.mk.injEq] at h
    rw [← h.2]
  · simp only [Prod.mk.injEq] at h
    rw [← h.2]

/-- A fee deduction leaves every frozen balance as it was. -/
theorem Ledger.deductFee_frozen (l l2 : Ledger) (acc : AccAddress) (amt : Coins)
    (r : Option SdkError) (h : Ledger.deductFee l acc amt = (r, l2)) : l2.frozen = l.frozen := by
  unfold Ledger.deductFee at h
  split at h
  · simp only [Prod.mk.injEq] at h
    rw [← h.2]
  · simp only [Prod.mk.injEq] at h
    rw [← h.2]

/-- A freeze that succeeds adds the coins to the account's frozen balance. -/
theorem Ledger.freeze_frozen (l l2 : Ledger) (acc : AccAddress) (amt : Coins)
    (h : Ledger.freeze l acc amt = (none, l2)) (d : String) :
    l2.frozen acc d = l.frozen acc d + amt.AmountOf d := by
  unfold Ledger.freeze at h
  split at h
  · simp only [Prod.mk.injEq, true_and] at h
    rw [← h]
    simp
  · simp at h

/-- An unfreeze that succeeds takes the coins off the account's frozen balance. -/
theorem Ledger.unfreeze_frozen (l l2 : Ledger) (acc : AccAddress) (amt : Coins)
    (h : Ledger.unfreeze l acc amt = (none, l2)) (d : String) :
    l2.frozen acc d = l.frozen acc d - amt.AmountOf d := by
  unfold Ledger.unfreeze at h
  split at h
  · simp only [Prod.mk.injEq, true_and] at h
    rw [← h]
    simp
  · simp at h

/-- The amount of a denomination in a one-coin list. -/
theorem AmountOf_single (denom d : String) (amount : Int) :
    Coins.AmountOf [⟨denom, amount⟩] d = if denom = d then amount else 0 := by
  by_cases h : denom = d <;> simp [Coins.AmountOf, h]

/-- The contexts a successful trade goes through: each of the five custody calls
returned without error, and the record of the curve model is saved last. -/
theorem trade_ok_steps (k : Keeper W) (ctx : Ctx W) (msg : MsgBancorTrade) (bi : BancorInfo)
    (hload : Bik.Load ctx (msg.Stock ++ SymbolSeparator ++ msg.Money) = some bi)
    (hok : (handleMsgBancorTrade k ctx msg).1.IsOK = true) :
    ∃ biNew price c1 c2 c3 c4 c5,
      bi.UpdateStockInPool (tradeStockInPool bi msg) = some biNew ∧
      k.DeductFee ctx msg.Sender
        (NewCoins [NewCoin "cet" (tradeCommission price msg ctx.param)]) = (none, c1) ∧
      k.SendCoins c1 msg.Sender bi.Owner (tradeCoinsToPool bi biNew msg) = (none, c2) ∧
      k.FreezeCoins c2 bi.Owner (tradeCoinsToPool bi biNew msg) = (none, c3) ∧
      k.UnFreezeCoins c3 bi.Owner (tradeCoinsFromPool bi biNew msg) = (none, c4) ∧
      k.SendCoins c4 bi.Owner msg.Sender (tradeCoinsFromPool bi biNew msg) = (none, c5) ∧
      (handleMsgBancorTrade k ctx msg).2 =
        (Bik.Save c5 biNew).EmitEvents (tradeEvents bi biNew msg) := by
  obtain ⟨b, biNew, price, hl, hne, hupd, hcross, hprice, -, -⟩ := trade_ok_inv k ctx msg hok
  have hb : b = bi := Option.some.inj (hl.symm.trans hload)
  subst hb
  have hown : bytesEqual b.Owner msg.Sender = false := by simpa [bytesEqual] using hne
  rw [trade_unfold_guards k ctx msg b biNew price hload hown hupd hcross hprice] at hok ⊢
  split at hok
  · simp [SdkError.Result, Result.IsOK] at hok
  rename_i c1 e1
  split at hok
  · simp [SdkError.Result, Result.IsOK] at hok
  rename_i c2 e2
  split at hok
  · simp [SdkError.Result, Result.IsOK] at hok
  rename_i c3 e3
  split at hok
  · simp [SdkError.Result, Result.IsOK] at hok
  rename_i c4 e4
  split at hok
  · simp [SdkError.Result, Result.IsOK] at hok
  rename_i c5 e5
  refine ⟨biNew, price, c1, c2, c3, c4, c5, hupd, e1, e2, e3, e4, e5, ?_⟩
  simp only [e1, e2, e3, e4, e5]

/-- Through a successful trade over the ledger, the pool owner's frozen balance of
any denomination grows by what coinsToPool holds of it and shrinks by what
coinsFromPool holds of it. -/
theorem trade_ok_frozen (axk : ExpectedAssetStatusKeeper Ledger)
    (mk : ExpectedMarketKeeper Ledger) (ctx : Ctx Ledger) (msg : MsgBancorTrade)
    (bi : BancorInfo)
    (hload : Bik.Load ctx (msg.Stock ++ SymbolSeparator ++ msg.Money) = some bi)
    (hok : (handleMsgBancorTrade (ledgerKeeper axk mk) ctx msg).1.IsOK = true) :
    ∃ biNew, bi.UpdateStockInPool (tradeStockInPool bi msg) = some biNew ∧
      (handleMsgBancorTrade (ledgerKeeper axk mk) ctx msg).2.pools = (Bik.Save ctx biNew).pools ∧
      ∀ d, (handleMsgBancorTrade (ledgerKeeper axk mk) ctx msg).2.world.frozen bi.Owner d =
        ctx.world.frozen bi.Owner d + (tradeCoinsToPool bi biNew msg).AmountOf d
          - (tradeCoinsFromPool bi biNew msg).AmountOf d := by
  obtain ⟨biNew, price, c1, c2, c3, c4, c5, hupd, e1, e2, e3, e4, e5, hfin⟩ :=
    trade_ok_steps (ledgerKeeper axk mk) ctx msg bi hload hok
  have p1 : c1.pools = ctx.pools := by rw [← congrArg (fun p => p.2.pools) e1]; rfl
  have p2 : c2.pools = c1.pools := by rw [← congrArg (fun p => p.2.pools) e2]; rfl
  have p3 : c3.pools = c2.pools := by rw [← congrArg (fun p => p.2.pools) e3]; rfl
  have p4 : c4.pools = c3.pools := by rw [← congrArg (fun p => p.2.pools) e4]; rfl
  have p5 : c5.pools = c4.pools := by rw [← congrArg (fun p => p.2.pools) e5]; rfl
  have w1 := Ledger.deductFee_frozen _ _ _ _ _ (DeductFee_eq_world _ _ _ _ _ _ e1)
  have w2 := Ledger.send_frozen _ _ _ _ _ _ (SendCoins_eq_world _ _ _ _ _ _ _ e2)
  have w3 := Ledger.freeze_frozen _ _ _ _ (FreezeCoins_eq_world _ _ _ _ _ _ e3)
  have w4 := Ledger.unfreeze_frozen _ _ _ _ (UnFreezeCoins_eq_world _ _ _ _ _ _ e4)
  have w5 := Ledger.send_frozen _ _ _ _ _ _ (SendCoins_eq_world _ _ _ _ _ _ _ e5)
  refine ⟨biNew, hupd, ?_, fun d => ?_⟩
  · rw [hfin]
    simp only [Ctx.EmitEvents, Bik.Save, p5, p4, p3, p2, p1]
  · rw [hfin]
    simp only [Ctx.EmitEvents, Save_world]
    rw [w5, w4 d, w3 d, w2, w1]

/-- C16: for a successful trade over the ledger on a pool of a pair whose stock
and money differ, the pool owner's frozen balance changes by
new stockInPool − old stockInPool in the stock asset and by
new moneyInPool − old moneyInPool in the money asset; so if the owner's frozen
balances equalled the pool's two reserves before the trade, they equal the reserves
of the record stored after it. -/
theorem C16_escrow_follows_reserves (axk : ExpectedAssetStatusKeeper Ledger)
    (mk : ExpectedMarketKeeper Ledger) (ctx : Ctx Ledger) (msg : MsgBancorTrade)
    (bi : BancorInfo)
    (hload : Bik.Load ctx (msg.Stock ++ SymbolSeparator ++ msg.Money) = some bi)
    (hs : bi.Stock = msg.Stock) (hm : bi.Money = msg.Money) (hdiff : bi.Stock ≠ bi.Money)
    (hok : (handleMsgBancorTrade (ledgerKeeper axk mk) ctx msg).1.IsOK = true) :
    ∃ biNew,
      Bik.Load (handleMsgBancorTrade (ledgerKeeper axk mk) ctx msg).2
        (msg.Stock ++ SymbolSeparator ++ msg.Money) = some biNew ∧
      (handleMsgBancorTrade (ledgerKeeper axk mk) ctx msg).2.world.frozen bi.Owner bi.Stock
          - ctx.world.frozen bi.Owner bi.Stock = biNew.StockInPool - bi.StockInPool ∧
      (handleMsgBancorTrade (ledgerKeeper axk mk) ctx msg).2.world.frozen bi.Owner bi.Money
          - ctx.world.frozen bi.Owner bi.Money = biNew.MoneyInPool - bi.MoneyInPool ∧
      (ctx.world.frozen bi.Owner bi.Stock = bi.StockInPool →
        ctx.world.frozen bi.Owner bi.Money = bi.MoneyInPool →
        (handleMsgBancorTrade (ledgerKeeper axk mk) ctx msg).2.world.frozen biNew.Owner
            biNew.Stock = biNew.StockInPool ∧
        (handleMsgBancorTrade (ledgerKeeper axk mk) ctx msg).2.world.frozen biNew.Owner
            biNew.Money = biNew.MoneyInPool) := by
  obtain ⟨biNew, hupd, hpools, hfrozen⟩ := trade_ok_frozen axk mk ctx msg bi hload hok
  obtain ⟨-, -, h2, -, h4, h5, h6⟩ := UpdateStockInPool_some _ _ _ hupd
  have hdiff2 : ¬ msg.Stock = msg.Money := by rw [← hs, ← hm]; exact hdiff
  have hdiff3 : ¬ msg.Money = msg.Stock := fun e => hdiff2 e.symm
  have hstock : (handleMsgBancorTrade (ledgerKeeper axk mk) ctx msg).2.world.frozen bi.Owner
      bi.Stock - ctx.world.frozen bi.Owner bi.Stock = biNew.StockInPool - bi.StockInPool := by
    rw [hfrozen, h2, hs]
    unfold tradeCoinsToPool tradeCoinsFromPool tradeStockInPool
    cases msg.IsBuy <;> simp [AmountOf_single, hdiff3]
  have hmoney : (handleMsgBancorTrade (ledgerKeeper axk mk) ctx msg).2.world.frozen bi.Owner
      bi.Money - ctx.world.frozen bi.Owner bi.Money = biNew.MoneyInPool - bi.MoneyInPool := by
    rw [hfrozen, hm]
    unfold tradeCoinsToPool tradeCoinsFromPool tradeDiff
    cases msg.IsBuy <;> simp [AmountOf_single, hdiff2]
  refine ⟨biNew, ?_, hstock, hmoney, ?_⟩
  · unfold Bik.Load
    rw [hpools]
    simp [Bik.Save, h4, h5, hs, hm]
  · intro e1 e2
    rw [h6, h4, h5]
    constructor <;> omega

/-- C16, on the ledger where alice has 1000 abc frozen for the pool abc/cet and
bob holds 500 cet: after bob's buy of 100, alice has 900 abc and 105 cet frozen,
the reserves of the stored record. -/
theorem C16_escrow_follows_reserves_witness :
    (handleMsgBancorTrade (ledgerKeeper demoAxk demoMk) demoLedgerCtx (demoBuy 0)).2.world.frozen
      alice "abc" = 900 ∧
    (handleMsgBancorTrade (ledgerKeeper demoAxk demoMk) demoLedgerCtx (demoBuy 0)).2.world.frozen
      alice "cet" = 105 ∧
    ∃ biNew,
      Bik.Load (handleMsgBancorTrade (ledgerKeeper demoAxk demoMk) demoLedgerCtx (demoBuy 0)).2
        ((demoBuy 0).Stock ++ SymbolSeparator ++ (demoBuy 0).Money) = some biNew ∧
      (handleMsgBancorTrade (ledgerKeeper demoAxk demoMk) demoLedgerCtx
          (demoBuy 0)).2.world.frozen demoPool.Owner demoPool.Stock
        - demoLedgerCtx.world.frozen demoPool.Owner demoPool.Stock
        = biNew.StockInPool - demoPool.StockInPool :=
  have h := C16_escrow_follows_reserves demoAxk demoMk demoLedgerCtx (demoBuy 0) demoPool
    (by decide) (by decide) (by decide) (by decide) (by decide)
  ⟨by decide, by decide, h.elim fun b hb => ⟨b, hb.1, hb.2.1⟩⟩

/-- The first two guards of Init after the existence check, on a free key. -/
theorem init_token_guards (k : Keeper W) (ctx : Ctx W) (msg : MsgBancorInit)
    (hfree : Bik.Load ctx (msg.Stock ++ SymbolSeparator ++ msg.Money) = none) :
    ((k.Axk.IsTokenExists ctx.world msg.Stock = false ∨
        k.Axk.IsTokenExists ctx.world msg.Money = false) →
      handleMsgBancorInit k ctx msg = (HandlerError.ErrNoSuchToken.Result, ctx)) ∧
    (k.Axk.IsTokenExists ctx.world msg.Stock = true →
      k.Axk.IsTokenExists ctx.world msg.Money = true →
      k.Axk.IsTokenIssuer ctx.world msg.Stock msg.Owner = false →
      handleMsgBancorInit k ctx msg = (HandlerError.ErrNonOwnerIsProhibited.Result, ctx)) := by
  constructor
  · intro h
    unfold handleMsgBancorInit
    rcases h with h | h <;> simp [hfree, h]
  · intro h1 h2 h3
    unfold handleMsgBancorInit
    simp [hfree, h1, h2, h3]

/-! ### The order of the guards -/

/-- C21 (as amended): when a request violates more than one guard, the error
returned is that of the violated guard that comes first in the order of the handler
itself. Init: pair uniqueness, then token existence, then issuer of stock, then
market existence. Cancel: pool existence, then ownership of the pool, then cooldown,
then market existence. Trade: pool existence, then anti-self-trade, then curve
bounds, then slippage, then price lookup. Each line below assumes nothing about the
guards that come later. -/
theorem C21_guard_order (k : Keeper W) (ctx : Ctx W) :
    (∀ (msg : MsgBancorInit) (bi : BancorInfo),
      Bik.Load ctx (msg.Stock ++ SymbolSeparator ++ msg.Money) = some bi →
      (handleMsgBancorInit k ctx msg).1 = HandlerError.ErrBancorAlreadyExists.Result) ∧
    (∀ msg : MsgBancorInit,
      Bik.Load ctx (msg.Stock ++ SymbolSeparator ++ msg.Money) = none →
      (k.Axk.IsTokenExists ctx.world msg.Stock = false ∨
        k.Axk.IsTokenExists ctx.world msg.Money = false) →
      (handleMsgBancorInit k ctx msg).1 = HandlerError.ErrNoSuchToken.Result) ∧
    (∀ msg : MsgBancorInit,
      Bik.Load ctx (msg.Stock ++ SymbolSeparator ++ msg.Money) = none →
      k.Axk.IsTokenExists ctx.world msg.Stock = true →
      k.Axk.IsTokenExists ctx.world msg.Money = true →
      k.Axk.IsTokenIssuer ctx.world msg.Stock msg.Owner = false →
      (handleMsgBancorInit k ctx msg).1 = HandlerError.ErrNonOwnerIsProhibited.Result) ∧
    (∀ (msg : MsgBancorCancel) (bi : BancorInfo),
      Bik.Load ctx (msg.Stock ++ SymbolSeparator ++ msg.Money) = some bi →
      msg.Owner ≠ bi.Owner →
      (handleMsgBancorCancel k ctx msg).1 = HandlerError.ErrNotBancorOwner.Result) ∧
    (∀ (msg : MsgBancorCancel) (bi : BancorInfo),
      Bik.Load ctx (msg.Stock ++ SymbolSeparator ++ msg.Money) = some bi →
      msg.Owner = bi.Owner → ctx.blockTime < bi.EnableCancelTime →
      (handleMsgBancorCancel k ctx msg).1 = HandlerError.ErrEnableCancelTimeNotArrive.Result) ∧
    (∀ (msg : MsgBancorCancel) (bi : BancorInfo),
      Bik.Load ctx (msg.Stock ++ SymbolSeparator ++ msg.Money) = some bi →
      msg.Owner = bi.Owner → bi.EnableCancelTime ≤ ctx.blockTime →
      k.Mk.IsMarketExist ctx.world (msg.Stock ++ SymbolSeparator ++ "cet") = false →
      (handleMsgBancorCancel k ctx msg).1 = HandlerError.ErrNonMarketExist.Result) ∧
    (∀ (msg : MsgBancorTrade) (bi : BancorInfo),
      Bik.Load ctx (msg.Stock ++ SymbolSeparator ++ msg.Money) = some bi →
      msg.Sender = bi.Owner →
      (handleMsgBancorTrade k ctx msg).1 = HandlerError.ErrOwnerIsProhibited.Result) ∧
    (∀ (msg : MsgBancorTrade) (bi : BancorInfo),
      Bik.Load ctx (msg.Stock ++ SymbolSeparator ++ msg.Money) = some bi →
      bi.Owner ≠ msg.Sender →
      bi.UpdateStockInPool (tradeStockInPool bi msg) = none →
      (handleMsgBancorTrade k ctx msg).1 = HandlerError.ErrStockInPoolOutofBound.Result) ∧
    (∀ (msg : MsgBancorTrade) (bi biNew : BancorInfo),
      Bik.Load ctx (msg.Stock ++ SymbolSeparator ++ msg.Money) = some bi →
      bi.Owner ≠ msg.Sender →
      bi.UpdateStockInPool (tradeStockInPool bi msg) = some biNew →
      tradeMoneyCrossLimit bi biNew msg = true →
      (handleMsgBancorTrade k ctx msg).1
        = (HandlerError.ErrMoneyCrossLimit (tradeMoneyErr msg)).Result) := by
  refine ⟨?_, ?_, ?_, ?_, ?_, ?_, ?_, ?_, ?_⟩
  · intro msg bi h
    rw [init_exists k ctx msg bi h]
  · intro msg h1 h2
    rw [(init_token_guards k ctx msg h1).1 h2]
  · intro msg h1 h2 h3 h4
    rw [(init_token_guards k ctx msg h1).2 h2 h3 h4]
  · intro msg bi h1 h2
    have hne2 : ¬ bi.Owner = msg.Owner := fun e => h2 e.symm
    unfold handleMsgBancorCancel
    simp [h1, bytesEqual, hne2]
  · intro msg bi h1 h2 h3
    unfold handleMsgBancorCancel
    simp [h1, h2, bytesEqual, h3]
  · intro msg bi h1 h2 h3 h4
    have ht : ¬ ctx.blockTime < bi.EnableCancelTime := by omega
    unfold handleMsgBancorCancel
    simp [h1, h2, bytesEqual, ht, h4]
  · intro msg bi h1 h2
    rw [owner_trade_refused k ctx msg bi h1 h2]
  · intro msg bi h1 h2 h3
    unfold handleMsgBancorTrade
    simp [h1, h2, bytesEqual, h3]
  · intro msg bi biNew h1 h2 h3 h4
    have hown : bytesEqual bi.Owner msg.Sender = false := by simpa [bytesEqual] using h2
    rw [trade_unfold_slippage k ctx msg bi biNew h1 hown h3 h4]

/-- C21, at the pool abc/cet with no token registered: the Init of the same pair
answers ErrBancorAlreadyExists, and bob's Cancel before the cooldown answers
ErrNotBancorOwner. -/
theorem C21_guard_order_witness :
    (handleMsgBancorInit demoKeeperNoToken (demoCtx 50) demoInit).1
      = HandlerError.ErrBancorAlreadyExists.Result ∧
    (handleMsgBancorCancel (demoKeeper true) (demoCtx 50) bobCancel).1
      = HandlerError.ErrNotBancorOwner.Result :=
  ⟨(C21_guard_order demoKeeperNoToken (demoCtx 50)).1 demoInit demoPool (by decide),
   (C21_guard_order (demoKeeper true) (demoCtx 50)).2.2.2.1 bobCancel demoPool (by decide)
     (by decide)⟩

/-- C21 as stated fails: an Init naming tokens that are not registered, for the
pair abc/cet that already has a pool, does not answer ErrNoSuchToken but
ErrBancorAlreadyExists; and the Cancel by bob, who is not the owner, at block time
50 before enableCancelTime = 100 does not answer ErrEnableCancelTimeNotArrive but
ErrNotBancorOwner. -/
theorem C21_counterexample :
    Bik.Load (demoCtx 50) ("abc" ++ SymbolSeparator ++ "cet") = some demoPool ∧
    demoKeeperNoToken.Axk.IsTokenExists (demoCtx 50).world demoInit.Stock = false ∧
    (handleMsgBancorInit demoKeeperNoToken (demoCtx 50) demoInit).1.err
      = some HandlerError.ErrBancorAlreadyExists ∧
    (handleMsgBancorInit demoKeeperNoToken (demoCtx 50) demoInit).1.err
      ≠ some HandlerError.ErrNoSuchToken ∧
    bobCancel.Owner ≠ demoPool.Owner ∧ (demoCtx 50).blockTime < demoPool.EnableCancelTime ∧
    (handleMsgBancorCancel (demoKeeper true) (demoCtx 50) bobCancel).1.err
      = some HandlerError.ErrNotBancorOwner ∧
    (handleMsgBancorCancel (demoKeeper true) (demoCtx 50) bobCancel).1.err
      ≠ some HandlerError.ErrEnableCancelTimeNotArrive := by
  refine ⟨by decide, by decide, by decide, by decide, by decide, by decide, by decide,
    by decide⟩

/-! ### The price along the curve -/

/-- With initPrice ≤ maxPrice, the price of the curve does not grow when the
reserve of stock grows, for reserves up to maxSupply. -/
theorem curvePrice_antitone (bi : BancorInfo) (s1 s2 : Int)
    (hmax : bi.InitPrice.raw ≤ bi.MaxPrice.raw)
    (h0 : 0 ≤ s1) (h12 : s1 ≤ s2) (h2 : s2 ≤ bi.MaxSupply) :
    (bi.curvePrice s2).raw ≤ (bi.curvePrice s1).raw := by
  unfold BancorInfo.curvePrice Dec.QuoInt Dec.MulInt Dec.Add Dec.Sub
  simp only []
  have hM : 0 ≤ bi.MaxSupply := by omega
  have hx2 : 0 ≤ bi.MaxSupply - s2 := by omega
  have hx : bi.MaxSupply - s2 ≤ bi.MaxSupply - s1 := by omega
  have ha : 0 ≤ bi.MaxPrice.raw - bi.InitPrice.raw := by omega
  have hq := tdiv_mono_nonneg ((bi.MaxPrice.raw - bi.InitPrice.raw) * (bi.MaxSupply - s2))
    ((bi.MaxPrice.raw - bi.InitPrice.raw) * (bi.MaxSupply - s1)) bi.MaxSupply
    (mul_nonneg ha hx2) (mul_le_mul_of_nonneg_left hx ha) hM
  omega

/-- The price of the record the curve model returns is the curve's price at the
new reserve. -/
theorem UpdateStockInPool_price (bi biNew : BancorInfo) (stockInPool : Int)
    (h : bi.UpdateStockInPool stockInPool = some biNew) :
    biNew.Price = bi.curvePrice stockInPool := by
  unfold BancorInfo.UpdateStockInPool at h
  split at h
  · simp at h
  simp only [Option.some.injEq] at h
  subst h
  rfl

/-- C22 (as amended): for a pool with initPrice ≤ maxPrice and a move of the
reserve that the curve model accepts, from a reserve oldStock in [0, maxSupply] to
newStock, the price of the returned record is the curve's price at newStock; if
newStock < oldStock (stock bought out of the pool) it is ≥ the price at oldStock,
and if newStock > oldStock (stock sold into the pool) it is ≤ the price at
oldStock. -/
theorem C22_price_monotone (bi biNew : BancorInfo) (oldStock newStock : Int)
    (hmax : bi.InitPrice.raw ≤ bi.MaxPrice.raw)
    (hold0 : 0 ≤ oldStock) (hold1 : oldStock ≤ bi.MaxSupply)
    (hupd : bi.UpdateStockInPool newStock = some biNew) :
    biNew.Price = bi.curvePrice newStock ∧
    (newStock < oldStock → (bi.curvePrice oldStock).raw ≤ biNew.Price.raw) ∧
    (oldStock < newStock → biNew.Price.raw ≤ (bi.curvePrice oldStock).raw) := by
  obtain ⟨h0, h1, -, -, -, -, -⟩ := UpdateStockInPool_some _ _ _ hupd
  have hp := UpdateStockInPool_price _ _ _ hupd
  refine ⟨hp, ?_, ?_⟩
  · intro hlt
    rw [hp]
    exact curvePrice_antitone bi newStock oldStock hmax h0 (le_of_lt hlt) hold1
  · intro hlt
    rw [hp]
    exact curvePrice_antitone bi oldStock newStock hmax hold0 (le_of_lt hlt) h1

/-- C22, at the pool abc/cet (initPrice 1, maxPrice 2, maxSupply 1000): the move
from 1000 to 900 raises the price from 1 to 1.1. -/
theorem C22_price_monotone_witness :
    demoPoolAfterBuy.Price = ⟨1100000000000000000⟩ ∧
    demoPool.curvePrice 1000 = ⟨1000000000000000000⟩ ∧
    (demoPool.curvePrice 1000).raw ≤ demoPoolAfterBuy.Price.raw :=
  ⟨by decide, by decide,
   (C22_price_monotone demoPool demoPoolAfterBuy 1000 900 (by decide) (by decide)
     (by decide) (by decide)).2.1 (by decide)⟩

/-- C22 as stated fails: at the pool abc/cet the valid move from oldStock = 1000
to newStock = 900 < oldStock gives the price 1.1, which is not ≤ the price 1 at
oldStock; and the valid move back from oldStock = 900 to newStock = 1000 > oldStock
gives the price 1, which is not ≥ the price 1.1 at oldStock. -/
theorem C22_counterexample :
    demoPool.UpdateStockInPool 900 = some demoPoolAfterBuy ∧
    (demoPool.UpdateStockInPool 1000).map BancorInfo.Price = some ⟨1000000000000000000⟩ ∧
    demoPoolAfterBuy.Price = ⟨1100000000000000000⟩ ∧
    ¬ (demoPoolAfterBuy.Price.raw ≤ (demoPool.curvePrice 1000).raw) ∧
    (demoPoolAfterBuy.UpdateStockInPool 1000).map BancorInfo.Price
      = some ⟨1000000000000000000⟩ ∧
    ¬ (demoPoolAfterBuy.Price.raw ≤ (demoPoolAfterBuy.curvePrice 1000).raw) := by
  refine ⟨by decide, by decide, by decide, by decide, by decide, by decide⟩

/-! ### Events -/

/-- A successful Init returns the empty result. -/
theorem init_ok_result (k : Keeper W) (ctx : Ctx W) (msg : MsgBancorInit)
    (hok : (handleMsgBancorInit k ctx msg).1.IsOK = true) :
    (handleMsgBancorInit k ctx msg).1 = Result.empty := by
  revert hok
  unfold handleMsgBancorInit
  repeat' first
    | split
    | (dsimp only; split)
  all_goals first
    | (intro _; rfl)
    | (intro h; simp [HandlerError.Result, SdkError.Result, Result.IsOK] at h)

/-- A successful Cancel returns the empty result. -/
theorem cancel_ok_result (k : Keeper W) (ctx : Ctx W) (msg : MsgBancorCancel)
    (hok : (handleMsgBancorCancel k ctx msg).1.IsOK = true) :
    (handleMsgBancorCancel k ctx msg).1 = Result.empty := by
  revert hok
  unfold handleMsgBancorCancel
  repeat' first
    | split
    | (dsimp only; split)
  all_goals first
    | (intro _; rfl)
    | (intro h; simp [HandlerError.Result, SdkError.Result, Result.IsOK] at h)

/-- A successful Trade returns the events held by the context it leaves. -/
theorem trade_ok_result (k : Keeper W) (ctx : Ctx W) (msg : MsgBancorTrade)
    (hok : (handleMsgBancorTrade k ctx msg).1.IsOK = true) :
    (handleMsgBancorTrade k ctx msg).1 = ⟨none, (handleMsgBancorTrade k ctx msg).2.events⟩ := by
  revert hok
  unfold handleMsgBancorTrade
  repeat' first
    | split
    | (dsimp only; split)
  all_goals first
    | (intro _; rfl)
    | (intro h; simp [HandlerError.Result, SdkError.Result, Result.IsOK] at h)

/-- The custody calls of a successful trade leave the events of the context as they
were, and the trade adds its two events. -/
theorem trade_ok_events (k : Keeper W) (ctx : Ctx W) (msg : MsgBancorTrade) (bi : BancorInfo)
    (hload : Bik.Load ctx (msg.Stock ++ SymbolSeparator ++ msg.Money) = some bi)
    (hok : (handleMsgBancorTrade k ctx msg).1.IsOK = true) :
    ∃ biNew, bi.UpdateStockInPool (tradeStockInPool bi msg) = some biNew ∧
      (handleMsgBancorTrade k ctx msg).2.pools = (Bik.Save ctx biNew).pools ∧
      (handleMsgBancorTrade k ctx msg).2.events = ctx.events ++ tradeEvents bi biNew msg := by
  obtain ⟨biNew, price, c1, c2, c3, c4, c5, hupd, e1, e2, e3, e4, e5, hfin⟩ :=
    trade_ok_steps k ctx msg bi hload hok
  have v1 : c1.events = ctx.events := by rw [← congrArg (fun p => p.2.events) e1]; rfl
  have v2 : c2.events = c1.events := by rw [← congrArg (fun p => p.2.events) e2]; rfl
  have v3 : c3.events = c2.events := by rw [← congrArg (fun p => p.2.events) e3]; rfl
  have v4 : c4.events = c3.events := by rw [← congrArg (fun p => p.2.events) e4]; rfl
  have v5 : c5.events = c4.events := by rw [← congrArg (fun p => p.2.events) e5]; rfl
  have p1 : c1.pools = ctx.pools := by rw [← congrArg (fun p => p.2.pools) e1]; rfl
  have p2 : c2.pools = c1.pools := by rw [← congrArg (fun p => p.2.pools) e2]; rfl
  have p3 : c3.pools = c2.pools := by rw [← congrArg (fun p => p.2.pools) e3]; rfl
  have p4 : c4.pools = c3.pools := by rw [← congrArg (fun p => p.2.pools) e4]; rfl
  have p5 : c5.pools = c4.pools := by rw [← congrArg (fun p => p.2.pools) e5]; rfl
  refine ⟨biNew, hupd, ?_, ?_⟩
  · rw [hfin]
    simp only [Ctx.EmitEvents, Bik.Save, p5, p4, p3, p2, p1]
  · rw [hfin]
    simp only [Ctx.EmitEvents, Save_events, v5, v4, v3, v2, v1]

/-- C23 (as amended): a successful Trade returns a result whose events are those the
context already held followed by two events: one of type bancorlite whose trade-for
attribute is the pair key stock ++ separator ++ money of the pool, and one of type
message carrying the module name, the stockInPool, the moneyInPool and the price
(twice) of the record persisted, the trade side (Buy exactly when isBuy, else Sell),
the coins from the pool and the coins to the pool. A successful Init and a
successful Cancel return the empty result, which carries no event. -/
theorem C23_events (k : Keeper W) (ctx : Ctx W) :
    (∀ msg : MsgBancorInit, (handleMsgBancorInit k ctx msg).1.IsOK = true →
      (handleMsgBancorInit k ctx msg).1.Events = []) ∧
    (∀ msg : MsgBancorCancel, (handleMsgBancorCancel k ctx msg).1.IsOK = true →
      (handleMsgBancorCancel k ctx msg).1.Events = []) ∧
    (∀ (msg : MsgBancorTrade) (bi : BancorInfo),
      Bik.Load ctx (msg.Stock ++ SymbolSeparator ++ msg.Money) = some bi →
      (handleMsgBancorTrade k ctx msg).1.IsOK = true →
      ∃ biNew,
        Bik.Load (handleMsgBancorTrade k ctx msg).2 (bi.Stock ++ SymbolSeparator ++ bi.Money)
          = some biNew ∧
        (handleMsgBancorTrade k ctx msg).1.Events = ctx.events ++
          [ ⟨EventType.EventTypeBancorlite,
              [⟨AttributeKey.AttributeKeyTradeFor,
                AttributeValue.text (bi.Stock ++ SymbolSeparator ++ bi.Money)⟩]⟩,
            ⟨EventType.EventTypeMessage,
              [⟨AttributeKey.AttributeKeyModule, AttributeValue.ModuleName⟩,
               ⟨AttributeKey.AttributeNewStockInPool, AttributeValue.int biNew.StockInPool⟩,
               ⟨AttributeKey.AttributeNewMoneyInPool, AttributeValue.int biNew.MoneyInPool⟩,
               ⟨AttributeKey.AttributeNewPrice, AttributeValue.dec biNew.Price⟩,
               ⟨AttributeKey.AttributeNewPrice, AttributeValue.dec biNew.Price⟩,
               ⟨AttributeKey.AttributeTradeSide,
                AttributeValue.text (if msg.IsBuy then "Buy" else "Sell")⟩,
               ⟨AttributeKey.AttributeCoinsFromPool,
                AttributeValue.coins
                  (if msg.IsBuy then [⟨msg.Stock, msg.Amount⟩]
                   else [⟨msg.Money, bi.MoneyInPool - biNew.MoneyInPool⟩])⟩,
               ⟨AttributeKey.AttributeCoinsToPool,
                AttributeValue.coins
                  (if msg.IsBuy then [⟨msg.Money, biNew.MoneyInPool - bi.MoneyInPool⟩]
                   else [⟨msg.Stock, msg.Amount⟩])⟩]⟩ ]) := by
  refine ⟨fun msg hok => ?_, fun msg hok => ?_, fun msg bi hload hok => ?_⟩
  · rw [init_ok_result k ctx msg hok]
    rfl
  · rw [cancel_ok_result k ctx msg hok]
    rfl
  · obtain ⟨biNew, hupd, hpools, hev⟩ := trade_ok_events k ctx msg bi hload hok
    obtain ⟨-, -, -, -, h4, h5, -⟩ := UpdateStockInPool_some _ _ _ hupd
    refine ⟨biNew, ?_, ?_⟩
    · unfold Bik.Load
      rw [hpools]
      simp [Bik.Save, h4, h5]
    · rw [trade_ok_result k ctx msg hok, hev]
      simp only [tradeEvents, tradeSide, tradeCoinsFromPool, tradeCoinsToPool, tradeDiff]
      cases msg.IsBuy <;> rfl

/-- C23, at the pool abc/cet: bob's buy of 100 returns the two events of the trade,
with side Buy, the reserves 900 and 105 and the price 1.1 of the stored record. -/
theorem C23_events_witness :
    (handleMsgBancorTrade (demoKeeper true) (demoCtx 50) (demoBuy 0)).1.Events =
      [ ⟨EventType.EventTypeBancorlite,
          [⟨AttributeKey.AttributeKeyTradeFor, AttributeValue.text "abc/cet"⟩]⟩,
        ⟨EventType.EventTypeMessage,
          [⟨AttributeKey.AttributeKeyModule, AttributeValue.ModuleName⟩,
           ⟨AttributeKey.AttributeNewStockInPool, AttributeValue.int 900⟩,
           ⟨AttributeKey.AttributeNewMoneyInPool, AttributeValue.int 105⟩,
           ⟨AttributeKey.AttributeNewPrice, AttributeValue.dec ⟨1100000000000000000⟩⟩,
           ⟨AttributeKey.AttributeNewPrice, AttributeValue.dec ⟨1100000000000000000⟩⟩,
           ⟨AttributeKey.AttributeTradeSide, AttributeValue.text "Buy"⟩,
           ⟨AttributeKey.AttributeCoinsFromPool, AttributeValue.coins [⟨"abc", 100⟩]⟩,
           ⟨AttributeKey.AttributeCoinsToPool, AttributeValue.coins [⟨"cet", 105⟩]⟩]⟩ ] ∧
    (handleMsgBancorInit (demoKeeper true) (emptyCtx 50) demoInit).1.Events = [] :=
  ⟨by decide, (C23_events (demoKeeper true) (emptyCtx 50)).1 demoInit (by decide)⟩

/-- C23 as stated fails: the Init of abc/cet on the empty context succeeds and its
result carries no event; and the owner's Cancel of the stored pool abc/cet at block
time 100 succeeds and its result carries no event. -/
theorem C23_counterexample :
    (handleMsgBancorInit (demoKeeper true) (emptyCtx 50) demoInit).1.IsOK = true ∧
    (handleMsgBancorInit (demoKeeper true) (emptyCtx 50) demoInit).1.Events = [] ∧
    (handleMsgBancorInit (demoKeeper true) (emptyCtx 50) demoInit).2.events = [] ∧
    (handleMsgBancorCancel (demoKeeper true) (demoCtx 100) demoCancel).1.IsOK = true ∧
    (handleMsgBancorCancel (demoKeeper true) (demoCtx 100) demoCancel).1.Events = [] ∧
    (handleMsgBancorCancel (demoKeeper true) (demoCtx 100) demoCancel).2.events = [] := by
  refine ⟨by decide, by decide, by decide, by decide, by decide, by decide⟩

/-! ### The price precision of create-trading-pair -/

/-- With both tokens existing, getCreateMarketMsg decides on the price precision
narrowed to a byte: out of range gives the error, in range gives the message with
the narrowed value. -/
theorem getCreateMarketMsg_eq (q : String → Option String) (lo hi : Nat)
    (stock money : String) (v : Int) (hs : q stock = none) (hm : q money = none) :
    getCreateMarketMsg q lo hi ⟨some stock, some money, some v⟩ =
      if byteOfInt v < lo ∨ hi < byteOfInt v then
        Except.error (errPricePrecisionOutOfRange lo hi)
      else Except.ok ⟨stock, money, byteOfInt v⟩ := by
  simp [getCreateMarketMsg, parseCreateMarketFlags, hasTokens, hs, hm]

/-- C25, the code at the flag value 256 + MinTokenPricePrecision: for any byte
constants MinTokenPricePrecision ≤ MaxTokenPricePrecision and both tokens existing,
that integer lies above the range, yet getCreateMarketMsg returns no error but a
message whose PricePrecision is MinTokenPricePrecision, the value narrowed to a
byte; an integer inside the range gives the message with that integer. -/
theorem C25_price_precision_narrowed (hi : Fin 256) (lo : Fin (hi.val + 1)) :
    ¬ ((256 + lo.val : Int) ≤ hi.val) ∧
    getCreateMarketMsg allTokensExist lo.val hi.val
      ⟨some "eth", some "cet", some (256 + lo.val)⟩ = Except.ok ⟨"eth", "cet", lo.val⟩ ∧
    getCreateMarketMsg allTokensExist lo.val hi.val
      ⟨some "eth", some "cet", some lo.val⟩ = Except.ok ⟨"eth", "cet", lo.val⟩ := by
  have h1 := hi.isLt
  have h2 := lo.isLt
  have hb : byteOfInt (256 + (lo.val : Int)) = lo.val := by
    unfold byteOfInt
    omega
  have hb2 : byteOfInt (lo.val : Int) = lo.val := by
    unfold byteOfInt
    omega
  refine ⟨by omega, ?_, ?_⟩
  · rw [getCreateMarketMsg_eq allTokensExist _ _ _ _ _ rfl rfl, hb, if_neg (by omega)]
  · rw [getCreateMarketMsg_eq allTokensExist _ _ _ _ _ rfl rfl, hb2, if_neg (by omega)]

/-! ### The registry key -/

/-- Two lists split at a character that neither left part contains are split the
same way. -/
theorem append_cons_inj_of_not_mem (c : Char) :
    ∀ (l1 l2 r1 r2 : List Char), c ∉ l1 → c ∉ l2 → l1 ++ c :: r1 = l2 ++ c :: r2 →
      l1 = l2 ∧ r1 = r2
  | [], [], r1, r2, _, _, h => by
    simp only [List.nil_append, List.cons.injEq, true_and] at h
    exact ⟨rfl, h⟩
  | [], b :: l2, r1, r2, _, h2, h => by
    simp only [List.nil_append, List.cons_append, List.cons.injEq] at h
    exact absurd (h.1 ▸ List.mem_cons_self b l2) h2
  | a :: l1, [], r1, r2, h1, _, h => by
    simp only [List.nil_append, List.cons_append, List.cons.injEq] at h
    exact absurd (h.1 ▸ List.mem_cons_self a l1) h1
  | a :: l1, b :: l2, r1, r2, h1, h2, h => by
    simp only [List.cons_append, List.cons.injEq] at h
    have ih := append_cons_inj_of_not_mem c l1 l2 r1 r2
      (fun hm => h1 (List.mem_cons_of_mem a hm)) (fun hm => h2 (List.mem_cons_of_mem b hm)) h.2
    exact ⟨by rw [h.1, ih.1], ih.2⟩

/-- The characters of the key stock ++ separator ++ money. -/
theorem key_data (stock money : String) :
    (stock ++ SymbolSeparator ++ money).data = stock.data ++ '/' :: money.data := by
  simp [SymbolSeparator]

/-- The key is injective on pairs whose stock does not contain the separator. -/
theorem key_inj (s1 m1 s2 m2 : String) (h1 : '/' ∉ s1.data) (h2 : '/' ∉ s2.data)
    (h : s1 ++ SymbolSeparator ++ m1 = s2 ++ SymbolSeparator ++ m2) : s1 = s2 ∧ m1 = m2 := by
  have hd := congrArg String.data h
  rw [key_data, key_data] at hd
  obtain ⟨e1, e2⟩ := append_cons_inj_of_not_mem '/' _ _ _ _ h1 h2 hd
  exact ⟨String.ext e1, String.ext e2⟩

/-- C26: the registry key stock ++ separator ++ money, with the separator "/",
is injective on ordered pairs whose identifiers do not contain the separator (for
the stock identifiers alone this is already enough): equal keys give equal stocks
and equal moneys, so different pairs have different keys; in particular (a, b) and
(b, a) with a ≠ b have different keys, and saving or removing the pool of one pair
leaves what is stored for the other; without the restriction two different ordered
pairs can give one key. -/
theorem C26_key_injective (s1 m1 s2 m2 : String)
    (h1 : '/' ∉ s1.data) (h2 : '/' ∉ s2.data) :
    (s1 ++ SymbolSeparator ++ m1 = s2 ++ SymbolSeparator ++ m2 ↔ (s1 = s2 ∧ m1 = m2)) ∧
    ((s1, m1) ≠ (s2, m2) → s1 ++ SymbolSeparator ++ m1 ≠ s2 ++ SymbolSeparator ++ m2) ∧
    (∀ a b : String, '/' ∉ a.data → '/' ∉ b.data → a ≠ b →
      a ++ SymbolSeparator ++ b ≠ b ++ SymbolSeparator ++ a) ∧
    (∀ (ctx : Ctx W) (bi : BancorInfo), bi.Stock = s1 → bi.Money = m1 →
      (s1, m1) ≠ (s2, m2) →
      Bik.Load (Bik.Save ctx bi) (s2 ++ SymbolSeparator ++ m2)
        = Bik.Load ctx (s2 ++ SymbolSeparator ++ m2) ∧
      Bik.Load (Bik.Remove ctx bi) (s2 ++ SymbolSeparator ++ m2)
        = Bik.Load ctx (s2 ++ SymbolSeparator ++ m2)) ∧
    (("a/b", "c") ≠ (("a", "b/c") : String × String) ∧
      "a/b" ++ SymbolSeparator ++ "c" = "a" ++ SymbolSeparator ++ "b/c") := by
  have hne : (s1, m1) ≠ (s2, m2) → s1 ++ SymbolSeparator ++ m1 ≠ s2 ++ SymbolSeparator ++ m2 := by
    intro hp hk
    obtain ⟨e1, e2⟩ := key_inj s1 m1 s2 m2 h1 h2 hk
    exact hp (by rw [e1, e2])
  refine ⟨⟨key_inj s1 m1 s2 m2 h1 h2, ?_⟩, hne, ?_, ?_, by decide, by decide⟩
  · rintro ⟨e1, e2⟩
    rw [e1, e2]
  · intro a b ha hb hab hk
    exact hab (key_inj a b b a ha hb hk).1
  · intro ctx bi hs hm hp
    have hk : ¬ s2 ++ SymbolSeparator ++ m2 = bi.Stock ++ SymbolSeparator ++ bi.Money := by
      rw [hs, hm]
      exact fun e => hne hp e.symm
    simp [Bik.Load, Bik.Save, Bik.Remove, hk]

/-- C26, at the pairs (abc, cet) and (cet, abc): their keys differ. -/
theorem C26_key_injective_witness :
    "abc" ++ SymbolSeparator ++ "cet" ≠ "cet" ++ SymbolSeparator ++ "abc" :=
  (@C26_key_injective Unit "abc" "cet" "cet" "abc" (by decide) (by decide)).2.1
    (by decide)

end Bancorlite
